import Mathlib

/-!
# Study-challenge backend: group aggregate

A shallow embedding of `packages/backend/src/models/Group.js` and of the route
handlers in `routes/groups.js`, `routes/exams.js`, `routes/admin.js` that drive it.

Conventions of the embedding.

* An `ObjectId` is a natural number; `a.toString() === b.toString()` is equality.
* A `Date` is its millisecond count (`getTime()`), an integer; `new Date()` /
  `Date.now()` is an explicit argument `now`.
* A JavaScript `Number` that holds marks is a rational; a quotient whose divisor
  may be zero is a `JSNumber`, which keeps `Infinity` and `NaN` apart from the
  finite values.
* A method of the mongoose document returns an `Outcome`: the message of the
  `Error` it threw (if any) together with the document as the call left it.
* `save()` is its `pre('save')` hook followed by the write; a write that the store or the
  schema validators refuse is outside the model. The `createdAt` / `updatedAt` bookkeeping of
  `timestamps: true` is left out, except `createdAt` of a chat message, which the code reads.

The chat aggregate (`models/Chat.js`), the part of the join and leave handlers that mirrors
membership into the chat, and the `join_group` socket handler follow the group aggregate.
After them come the connection registry and the chat handlers of `socket/socketHandlers.js`,
the pagination of `routes/chat.js`, the `groupMember` middleware of `middleware/auth.js` and
the `groups` field of the users as the group routes maintain it.
-/

namespace StudyChallenge

abbrev UserId := Nat

abbrev Time := Int

/-- Member role, `members.role` enum. -/
inductive Role
  | creator
  | member
  deriving DecidableEq, Repr

/-- Member status, `members.status` enum. -/
inductive MemberStatus
  | active
  | left
  | removed
  deriving DecidableEq, Repr

/-- One entry of `group.members`. -/
structure Member where
  user : UserId
  joinedAt : Time
  role : Role
  status : MemberStatus
  deriving DecidableEq, Repr

/-- Invitation status, `invitations.status` enum. -/
inductive InvitationStatus
  | pending
  | accepted
  | declined
  | expired
  deriving DecidableEq, Repr

/-- One entry of `group.invitations`. -/
structure Invitation where
  user : UserId
  invitedBy : UserId
  invitedAt : Time
  status : InvitationStatus
  expiresAt : Time
  deriving DecidableEq, Repr

/-- Challenge status, `challenge.status` enum. -/
inductive ChallengeStatus
  | pending
  | active
  | completed
  | cancelled
  deriving DecidableEq, Repr

/-- The `group.challenge` sub-document; `duration` is in days. -/
structure Challenge where
  duration : Int
  startTime : Option Time
  endTime : Option Time
  status : ChallengeStatus
  isStarted : Bool
  examStarted : Bool
  examEndTime : Option Time
  deriving DecidableEq, Repr

/-- The `group.exam` sub-document. -/
structure Exam where
  paperUrl : Option String
  paperUploadedAt : Option Time
  maxMarks : ℚ
  duration : ℚ
  instructions : String
  deriving DecidableEq, Repr

/-- One entry of `submission.answerSheets`. -/
structure AnswerSheet where
  imageUrl : String
  uploadedAt : Time
  deriving DecidableEq, Repr

/-- One entry of `group.submissions`; `marks = none` is the schema default `null`. -/
structure Submission where
  user : UserId
  answerSheets : List AnswerSheet
  submittedAt : Time
  marks : Option ℚ
  feedback : String
  gradedAt : Option Time
  gradedBy : Option UserId
  deriving DecidableEq, Repr

/-- The `group.settings` sub-document. -/
structure Settings where
  isPrivate : Bool
  allowLateSubmissions : Bool
  showLeaderboard : Bool
  maxMembers : Nat
  deriving DecidableEq, Repr

/-- A JavaScript number produced by a division: finite, infinite or `NaN`. -/
inductive JSNumber
  | finite (q : ℚ)
  | posInfinity
  | negInfinity
  | nan
  deriving DecidableEq, Repr

/-- The `group.stats` sub-document. -/
structure Stats where
  totalSubmissions : Nat
  averageMarks : ℚ
  highestMarks : ℚ
  completionRate : JSNumber
  deriving DecidableEq, Repr

/-- The group document. -/
structure Group where
  name : String
  description : String
  subject : String
  chapter : String
  creator : UserId
  members : List Member
  invitations : List Invitation
  challenge : Challenge
  exam : Exam
  submissions : List Submission
  chat : Option Nat
  settings : Settings
  stats : Stats
  isActive : Bool
  deriving DecidableEq, Repr

/-- What a document method did: the thrown `Error` message, if any, and the document afterwards. -/
structure Outcome where
  thrown : Option String
  group : Group
  deriving DecidableEq, Repr

/-! ## JavaScript number helpers -/

/-- JavaScript `a / b` on finite operands. -/
def JSNumber.div (a b : ℚ) : JSNumber :=
  if b = 0 then
    if a = 0 then JSNumber.nan
    else if 0 < a then JSNumber.posInfinity
    else JSNumber.negInfinity
  else JSNumber.finite (a / b)

/-- JavaScript `x * 100`. -/
def JSNumber.times100 : JSNumber → JSNumber
  | JSNumber.finite q => JSNumber.finite (q * 100)
  | JSNumber.posInfinity => JSNumber.posInfinity
  | JSNumber.negInfinity => JSNumber.negInfinity
  | JSNumber.nan => JSNumber.nan

/-- JavaScript `Math.max(x, y)`. -/
def JSNumber.max : JSNumber → JSNumber → JSNumber
  | JSNumber.nan, _ => JSNumber.nan
  | _, JSNumber.nan => JSNumber.nan
  | JSNumber.posInfinity, _ => JSNumber.posInfinity
  | _, JSNumber.posInfinity => JSNumber.posInfinity
  | JSNumber.negInfinity, y => y
  | x, JSNumber.negInfinity => x
  | JSNumber.finite a, JSNumber.finite b => JSNumber.finite (Max.max a b)

/-- JavaScript `Math.min(x, y)`. -/
def JSNumber.min : JSNumber → JSNumber → JSNumber
  | JSNumber.nan, _ => JSNumber.nan
  | _, JSNumber.nan => JSNumber.nan
  | JSNumber.negInfinity, _ => JSNumber.negInfinity
  | _, JSNumber.negInfinity => JSNumber.negInfinity
  | JSNumber.posInfinity, y => y
  | x, JSNumber.posInfinity => x
  | JSNumber.finite a, JSNumber.finite b => JSNumber.finite (Min.min a b)

/-- Mutation through the reference returned by `Array.prototype.find`: the first element
satisfying `p` is replaced by `f` of it, every other element is kept. -/
def modifyFirst {α : Type} (p : α → Bool) (f : α → α) : List α → List α
  | [] => []
  | x :: xs => if p x then f x :: xs else x :: modifyFirst p f xs

/-! ## `models/Group.js` -/

/-- Milliseconds in `duration` days: `duration * 24 * 60 * 60 * 1000`. -/
def durationInMs (duration : Int) : Int :=
  duration * 24 * 60 * 60 * 1000

/-- Virtual `activeMembersCount`. -/
def activeMembersCount (g : Group) : Nat :=
  (g.members.filter (fun m => m.status == MemberStatus.active)).length

/-- Virtual `pendingInvitationsCount`. -/
def pendingInvitationsCount (g : Group) : Nat :=
  (g.invitations.filter (fun inv => inv.status == InvitationStatus.pending)).length

/-- The `pre('save')` hook: fills `endTime` when `startTime` is set and `endTime` is not. -/
def preSave (g : Group) : Group :=
  match g.challenge.startTime, g.challenge.endTime with
  | some s, none =>
    { g with challenge := { g.challenge with endTime := some (s + durationInMs g.challenge.duration) } }
  | _, _ => g

/-- Virtual `timeRemaining`, read at instant `now`. A `null` end time compares as `0`
in `now >= endTime`; `endTime.getTime()` on `null` is a `TypeError`. -/
def timeRemaining (g : Group) (now : Time) : Except String Int :=
  if !g.challenge.isStarted || g.challenge.status == ChallengeStatus.completed then
    Except.ok 0
  else
    match g.challenge.endTime with
    | none => if now ≥ 0 then Except.ok 0 else Except.error "TypeError"
    | some endTime =>
      if now ≥ endTime then Except.ok 0
      else Except.ok (Max.max 0 (endTime - now))

/-- Virtual `challengeProgress`, read at instant `now`. -/
def challengeProgress (g : Group) (now : Time) : Except String JSNumber :=
  if !g.challenge.isStarted then Except.ok (JSNumber.finite 0)
  else
    match g.challenge.endTime, g.challenge.startTime with
    | some endTime, some startTime =>
      let total : Int := endTime - startTime
      let elapsed : Int := now - startTime
      Except.ok (JSNumber.min (JSNumber.finite 100)
        (JSNumber.max (JSNumber.finite 0) (JSNumber.times100 (JSNumber.div elapsed total))))
    | _, _ => Except.error "TypeError"

/-- Method `startChallenge`, called at instant `now`. -/
def startChallenge (g : Group) (now : Time) : Outcome :=
  if g.challenge.isStarted then
    { thrown := some "Challenge has already started", group := g }
  else
    let g1 : Group := { g with challenge := { g.challenge with
      isStarted := true
      status := ChallengeStatus.active
      startTime := some now
      endTime := some (now + durationInMs g.challenge.duration) } }
    { thrown := none, group := preSave g1 }

/-- Method `addMember`. A reactivated member is changed on the document and the method
returns before `save`. -/
def addMember (g : Group) (userId : UserId) (role : Role) (now : Time) : Outcome :=
  match g.members.find? (fun m => m.user == userId) with
  | some existingMember =>
    if existingMember.status == MemberStatus.left
        || existingMember.status == MemberStatus.removed then
      let members1 := modifyFirst (fun m => m.user == userId)
        (fun m => { m with status := MemberStatus.active, joinedAt := now }) g.members
      { thrown := none, group := { g with members := members1 } }
    else
      { thrown := none, group := g }
  | none =>
    if activeMembersCount g ≥ g.settings.maxMembers then
      { thrown := some "Group has reached maximum member limit", group := g }
    else
      let newMember : Member :=
        { user := userId, joinedAt := now, role := role, status := MemberStatus.active }
      { thrown := none, group := preSave { g with members := g.members ++ [newMember] } }

/-- Method `removeMember`. -/
def removeMember (g : Group) (userId : UserId) : Outcome :=
  match g.members.find? (fun m => m.user == userId && m.status == MemberStatus.active) with
  | none => { thrown := some "Member not found in group", group := g }
  | some m =>
    if m.role == Role.creator then
      { thrown := some "Cannot remove group creator", group := g }
    else
      let members1 := modifyFirst (fun m => m.user == userId && m.status == MemberStatus.active)
        (fun m => { m with status := MemberStatus.removed }) g.members
      { thrown := none, group := preSave { g with members := members1 } }

/-- Method `submitExam`; `answerSheets` is the list of image URLs. -/
def submitExam (g : Group) (userId : UserId) (answerSheets : List String) (now : Time) : Outcome :=
  match g.submissions.find? (fun s => s.user == userId) with
  | some _ => { thrown := some "User has already submitted the exam", group := g }
  | none =>
    let submission : Submission :=
      { user := userId
        answerSheets := answerSheets.map (fun url => { imageUrl := url, uploadedAt := now })
        submittedAt := now
        marks := none
        feedback := ""
        gradedAt := none
        gradedBy := none }
    let stats1 : Stats := { g.stats with totalSubmissions := g.stats.totalSubmissions + 1 }
    { thrown := none
      group := preSave { g with submissions := g.submissions ++ [submission], stats := stats1 } }

/-- Marks of the graded submissions: `submissions.filter(s => s.marks !== null).map(s => s.marks)`. -/
def gradedMarks (g : Group) : List ℚ :=
  g.submissions.filterMap (fun s => s.marks)

/-- Method `updateStats`. -/
def updateStats (g : Group) : Group :=
  let stats1 : Stats :=
    match gradedMarks g with
    | [] => g.stats
    | m :: ms =>
      let totalMarks : ℚ := (m :: ms).foldl (fun sum x => sum + x) 0
      { g.stats with
        averageMarks := totalMarks / ((m :: ms).length : ℚ)
        highestMarks := ms.foldl Max.max m }
  let rate : JSNumber :=
    JSNumber.times100 (JSNumber.div (stats1.totalSubmissions : ℚ) (activeMembersCount g : ℚ))
  { g with stats := { stats1 with completionRate := rate } }

/-- The four assignments of `gradeSubmission` on the submission found: `marks`, `feedback`,
`gradedAt = new Date()` and `gradedBy`. -/
def gradedWith (s : Submission) (marks : ℚ) (feedback : String) (gradedBy : UserId)
    (now : Time) : Submission :=
  { s with marks := some marks, feedback := feedback, gradedAt := some now, gradedBy := some gradedBy }

/-- Method `gradeSubmission`, called at instant `now`; `marks` is a number (the grade route
validates `isNumeric`), `gradedBy` is `req.user._id`. -/
def gradeSubmission (g : Group) (userId : UserId) (marks : ℚ) (feedback : String)
    (gradedBy : UserId) (now : Time) : Outcome :=
  match g.submissions.find? (fun s => s.user == userId) with
  | none => { thrown := some "Submission not found", group := g }
  | some _ =>
    let submissions1 := modifyFirst (fun s => s.user == userId)
      (fun submission => gradedWith submission marks feedback gradedBy now) g.submissions
    let g1 : Group := { g with submissions := submissions1 }
    { thrown := none, group := preSave (updateStats g1) }

/-! ## Route handlers -/

/-- What a route handler sent back: a JSON body with its status code, or the error it
passed to `next`. -/
inductive Response
  | json (status : Nat) (success : Bool) (message : String)
  | next (error : String)
  deriving DecidableEq, Repr

/-- Result of a request: the response and the group as it is stored afterwards. -/
structure RouteResult where
  response : Response
  group : Group
  deriving DecidableEq, Repr

/-- `POST /api/groups`: the document built by the handler once `duration` has passed
validation; the creator is the only member. -/
def createGroup (creator : UserId) (name description subject chapter : String)
    (duration : Int) (chatId : Nat) (now : Time) : Group :=
  { name := name
    description := description
    subject := subject
    chapter := chapter
    creator := creator
    members := [{ user := creator, joinedAt := now, role := Role.creator, status := MemberStatus.active }]
    invitations := []
    challenge :=
      { duration := duration
        startTime := none
        endTime := none
        status := ChallengeStatus.pending
        isStarted := false
        examStarted := false
        examEndTime := none }
    exam :=
      { paperUrl := none
        paperUploadedAt := none
        maxMarks := 100
        duration := 180
        instructions := "" }
    submissions := []
    chat := some chatId
    settings :=
      { isPrivate := true
        allowLateSubmissions := false
        showLeaderboard := true
        maxMembers := 10 }
    stats :=
      { totalSubmissions := 0
        averageMarks := 0
        highestMarks := 0
        completionRate := JSNumber.finite 0 }
    isActive := true }

/-- A file of `req.files`, as the upload middleware hands it to the handler. -/
structure UploadedFile where
  filename : String
  deriving DecidableEq, Repr

/-- `POST /api/exams/:groupId/submit`, the handler, with `req.group = g`,
`req.user._id = userId` and `req.files = files` (`none` when absent). -/
def submitRoute (g : Group) (userId : UserId) (files : Option (List UploadedFile))
    (now : Time) : RouteResult :=
  if !g.challenge.examStarted then
    { response := Response.json 400 false "Exam has not started yet", group := g }
  else
    match g.submissions.find? (fun s => s.user == userId) with
    | some _ =>
      { response := Response.json 400 false "You have already submitted this exam", group := g }
    | none =>
      match files with
      | none =>
        { response := Response.json 400 false "At least one answer sheet image is required"
          group := g }
      | some [] =>
        { response := Response.json 400 false "At least one answer sheet image is required"
          group := g }
      | some (f :: fs) =>
        let imageUrls := (f :: fs).map (fun file => "/uploads/" ++ file.filename)
        let out := submitExam g userId imageUrls now
        match out.thrown with
        | some e => { response := Response.next e, group := g }
        | none =>
          { response := Response.json 200 true "Exam submitted successfully", group := out.group }

/-- `POST /api/admin/submissions/:groupId/:userId/grade`, the handler, on the group found. -/
def gradeRoute (g : Group) (userId : UserId) (marks : ℚ) (feedback : String)
    (grader : UserId) (now : Time) : RouteResult :=
  let out := gradeSubmission g userId marks feedback grader now
  match out.thrown with
  | some e => { response := Response.next e, group := g }
  | none =>
    { response := Response.json 200 true "Submission graded successfully", group := out.group }

/-- Result of `User.findById` in the invite loop. -/
inductive UserLookup
  | found
  | missing
  | failed (error : String)
  deriving DecidableEq, Repr

/-- One entry of `req.body.userIds` with what the collaborators answer for it: the ObjectId the
string denotes, whether the string is that id in its `toString()` spelling (the loop compares
`m.user.toString() === userId`), the directory lookup, and the error of
`Notification.createGroupInvite` if it throws. -/
structure InviteRequest where
  userId : UserId
  canonical : Bool
  lookup : UserLookup
  notifyError : Option String
  deriving DecidableEq, Repr

/-- State of the invite loop: the document and the two report lists. -/
structure InviteState where
  group : Group
  invitedUsers : List UserId
  failedInvites : List (UserId × String)
  deriving DecidableEq, Repr

/-- Seven days in milliseconds, the default of `invitations.expiresAt`. -/
def invitationLifetime : Int :=
  7 * 24 * 60 * 60 * 1000

/-- One iteration of the `for (const userId of userIds)` loop of the invite handler. -/
def inviteStep (inviter : UserId) (now : Time) (st : InviteState) (r : InviteRequest) :
    InviteState :=
  match r.lookup with
  | UserLookup.failed e => { st with failedInvites := st.failedInvites ++ [(r.userId, e)] }
  | UserLookup.missing =>
    { st with failedInvites := st.failedInvites ++ [(r.userId, "User not found")] }
  | UserLookup.found =>
    match st.group.members.find? (fun m => r.canonical && m.user == r.userId) with
    | some _ => { st with failedInvites := st.failedInvites ++ [(r.userId, "Already a member")] }
    | none =>
      match st.group.invitations.find? (fun inv =>
          r.canonical && inv.user == r.userId && inv.status == InvitationStatus.pending) with
      | some _ =>
        { st with failedInvites := st.failedInvites ++ [(r.userId, "Invitation already sent")] }
      | none =>
        let invitation : Invitation :=
          { user := r.userId
            invitedBy := inviter
            invitedAt := now
            status := InvitationStatus.pending
            expiresAt := now + invitationLifetime }
        let g1 : Group := { st.group with invitations := st.group.invitations ++ [invitation] }
        match r.notifyError with
        | some e => { st with group := g1, failedInvites := st.failedInvites ++ [(r.userId, e)] }
        | none => { st with group := g1, invitedUsers := st.invitedUsers ++ [r.userId] }

/-- Result of the invite request: the response, the report lists and the stored group. -/
structure InviteResult where
  response : Response
  invitedUsers : List UserId
  failedInvites : List (UserId × String)
  group : Group
  deriving DecidableEq, Repr

/-- `POST /api/groups/:id/invite`, the handler, with `req.group = g` and `req.user._id = inviter`. -/
def inviteRoute (g : Group) (inviter : UserId) (userIds : List InviteRequest) (now : Time) :
    InviteResult :=
  match userIds with
  | [] => { response := Response.json 400 false "Validation failed"
            invitedUsers := [], failedInvites := [], group := g }
  | _ :: _ =>
    match g.members.find? (fun m => m.user == inviter) with
    | none => { response := Response.next "TypeError"
                invitedUsers := [], failedInvites := [], group := g }
    | some userMember =>
      if userMember.role != Role.creator then
        { response := Response.json 403 false "Only group creator can invite members"
          invitedUsers := [], failedInvites := [], group := g }
      else
        let st := userIds.foldl (inviteStep inviter now)
          { group := g, invitedUsers := [], failedInvites := [] }
        { response := Response.json 200 true
            ("Invited " ++ toString st.invitedUsers.length ++ " users successfully")
          invitedUsers := st.invitedUsers
          failedInvites := st.failedInvites
          group := preSave st.group }

/-- `POST /api/groups/:id/join`, the handler, on the group found, for `req.user._id = userId`. -/
def joinRoute (g : Group) (userId : UserId) (now : Time) : RouteResult :=
  let isInvite : Invitation → Bool := fun inv =>
    inv.user == userId && inv.status == InvitationStatus.pending
  match g.invitations.find? isInvite with
  | none => { response := Response.json 400 false "No pending invitation found", group := g }
  | some invitation =>
    if invitation.expiresAt < now then
      let invitations1 := modifyFirst isInvite
        (fun inv => { inv with status := InvitationStatus.expired }) g.invitations
      { response := Response.json 400 false "Invitation has expired"
        group := preSave { g with invitations := invitations1 } }
    else
      let out := addMember g userId Role.member now
      match out.thrown with
      | some e => { response := Response.next e, group := g }
      | none =>
        let invitations1 := modifyFirst isInvite
          (fun inv => { inv with status := InvitationStatus.accepted }) out.group.invitations
        { response := Response.json 200 true "Successfully joined the group"
          group := preSave { out.group with invitations := invitations1 } }

/-- `POST /api/groups/:id/start`, the handler, with `req.group = g` and `req.user._id = userId`. -/
def startRoute (g : Group) (userId : UserId) (now : Time) : RouteResult :=
  match g.members.find? (fun m => m.user == userId) with
  | none => { response := Response.next "TypeError", group := g }
  | some userMember =>
    if userMember.role != Role.creator then
      { response := Response.json 403 false "Only group creator can start challenges", group := g }
    else if g.challenge.isStarted then
      { response := Response.json 400 false "Challenge has already started", group := g }
    else
      let out := startChallenge g now
      match out.thrown with
      | some e => { response := Response.next e, group := g }
      | none =>
        { response := Response.json 200 true "Challenge started successfully", group := out.group }

/-- `POST /api/groups/:id/leave`, the handler, with `req.group = g` and `req.user._id = userId`. -/
def leaveRoute (g : Group) (userId : UserId) : RouteResult :=
  match g.members.find? (fun m => m.user == userId) with
  | none => { response := Response.next "TypeError", group := g }
  | some userMember =>
    if userMember.role == Role.creator then
      { response := Response.json 400 false
          "Group creator cannot leave the group. Transfer ownership or delete the group."
        group := g }
    else
      let members1 := modifyFirst (fun m => m.user == userId)
        (fun m => { m with status := MemberStatus.left }) g.members
      { response := Response.json 200 true "Successfully left the group"
        group := preSave { g with members := members1 } }

/-- `DELETE /api/groups/:id`, the handler, with `req.group = g` and `req.user._id = userId`. -/
def deleteRoute (g : Group) (userId : UserId) : RouteResult :=
  match g.members.find? (fun m => m.user == userId) with
  | none => { response := Response.next "TypeError", group := g }
  | some userMember =>
    if userMember.role != Role.creator then
      { response := Response.json 403 false "Only group creator can delete the group", group := g }
    else
      { response := Response.json 200 true "Group deleted successfully"
        group := preSave { g with isActive := false } }

/-- `POST /api/admin/upload-exam`, the handler, on the group found; an absent or falsy optional
field (`none`, `0`, the empty string) leaves the stored value. -/
def uploadExamRoute (g : Group) (paperUrl : String) (maxMarks duration : Option ℚ)
    (instructions : Option String) (now : Time) : RouteResult :=
  let exam1 : Exam := { g.exam with paperUrl := some paperUrl, paperUploadedAt := some now }
  let exam2 : Exam :=
    match maxMarks with
    | some v => if v = 0 then exam1 else { exam1 with maxMarks := v }
    | none => exam1
  let exam3 : Exam :=
    match duration with
    | some v => if v = 0 then exam2 else { exam2 with duration := v }
    | none => exam2
  let exam4 : Exam :=
    match instructions with
    | some v => if v = "" then exam3 else { exam3 with instructions := v }
    | none => exam3
  { response := Response.json 200 true "Exam paper uploaded successfully"
    group := preSave { g with exam := exam4 } }

/-! ## `models/Chat.js` -/

/-- Participant role, `participants.role` enum. -/
inductive ChatRole
  | member
  | admin
  deriving DecidableEq, Repr

/-- One entry of `chat.participants`. -/
structure Participant where
  user : UserId
  joinedAt : Time
  lastSeen : Time
  role : ChatRole
  isActive : Bool
  deriving DecidableEq, Repr

/-- Message type, `messageType` enum. -/
inductive MessageType
  | text
  | image
  | file
  | system
  deriving DecidableEq, Repr

/-- One entry of `message.reactions`. -/
structure Reaction where
  user : UserId
  emoji : String
  addedAt : Time
  deriving DecidableEq, Repr

/-- One entry of `message.readBy`. -/
structure ReadRecord where
  user : UserId
  readAt : Time
  deriving DecidableEq, Repr

/-- One entry of `chat.messages` (`messageSchema`); `id` is the `_id` of the subdocument. -/
structure Message where
  id : Nat
  sender : UserId
  content : String
  messageType : MessageType
  fileUrl : Option String
  fileName : Option String
  fileSize : Option Nat
  isEdited : Bool
  editedAt : Option Time
  reactions : List Reaction
  readBy : List ReadRecord
  replyTo : Option Nat
  createdAt : Time
  deriving DecidableEq, Repr

/-- The `chat.settings` sub-document. -/
structure ChatSettings where
  allowFileSharing : Bool
  allowImageSharing : Bool
  maxFileSize : Nat
  mutedUsers : List UserId
  deriving DecidableEq, Repr

/-- The `chat.stats` sub-document. -/
structure ChatStats where
  totalMessages : Nat
  totalParticipants : Nat
  lastActivity : Time
  deriving DecidableEq, Repr

/-- The chat document; `group` is the id of the group it belongs to. -/
structure Chat where
  group : Nat
  participants : List Participant
  messages : List Message
  settings : ChatSettings
  stats : ChatStats
  isActive : Bool
  deriving DecidableEq, Repr

/-- The `fileData` argument of `addMessage`; a missing property is `none`. -/
structure FileData where
  url : Option String
  name : Option String
  size : Option Nat
  deriving DecidableEq, Repr

/-- JavaScript `s || null` on an optional string: the empty string is falsy. -/
def stringOrNull : Option String → Option String
  | some s => if s = "" then none else some s
  | none => none

/-- JavaScript `n || null` on an optional number: zero is falsy. -/
def numberOrNull : Option Nat → Option Nat
  | some n => if n = 0 then none else some n
  | none => none

/-- White space and line terminators of ECMAScript, the characters `String.prototype.trim`
strips. -/
def isJSWhitespace (c : Char) : Bool :=
  let n := c.toNat
  n == 0x09 || n == 0x0A || n == 0x0B || n == 0x0C || n == 0x0D || n == 0x20 || n == 0xA0
    || n == 0x1680 || (0x2000 ≤ n && n ≤ 0x200A) || n == 0x2028 || n == 0x2029 || n == 0x202F
    || n == 0x205F || n == 0x3000 || n == 0xFEFF

/-- JavaScript `s.trim()`, the setter of a schema string with `trim: true`. -/
def jsTrim (s : String) : String :=
  String.mk ((s.toList.dropWhile isJSWhitespace).reverse.dropWhile isJSWhitespace).reverse

/-- The `pre('save')` hook of the chat schema: recomputes the three `stats` fields. -/
def chatPreSave (c : Chat) : Chat :=
  let lastActivity : Time :=
    match c.messages.getLast? with
    | some m => m.createdAt
    | none => c.stats.lastActivity
  { c with stats :=
      { totalMessages := c.messages.length
        totalParticipants := (c.participants.filter (fun p => p.isActive)).length
        lastActivity := lastActivity } }

/-- What `addParticipant` did: the document as the call left it, and whether the call ran
`save()` on it. -/
structure ParticipantOutcome where
  chat : Chat
  saved : Bool
  deriving DecidableEq, Repr

/-- Method `addParticipant`. An inactive participant is reactivated on the document and the
method returns before `save`. -/
def addParticipant (c : Chat) (userId : UserId) (role : ChatRole) (now : Time) :
    ParticipantOutcome :=
  match c.participants.find? (fun p => p.user == userId) with
  | some existingParticipant =>
    if !existingParticipant.isActive then
      let participants1 := modifyFirst (fun p => p.user == userId)
        (fun p => { p with isActive := true, joinedAt := now }) c.participants
      { chat := { c with participants := participants1 }, saved := false }
    else
      { chat := c, saved := false }
  | none =>
    let participant : Participant :=
      { user := userId, joinedAt := now, lastSeen := now, role := role, isActive := true }
    { chat := chatPreSave { c with participants := c.participants ++ [participant] }
      saved := true }

/-- Method `removeParticipant`. -/
def removeParticipant (c : Chat) (userId : UserId) : Chat :=
  match c.participants.find? (fun p => p.user == userId) with
  | some _ =>
    let participants1 := modifyFirst (fun p => p.user == userId)
      (fun p => { p with isActive := false }) c.participants
    chatPreSave { c with participants := participants1 }
  | none => c

/-- The message object `addMessage` pushes, with the schema defaults filled in; `newId` is the
`_id` mongoose gives the subdocument. -/
def newMessage (newId : Nat) (senderId : UserId) (content : String) (messageType : MessageType)
    (fileData : FileData) (now : Time) : Message :=
  { id := newId
    sender := senderId
    content := jsTrim content
    messageType := messageType
    fileUrl := stringOrNull fileData.url
    fileName := stringOrNull fileData.name
    fileSize := numberOrNull fileData.size
    isEdited := false
    editedAt := none
    reactions := []
    readBy := []
    replyTo := none
    createdAt := now }

/-- What `addMessage` did: the document afterwards and the value it returned,
`this.messages[this.messages.length - 1]`. -/
structure MessageOutcome where
  chat : Chat
  returned : Option Message
  deriving DecidableEq, Repr

/-- Method `addMessage`, called at instant `now`. -/
def addMessage (c : Chat) (newId : Nat) (senderId : UserId) (content : String)
    (messageType : MessageType) (fileData : FileData) (now : Time) : MessageOutcome :=
  let message := newMessage newId senderId content messageType fileData now
  let c1 : Chat := { c with messages := c.messages ++ [message] }
  let c2 : Chat :=
    match c1.participants.find? (fun p => p.user == senderId) with
    | some _ =>
      let participants1 := modifyFirst (fun p => p.user == senderId)
        (fun p => { p with lastSeen := now }) c1.participants
      { c1 with participants := participants1 }
    | none => c1
  let c3 := chatPreSave c2
  { chat := c3, returned := c3.messages.getLast? }

/-- Method `markMessageAsRead`, called at instant `now`; `messages.id(messageId)` is the first
message with that `_id`. -/
def markMessageAsRead (c : Chat) (messageId : Nat) (userId : UserId) (now : Time) : Chat :=
  match c.messages.find? (fun m => m.id == messageId) with
  | none => c
  | some message =>
    match message.readBy.find? (fun r => r.user == userId) with
    | some _ => c
    | none =>
      let messages1 := modifyFirst (fun m => m.id == messageId)
        (fun m => { m with readBy := m.readBy ++ [{ user := userId, readAt := now }] }) c.messages
      chatPreSave { c with messages := messages1 }

/-- The reactions of a message after `addReaction`: the entries of `userId` are filtered out
and the new entry is pushed. -/
def reactionsWith (reactions : List Reaction) (userId : UserId) (emoji : String) (now : Time) :
    List Reaction :=
  reactions.filter (fun r => r.user != userId) ++ [{ user := userId, emoji := emoji, addedAt := now }]

/-- Method `addReaction`, called at instant `now`. -/
def addReaction (c : Chat) (messageId : Nat) (userId : UserId) (emoji : String) (now : Time) :
    Chat :=
  match c.messages.find? (fun m => m.id == messageId) with
  | none => c
  | some _ =>
    let messages1 := modifyFirst (fun m => m.id == messageId)
      (fun m => { m with reactions := reactionsWith m.reactions userId emoji now }) c.messages
    chatPreSave { c with messages := messages1 }

/-- Method `getUnreadMessagesForUser`. -/
def getUnreadMessagesForUser (c : Chat) (userId : UserId) : List Message :=
  match c.participants.find? (fun p => p.user == userId) with
  | none => []
  | some participant =>
    c.messages.filter (fun message =>
      decide (message.createdAt > participant.lastSeen) && message.sender != userId)

/-- Method `updateLastSeen`, called at instant `now`. -/
def updateLastSeen (c : Chat) (userId : UserId) (now : Time) : Chat :=
  match c.participants.find? (fun p => p.user == userId) with
  | some _ =>
    let participants1 := modifyFirst (fun p => p.user == userId)
      (fun p => { p with lastSeen := now }) c.participants
    chatPreSave { c with participants := participants1 }
  | none => c

/-- The chat `POST /api/groups` creates with the group: the creator is its only participant,
with role admin. -/
def createChat (groupId : Nat) (creator : UserId) (now : Time) : Chat :=
  chatPreSave
    { group := groupId
      participants :=
        [{ user := creator, joinedAt := now, lastSeen := now, role := ChatRole.admin, isActive := true }]
      messages := []
      settings :=
        { allowFileSharing := true
          allowImageSharing := true
          maxFileSize := 10485760
          mutedUsers := [] }
      stats :=
        { totalMessages := 0
          totalParticipants := 0
          lastActivity := now }
      isActive := true }

/-- The arguments of one `addMessage` call. -/
structure Post where
  newId : Nat
  senderId : UserId
  content : String
  messageType : MessageType
  fileData : FileData
  now : Time
  deriving DecidableEq, Repr

/-- The message a post puts into the log. -/
def Post.message (p : Post) : Message :=
  newMessage p.newId p.senderId p.content p.messageType p.fileData p.now

/-- The chat after the `addMessage` call of a post. -/
def post (c : Chat) (p : Post) : Chat :=
  (addMessage c p.newId p.senderId p.content p.messageType p.fileData p.now).chat

/-! ## Membership mirrored into the chat -/

/-- Result of a join or leave request: the response, the group as stored afterwards, and the
chat document `Chat.findById(group.chat)` denotes as stored afterwards (`none` when there is no
such document). -/
structure MembershipResult where
  response : Response
  group : Group
  chat : Option Chat
  deriving DecidableEq, Repr

/-- `POST /api/groups/:id/join`, the whole handler: `g` is the group found, `chat` the document
`Chat.findById(group.chat)` finds, `userId` is `req.user._id`. The chat is stored by
`addParticipant` only on the path that runs `save()`. -/
def joinRequest (g : Group) (chat : Option Chat) (userId : UserId) (now : Time) :
    MembershipResult :=
  let isInvite : Invitation → Bool := fun inv =>
    inv.user == userId && inv.status == InvitationStatus.pending
  match g.invitations.find? isInvite with
  | none =>
    { response := Response.json 400 false "No pending invitation found", group := g, chat := chat }
  | some invitation =>
    if invitation.expiresAt < now then
      let invitations1 := modifyFirst isInvite
        (fun inv => { inv with status := InvitationStatus.expired }) g.invitations
      { response := Response.json 400 false "Invitation has expired"
        group := preSave { g with invitations := invitations1 }
        chat := chat }
    else
      let out := addMember g userId Role.member now
      match out.thrown with
      | some e => { response := Response.next e, group := g, chat := chat }
      | none =>
        let invitations1 := modifyFirst isInvite
          (fun inv => { inv with status := InvitationStatus.accepted }) out.group.invitations
        let chat1 : Option Chat :=
          match out.group.chat, chat with
          | some _, some c =>
            let added := addParticipant c userId ChatRole.member now
            if added.saved then some added.chat else some c
          | _, _ => chat
        { response := Response.json 200 true "Successfully joined the group"
          group := preSave { out.group with invitations := invitations1 }
          chat := chat1 }

/-- `POST /api/groups/:id/leave`, the whole handler, with `req.group = g`, `chat` the document
`Chat.findById(group.chat)` finds and `req.user._id = userId`. -/
def leaveRequest (g : Group) (chat : Option Chat) (userId : UserId) : MembershipResult :=
  match g.members.find? (fun m => m.user == userId) with
  | none => { response := Response.next "TypeError", group := g, chat := chat }
  | some userMember =>
    if userMember.role == Role.creator then
      { response := Response.json 400 false
          "Group creator cannot leave the group. Transfer ownership or delete the group."
        group := g
        chat := chat }
    else
      let members1 := modifyFirst (fun m => m.user == userId)
        (fun m => { m with status := MemberStatus.left }) g.members
      let chat1 : Option Chat :=
        match g.chat, chat with
        | some _, some c => some (removeParticipant c userId)
        | _, _ => chat
      { response := Response.json 200 true "Successfully left the group"
        group := preSave { g with members := members1 }
        chat := chat1 }

/-! ## `socket/socketHandlers.js` -/

/-- Where an event is sent: `socket.emit` reaches the originating session only, `io.to(room)`
every session in the room, `socket.to(room)` every session in the room but the originating one. -/
inductive Target
  | session
  | room (name : String)
  | others (name : String)
  deriving DecidableEq, Repr

/-- One emitted event: its target, its name and the message or id it carries. -/
structure Emission where
  target : Target
  event : String
  payload : String
  deriving DecidableEq, Repr

/-- A connected socket: the user it was authenticated as and the rooms it is in. -/
structure Session where
  userId : UserId
  rooms : List String
  deriving DecidableEq, Repr

/-- The rooms after `socket.join(room)`: rooms form a set, joining twice changes nothing. -/
def joinRoom (rooms : List String) (room : String) : List String :=
  if room ∈ rooms then rooms else rooms ++ [room]

/-- What a socket handler did: the session afterwards and the events it emitted, in order. -/
structure HandlerResult where
  session : Session
  emitted : List Emission
  deriving DecidableEq, Repr

/-- Handler of `join_group` for the payload `groupId`. `lookup` is what the statements up to
`Group.findById(groupId)` produce: an exception (caught by the handler), no group, or the group
as it is stored at the time of the request. -/
def joinGroupHandler (s : Session) (groupId : String) (lookup : Except String (Option Group)) :
    HandlerResult :=
  match lookup with
  | Except.error _ =>
    { session := s
      emitted := [{ target := Target.session, event := "error", payload := "Failed to join group" }] }
  | Except.ok none =>
    { session := s
      emitted := [{ target := Target.session, event := "error", payload := "Group not found" }] }
  | Except.ok (some group) =>
    let isMember := group.members.any (fun member =>
      member.user == s.userId && member.status == MemberStatus.active)
    if !isMember then
      { session := s
        emitted :=
          [{ target := Target.session, event := "error", payload := "Not a member of this group" }] }
    else
      { session := { s with rooms := joinRoom s.rooms ("group_" ++ groupId) }
        emitted := [{ target := Target.session, event := "joined_group", payload := groupId }] }

/-- The connection setup of `socketHandlers`: the session of user `userId`, whose `groups`
field holds the ids `groups`, joins its private room and the room of every listed group. -/
def connectRooms (userId : UserId) (groups : List String) : Session :=
  { userId := userId
    rooms := groups.foldl (fun rooms groupId => joinRoom rooms ("group_" ++ groupId))
      (joinRoom [] ("user_" ++ toString userId)) }

/-- The map `connectedUsers`: the socket id stored for a user id, if any. -/
abbrev Registry := UserId → Option String

/-- The map `connectedUsers` when the server starts. -/
def emptyRegistry : Registry :=
  fun _ => none

/-- A connection event: the session `socketId` of user `userId` connects or disconnects. -/
inductive SessionEvent
  | connect (userId : UserId) (socketId : String)
  | disconnect (userId : UserId) (socketId : String)
  deriving DecidableEq, Repr

/-- The user of a connection event. -/
def SessionEvent.user : SessionEvent → UserId
  | SessionEvent.connect userId _ => userId
  | SessionEvent.disconnect userId _ => userId

/-- The effect of a connection event on `connectedUsers`: `set(socket.userId, socket.id)` on
connect, `delete(socket.userId)` on disconnect. -/
def registryStep (reg : Registry) : SessionEvent → Registry
  | SessionEvent.connect userId socketId => fun u => if u = userId then some socketId else reg u
  | SessionEvent.disconnect userId _ => fun u => if u = userId then none else reg u

/-- Function `isUserOnline`: `connectedUsers.has(userId)`. -/
def isUserOnline (reg : Registry) (userId : UserId) : Bool :=
  (reg userId).isSome

/-- The sessions of a user that have connected and not yet disconnected after a sequence of
connection events: the notion of a live session in the words of the specification, kept apart
from the registry so that the two can be compared. -/
def liveSessions (events : List SessionEvent) (userId : UserId) : List String :=
  events.foldl (fun live e =>
    match e with
    | SessionEvent.connect u socketId => if u = userId then live ++ [socketId] else live
    | SessionEvent.disconnect u socketId =>
      if u = userId then live.filter (fun x => x != socketId) else live) []

/-- The last connection event of a user in a sequence of events. -/
def lastEventOf (events : List SessionEvent) (userId : UserId) : Option SessionEvent :=
  (events.filter (fun e => e.user == userId)).getLast?

/-- What a socket handler on the chat did: the group and chat as stored afterwards (`none` when
the lookup found no group) and the events it emitted, in order. -/
structure ChatHandlerResult where
  stored : Option (Group × Option Chat)
  emitted : List Emission
  deriving DecidableEq, Repr

/-- The chat `send_message` creates for a group that has none: every member record becomes a
participant, the creator with role admin. -/
def chatFromMembers (groupObjectId : Nat) (group : Group) (now : Time) : Chat :=
  chatPreSave
    { group := groupObjectId
      participants := group.members.map (fun member =>
        { user := member.user
          joinedAt := now
          lastSeen := now
          role := if member.role == Role.creator then ChatRole.admin else ChatRole.member
          isActive := true })
      messages := []
      settings :=
        { allowFileSharing := true
          allowImageSharing := true
          maxFileSize := 10485760
          mutedUsers := [] }
      stats :=
        { totalMessages := 0
          totalParticipants := 0
          lastActivity := now }
      isActive := true }

/-- Handler of `send_message`. `lookup` is what `Group.findById(groupId).populate('chat')` and
the statements before it produce: an exception, no group, or the group with its chat document
(`none` when `group.chat` is empty). `groupObjectId` is the ObjectId `groupId` denotes,
`newChatId` and `newId` are the ids mongoose gives a new chat and the new message. -/
def sendMessageHandler (s : Session) (groupId : String)
    (lookup : Except String (Option (Group × Option Chat))) (groupObjectId newChatId newId : Nat)
    (content : String) (messageType : MessageType) (fileData : FileData) (now : Time) :
    ChatHandlerResult :=
  match lookup with
  | Except.error _ =>
    { stored := none
      emitted := [{ target := Target.session, event := "error", payload := "Failed to send message" }] }
  | Except.ok none =>
    { stored := none
      emitted := [{ target := Target.session, event := "error", payload := "Group not found" }] }
  | Except.ok (some (group, populated)) =>
    let isMember := group.members.any (fun member =>
      member.user == s.userId && member.status == MemberStatus.active)
    if !isMember then
      { stored := some (group, populated)
        emitted :=
          [{ target := Target.session, event := "error", payload := "Not a member of this group" }] }
    else
      let started : Group × Chat :=
        match populated with
        | some chat => (group, chat)
        | none =>
          (preSave { group with chat := some newChatId }, chatFromMembers groupObjectId group now)
      let out := addMessage started.2 newId s.userId content messageType fileData now
      { stored := some (started.1, some out.chat)
        emitted := [{ target := Target.room ("group_" ++ groupId), event := "new_message",
                      payload := groupId }] }

/-- Handler of `add_reaction`; `lookup` as for `send_message`. -/
def addReactionHandler (s : Session) (groupId : String)
    (lookup : Except String (Option (Group × Option Chat))) (messageId : Nat) (emoji : String)
    (now : Time) : ChatHandlerResult :=
  match lookup with
  | Except.error _ =>
    { stored := none
      emitted := [{ target := Target.session, event := "error", payload := "Failed to add reaction" }] }
  | Except.ok none =>
    { stored := none
      emitted := [{ target := Target.session, event := "error", payload := "Chat not found" }] }
  | Except.ok (some (group, none)) =>
    { stored := some (group, none)
      emitted := [{ target := Target.session, event := "error", payload := "Chat not found" }] }
  | Except.ok (some (group, some chat)) =>
    { stored := some (group, some (addReaction chat messageId s.userId emoji now))
      emitted := [{ target := Target.room ("group_" ++ groupId), event := "message_reaction",
                    payload := groupId }] }

/-- Handler of `mark_messages_read`; `lookup` as for `send_message`, `messageIds` is `none`
when the payload has no such list (the loop then throws before it marks anything). -/
def markMessagesReadHandler (s : Session) (groupId : String)
    (lookup : Except String (Option (Group × Option Chat))) (messageIds : Option (List Nat))
    (now : Time) : ChatHandlerResult :=
  match lookup with
  | Except.error _ =>
    { stored := none
      emitted := [{ target := Target.session, event := "error",
                    payload := "Failed to mark messages as read" }] }
  | Except.ok none =>
    { stored := none
      emitted := [{ target := Target.session, event := "error", payload := "Chat not found" }] }
  | Except.ok (some (group, none)) =>
    { stored := some (group, none)
      emitted := [{ target := Target.session, event := "error", payload := "Chat not found" }] }
  | Except.ok (some (group, some chat)) =>
    match messageIds with
    | none =>
      { stored := some (group, some chat)
        emitted := [{ target := Target.session, event := "error",
                      payload := "Failed to mark messages as read" }] }
    | some ids =>
      let marked := ids.foldl (fun c messageId => markMessageAsRead c messageId s.userId now) chat
      { stored := some (group, some (updateLastSeen marked s.userId now))
        emitted := [{ target := Target.others ("group_" ++ groupId), event := "messages_read",
                      payload := groupId }] }

/-! ## `routes/chat.js` -/

/-- The position of a JavaScript relative index in an array of length `len`: a negative index
counts from the end, and the result is clamped to `0 .. len`. -/
def jsIndex (len : Nat) (i : Int) : Nat :=
  if i < 0 then (len + i).toNat else Min.min i.toNat len

/-- JavaScript `l.slice(start, stop)` for integer arguments. -/
def jsSlice {α : Type} (l : List α) (start stop : Int) : List α :=
  (l.take (jsIndex l.length stop)).drop (jsIndex l.length start)

/-- The `messages` of `GET /api/chat/:groupId/messages` for the numbers `page` and `limit` of the
query: `slice().reverse().slice(skip, skip + limit).reverse()` with `skip = (page - 1) * limit`. -/
def messagesPage {α : Type} (log : List α) (page limit : Int) : List α :=
  let skip := (page - 1) * limit
  (jsSlice log.reverse skip (skip + limit)).reverse

/-- The `hasMore` flag of the same response: `skip + limit < chat.messages.length`. -/
def hasMore {α : Type} (log : List α) (page limit : Int) : Bool :=
  let skip := (page - 1) * limit
  decide (skip + limit < (log.length : Int))

/-- The pages `k, k - 1, ..., 1` of a log, concatenated in this order. -/
def pagesDownFrom {α : Type} (log : List α) (limit : Nat) : Nat → List α
  | 0 => []
  | k + 1 => messagesPage log ((k + 1 : Nat) : Int) (limit : Int) ++ pagesDownFrom log limit k

/-! ## `middleware/auth.js` -/

/-- The authenticated user of a request, `req.user`: its id and whether its role is admin. -/
structure AuthUser where
  id : UserId
  isAdmin : Bool
  deriving DecidableEq, Repr

/-- What `groupMember` reads of a request: `req.user`, `req.params.groupId` and
`req.body.groupId`. -/
structure GroupRequest where
  user : Option AuthUser
  paramsGroupId : Option String
  bodyGroupId : Option String
  deriving DecidableEq, Repr

/-- What `groupMember` did: it answered with a status and a message, or it called `next()`
with `req.group` as it left it (`none` is `undefined`). -/
inductive Admission
  | rejected (status : Nat) (message : String)
  | next (group : Option Group)
  deriving DecidableEq, Repr

/-- Middleware `groupMember`; `findById` is `Group.findById`, which throws (caught by the
middleware), finds nothing, or finds the group. -/
def groupMember (req : GroupRequest) (findById : String → Except String (Option Group)) :
    Admission :=
  match req.user with
  | none => Admission.rejected 401 "Authentication required"
  | some user =>
    let groupId : Option String :=
      match stringOrNull req.paramsGroupId with
      | some id => some id
      | none => stringOrNull req.bodyGroupId
    match groupId with
    | none => Admission.rejected 400 "Group ID is required"
    | some id =>
      if user.isAdmin then Admission.next none
      else
        match findById id with
        | Except.error _ => Admission.rejected 500 "Server error during group authorization"
        | Except.ok none => Admission.rejected 404 "Group not found"
        | Except.ok (some group) =>
          let isMember := group.members.any (fun member =>
            member.user == user.id && member.status == MemberStatus.active)
          if !isMember then
            Admission.rejected 403 "Access denied - you are not a member of this group"
          else Admission.next (some group)

/-- Outcome of a request to a route behind `groupMember` whose handler reads `req.group`: the
middleware answered, the handler ran on `req.group`, or the handler read a property of the
undefined `req.group` and passed the `TypeError` to `next`. -/
inductive GuardedResult
  | denied (status : Nat) (message : String)
  | handled (result : RouteResult)
  | crashed (error : String)
  deriving DecidableEq, Repr

/-- A handler that starts with `const group = req.group` and reads a property of it, behind
`groupMember`. -/
def runGuarded (admission : Admission) (handler : Group → RouteResult) : GuardedResult :=
  match admission with
  | Admission.rejected status message => GuardedResult.denied status message
  | Admission.next (some group) => GuardedResult.handled (handler group)
  | Admission.next none => GuardedResult.crashed "TypeError"

/-- The request `groupMember` sees on a route of `routes/groups.js`, whose path parameter is
named `id`: `req.params.groupId` is undefined. -/
def groupsRouteRequest (user : AuthUser) (bodyGroupId : Option String) : GroupRequest :=
  { user := some user, paramsGroupId := none, bodyGroupId := bodyGroupId }

/-- The request `groupMember` sees on a route of `routes/exams.js` or `routes/chat.js`, whose
path parameter is named `groupId`. -/
def examsRouteRequest (user : AuthUser) (pathGroupId : String) (bodyGroupId : Option String) :
    GroupRequest :=
  { user := some user, paramsGroupId := some pathGroupId, bodyGroupId := bodyGroupId }

/-- `POST /api/groups/:id/start` with its middleware; the path names the group `pathId`. -/
def startRequest (findById : String → Except String (Option Group)) (user : AuthUser)
    (_pathId : String) (bodyGroupId : Option String) (now : Time) : GuardedResult :=
  runGuarded (groupMember (groupsRouteRequest user bodyGroupId) findById)
    (fun group => startRoute group user.id now)

/-- `POST /api/groups/:id/leave` with its middleware. -/
def leaveGuardedRequest (findById : String → Except String (Option Group)) (user : AuthUser)
    (_pathId : String) (bodyGroupId : Option String) : GuardedResult :=
  runGuarded (groupMember (groupsRouteRequest user bodyGroupId) findById)
    (fun group => leaveRoute group user.id)

/-- `DELETE /api/groups/:id` with its middleware. -/
def deleteRequest (findById : String → Except String (Option Group)) (user : AuthUser)
    (_pathId : String) (bodyGroupId : Option String) : GuardedResult :=
  runGuarded (groupMember (groupsRouteRequest user bodyGroupId) findById)
    (fun group => deleteRoute group user.id)

/-- `GET /api/exams/:groupId` with its middleware: the handler reads `group.exam`,
`group.challenge` and `group.submissions` and changes nothing. -/
def getExamRequest (findById : String → Except String (Option Group)) (user : AuthUser)
    (pathGroupId : String) : GuardedResult :=
  runGuarded (groupMember (examsRouteRequest user pathGroupId none) findById)
    (fun group => { response := Response.json 200 true "", group := group })

/-- `POST /api/exams/:groupId/submit` with its middleware. -/
def submitRequest (findById : String → Except String (Option Group)) (user : AuthUser)
    (pathGroupId : String) (files : Option (List UploadedFile)) (now : Time) : GuardedResult :=
  runGuarded (groupMember (examsRouteRequest user pathGroupId none) findById)
    (fun group => submitRoute group user.id files now)

/-! ## The `groups` field of the users -/

/-- The `groups` field of every user: the ids of groups, as `toString()` writes them. -/
abbrev UserGroups := UserId → List String

/-- Whether a user has a member record with status active in the group, the test of
`groupMember` and of the socket handlers. -/
def isActiveMember (g : Group) (userId : UserId) : Bool :=
  g.members.any (fun member => member.user == userId && member.status == MemberStatus.active)

/-- `POST /api/groups`, the part on the creator: `req.user.groups.push(group._id)`. -/
def createUserGroups (dir : UserGroups) (groupId : String) (creator : UserId) : UserGroups :=
  fun u => if u = creator then dir u ++ [groupId] else dir u

/-- `POST /api/groups/:id/join`, the part on the user, reached when the handler succeeds: the
group id is pushed unless `req.user.groups` includes it. -/
def joinUserGroups (dir : UserGroups) (groupId : String) (g : Group) (userId : UserId)
    (now : Time) : UserGroups :=
  if (joinRoute g userId now).response = Response.json 200 true "Successfully joined the group"
  then fun u => if u = userId ∧ groupId ∉ dir u then dir u ++ [groupId] else dir u
  else dir

/-- `POST /api/groups/:id/leave`, the part on the user, reached when the handler succeeds: the
group id is filtered out of `req.user.groups`. -/
def leaveUserGroups (dir : UserGroups) (groupId : String) (g : Group) (userId : UserId) :
    UserGroups :=
  if (leaveRoute g userId).response = Response.json 200 true "Successfully left the group"
  then fun u => if u = userId then (dir u).filter (fun x => x != groupId) else dir u
  else dir

/-- `DELETE /api/groups/:id`, the part on the users, reached when the handler succeeds:
`$pull` of the group id from the `groups` of every user with a member record. -/
def deleteUserGroups (dir : UserGroups) (groupId : String) (g : Group) (userId : UserId) :
    UserGroups :=
  if (deleteRoute g userId).response = Response.json 200 true "Group deleted successfully"
  then fun u =>
    if g.members.any (fun m => m.user == u) then (dir u).filter (fun x => x != groupId)
    else dir u
  else dir

/-! ## Reachable states -/

/-- Groups reachable from a newly created group by the operations of the backend: the
route handlers, and the document methods `submitExam`, `gradeSubmission` and `removeMember`
called directly. -/
inductive Reachable : Group → Prop
  | create (creator : UserId) (name description subject chapter : String) (duration : Int)
      (chatId : Nat) (now : Time) (hmin : 2 ≤ duration) (hmax : duration ≤ 6) :
      Reachable (preSave (createGroup creator name description subject chapter duration chatId now))
  | invite {g : Group} (inviter : UserId) (userIds : List InviteRequest) (now : Time)
      (h : Reachable g) : Reachable (inviteRoute g inviter userIds now).group
  | join {g : Group} (userId : UserId) (now : Time)
      (h : Reachable g) : Reachable (joinRoute g userId now).group
  | leave {g : Group} (userId : UserId)
      (h : Reachable g) : Reachable (leaveRoute g userId).group
  | removeMember {g : Group} (userId : UserId)
      (h : Reachable g) : Reachable (removeMember g userId).group
  | start {g : Group} (userId : UserId) (now : Time)
      (h : Reachable g) : Reachable (startRoute g userId now).group
  | uploadExam {g : Group} (paperUrl : String) (maxMarks duration : Option ℚ)
      (instructions : Option String) (now : Time)
      (h : Reachable g) : Reachable (uploadExamRoute g paperUrl maxMarks duration instructions now).group
  | submit {g : Group} (userId : UserId) (files : Option (List UploadedFile)) (now : Time)
      (h : Reachable g) : Reachable (submitRoute g userId files now).group
  | submitExam {g : Group} (userId : UserId) (answerSheets : List String) (now : Time)
      (h : Reachable g) : Reachable (submitExam g userId answerSheets now).group
  | grade {g : Group} (userId : UserId) (marks : ℚ) (feedback : String) (grader : UserId)
      (now : Time) (h : Reachable g) :
      Reachable (gradeSubmission g userId marks feedback grader now).group
  | delete {g : Group} (userId : UserId)
      (h : Reachable g) : Reachable (deleteRoute g userId).group

/-- One request that changes the group and leaves its chat alone. -/
inductive GroupStep : Group → Group → Prop
  | invite (g : Group) (inviter : UserId) (userIds : List InviteRequest) (now : Time) :
      GroupStep g (inviteRoute g inviter userIds now).group
  | removeMember (g : Group) (userId : UserId) : GroupStep g (removeMember g userId).group
  | start (g : Group) (userId : UserId) (now : Time) : GroupStep g (startRoute g userId now).group
  | uploadExam (g : Group) (paperUrl : String) (maxMarks duration : Option ℚ)
      (instructions : Option String) (now : Time) :
      GroupStep g (uploadExamRoute g paperUrl maxMarks duration instructions now).group
  | submit (g : Group) (userId : UserId) (files : Option (List UploadedFile)) (now : Time) :
      GroupStep g (submitRoute g userId files now).group
  | submitExam (g : Group) (userId : UserId) (answerSheets : List String) (now : Time) :
      GroupStep g (submitExam g userId answerSheets now).group
  | grade (g : Group) (userId : UserId) (marks : ℚ) (feedback : String) (grader : UserId)
      (now : Time) : GroupStep g (gradeSubmission g userId marks feedback grader now).group
  | delete (g : Group) (userId : UserId) : GroupStep g (deleteRoute g userId).group

/-- Pairs of a group and its chat reachable from `POST /api/groups` by the operations of the
backend: the requests on the group, join and leave with their chat part, and the chat methods
the socket handlers and chat routes call. -/
inductive SystemReachable : Group → Chat → Prop
  | create (creator : UserId) (name description subject chapter : String) (duration : Int)
      (groupId chatId : Nat) (now : Time) (hmin : 2 ≤ duration) (hmax : duration ≤ 6) :
      SystemReachable
        (preSave (createGroup creator name description subject chapter duration chatId now))
        (createChat groupId creator now)
  | groupStep {g g' : Group} {c : Chat} (h : SystemReachable g c) (hstep : GroupStep g g') :
      SystemReachable g' c
  | join {g : Group} {c : Chat} (userId : UserId) (now : Time) (h : SystemReachable g c) :
      SystemReachable (joinRequest g (some c) userId now).group
        ((joinRequest g (some c) userId now).chat.getD c)
  | leave {g : Group} {c : Chat} (userId : UserId) (h : SystemReachable g c) :
      SystemReachable (leaveRequest g (some c) userId).group
        ((leaveRequest g (some c) userId).chat.getD c)
  | addMessage {g : Group} {c : Chat} (newId : Nat) (senderId : UserId) (content : String)
      (messageType : MessageType) (fileData : FileData) (now : Time) (h : SystemReachable g c) :
      SystemReachable g (addMessage c newId senderId content messageType fileData now).chat
  | markMessageAsRead {g : Group} {c : Chat} (messageId : Nat) (userId : UserId) (now : Time)
      (h : SystemReachable g c) : SystemReachable g (markMessageAsRead c messageId userId now)
  | addReaction {g : Group} {c : Chat} (messageId : Nat) (userId : UserId) (emoji : String)
      (now : Time) (h : SystemReachable g c) :
      SystemReachable g (addReaction c messageId userId emoji now)
  | updateLastSeen {g : Group} {c : Chat} (userId : UserId) (now : Time)
      (h : SystemReachable g c) : SystemReachable g (updateLastSeen c userId now)

/-- One operation on the group: a request that leaves the chat alone, a join or a leave. -/
inductive Transition : Group → Group → Prop
  | groupStep {g g' : Group} (h : GroupStep g g') : Transition g g'
  | join (g : Group) (userId : UserId) (now : Time) : Transition g (joinRoute g userId now).group
  | leave (g : Group) (userId : UserId) : Transition g (leaveRoute g userId).group

/-! ## Invariants -/

/-- Timing invariant: a challenge that has not started has neither start nor end time; a started
one has both, and the end time is the start time plus `duration` days. -/
def TimingInv (g : Group) : Prop :=
  (g.challenge.isStarted = false ∧ g.challenge.startTime = none ∧ g.challenge.endTime = none) ∨
    (g.challenge.isStarted = true ∧ ∃ s, g.challenge.startTime = some s ∧
      g.challenge.endTime = some (s + durationInMs g.challenge.duration))

/-- Pending invariant: the pending invitations of a group belong to pairwise distinct users. -/
def PendingInv (g : Group) : Prop :=
  ((g.invitations.filter (fun inv => inv.status == InvitationStatus.pending)).map
    (fun inv => inv.user)).Nodup

/-- Sync invariant of a group and its chat: the group refers to a chat, and every participant
of the chat is a user with a member record in the group. -/
def SyncInv (g : Group) (c : Chat) : Prop :=
  g.chat ≠ none ∧ ∀ p ∈ c.participants, p.user ∈ g.members.map (fun m => m.user)

/-- Read invariant: the read records of every message belong to pairwise distinct users. -/
def ReadInv (c : Chat) : Prop :=
  ∀ m ∈ c.messages, (m.readBy.map (fun r => r.user)).Nodup

/-- Creator invariant: member records belong to pairwise distinct users, exactly one member
record has role creator, and creator records are active. -/
def CreatorInv (g : Group) : Prop :=
  (g.members.map (fun m => m.user)).Nodup ∧
    (g.members.filter (fun m => m.role == Role.creator)).length = 1 ∧
    ∀ m ∈ g.members, m.role = Role.creator → m.status = MemberStatus.active

/-- Submission invariant: submitting users are pairwise distinct and `stats.totalSubmissions`
counts the submissions. -/
def SubmissionInv (g : Group) : Prop :=
  (g.submissions.map (fun s => s.user)).Nodup ∧ g.stats.totalSubmissions = g.submissions.length

/-- The ways an operation changes the member list: not at all, by pushing a record with role
member for a user without a record, or by rewriting one record, keeping its user and role, to
a status that is active if the record is the creator's. -/
def MembersStep (l l' : List Member) : Prop :=
  l' = l ∨ (∃ m, m.role = Role.member ∧ m.user ∉ l.map (fun m => m.user) ∧ l' = l ++ [m]) ∨
    ∃ l1 x y l2, l = l1 ++ x :: l2 ∧ l' = l1 ++ y :: l2 ∧ y.role = x.role ∧ y.user = x.user ∧
      (x.role = Role.creator → y.status = MemberStatus.active)

/-- The ways an operation changes the submissions: the users stay as they are and so does the
counter, or one submission of a user without one is pushed and the counter goes up by one. -/
def SubmissionsStep (g g' : Group) : Prop :=
  (g'.submissions.map (fun s => s.user) = g.submissions.map (fun s => s.user) ∧
      g'.stats.totalSubmissions = g.stats.totalSubmissions) ∨
    ∃ s, s.user ∉ g.submissions.map (fun s => s.user) ∧ g'.submissions = g.submissions ++ [s] ∧
      g'.stats.totalSubmissions = g.stats.totalSubmissions + 1

/-! ## Sample groups -/

/-- A group as `POST /api/groups` stores it: creator `1`, duration `3` days, created at `1000`. -/
def sampleGroup : Group :=
  preSave (createGroup 1 "Algebra" "" "Mathematics" "Groups" 3 0 1000)

/-- The sample group after user `2` was invited by the creator and joined. -/
def sampleJoined : Group :=
  (joinRoute (inviteRoute sampleGroup 1
    [{ userId := 2, canonical := true, lookup := UserLookup.found, notifyError := none }]
    1100).group 2 1200).group

/-- The sample group after user `2` submitted two answer sheets. -/
def sampleSubmitted : Group :=
  (submitExam sampleJoined 2 ["/uploads/a.png", "/uploads/b.png"] 2000).group

/-- The sample group after the submission of user `2` was graded with 78 marks by user `9`. -/
def sampleGraded : Group :=
  (gradeSubmission sampleSubmitted 2 78 "" 9 3000).group

/-- The sample group with the exam opened (`challenge.examStarted = true`). -/
def sampleExamOpen : Group :=
  { sampleJoined with challenge := { sampleJoined.challenge with examStarted := true } }

/-- The sample group with the exam opened after user `2` submitted two sheets through the route. -/
def sampleExamSubmitted : Group :=
  (submitRoute sampleExamOpen 2 (some [{ filename := "a.png" }, { filename := "b.png" }])
    2000).group

/-- The submission `submitRoute` stores for `userId` from the uploaded `files` at `now`. -/
def submissionOf (userId : UserId) (files : List UploadedFile) (now : Time) : Submission :=
  { user := userId
    answerSheets := files.map (fun file =>
      { imageUrl := "/uploads/" ++ file.filename, uploadedAt := now })
    submittedAt := now
    marks := none
    feedback := ""
    gradedAt := none
    gradedBy := none }

/-- The sample group after the creator started the challenge at `5000`. -/
def sampleStarted : Group :=
  (startChallenge sampleJoined 5000).group

/-- A started group whose challenge status is `completed` before its end time. -/
def sampleCompleted : Group :=
  { sampleStarted with
    challenge := { sampleStarted.challenge with status := ChallengeStatus.completed } }

/-- The sample group after the creator invited user `2` at `1100`; the invitation expires at
`1100 + 604800000`. -/
def sampleInvited : Group :=
  (inviteRoute sampleGroup 1
    [{ userId := 2, canonical := true, lookup := UserLookup.found, notifyError := none }]
    1100).group

/-- The invite request that names user `2` twice, once in the spelling of `toString()` and once
in another spelling of the same id (upper-case hex digits), on the sample group. -/
def sampleInvitedTwice : InviteResult :=
  inviteRoute sampleGroup 1
    [{ userId := 2, canonical := true, lookup := UserLookup.found, notifyError := none },
     { userId := 2, canonical := false, lookup := UserLookup.found, notifyError := none }]
    1100

/-- The invite request for user `2` on the sample group when `Notification.createGroupInvite`
throws. -/
def sampleInviteSinkDown : InviteResult :=
  inviteRoute sampleGroup 1
    [{ userId := 2, canonical := true, lookup := UserLookup.found,
       notifyError := some "notification store unavailable" }]
    1100

/-- The sample group with both places taken (`maxMembers = 2`) and user `3` invited. -/
def sampleFull : Group :=
  let g := (inviteRoute sampleJoined 1
    [{ userId := 3, canonical := true, lookup := UserLookup.found, notifyError := none }]
    1300).group
  { g with settings := { g.settings with maxMembers := 2 } }

/-- The chat created with the sample group. -/
def sampleChat : Chat :=
  createChat 7 1 1000

/-- The sample chat after user `1` posted two messages, with ids `11` and `12`. -/
def sampleChatPosted : Chat :=
  (addMessage (addMessage sampleChat 11 1 "hello" MessageType.text
    { url := none, name := none, size := none } 2000).chat 12 1 " again " MessageType.text
    { url := none, name := none, size := none } 2100).chat

/-- The sample chat after user `2` marked message `11` read at `3000`. -/
def sampleChatRead : Chat :=
  markMessageAsRead sampleChatPosted 11 2 3000

/-- A session of user `2` in its private room. -/
def sampleSession : Session :=
  { userId := 2, rooms := ["user_2"] }

/-- The lookup of a store that holds the sample group, with user `2` joined, under the id
`g1` and nothing else. -/
def sampleStore (groupId : String) : Except String (Option Group) :=
  if groupId = "g1" then Except.ok (some sampleJoined) else Except.ok none

/-- The creator of the sample group, an ordinary user. -/
def sampleCreator : AuthUser :=
  { id := 1, isAdmin := false }

/-- An admin user, not a member of the sample group. -/
def sampleAdmin : AuthUser :=
  { id := 50, isAdmin := true }

/-- The `groups` fields after user `1` created the sample group `g1` and user `2` joined it,
starting from users without groups. -/
def sampleUserGroups : UserGroups :=
  joinUserGroups (createUserGroups (fun _ => []) "g1" 1) "g1" sampleInvited 2 1200

/-- The sample group after `removeMember` of user `2`. -/
def sampleRemoved : Group :=
  (removeMember sampleJoined 2).group

/-- A group with `maxMembers = 2`, two active members (users `1` and `3`) and the member
record of user `2`, who left. -/
def sampleLeft : Group :=
  let left := (leaveRoute sampleJoined 2).group
  let invited := (inviteRoute left 1
    [{ userId := 3, canonical := true, lookup := UserLookup.found, notifyError := none }]
    1300).group
  let joined := (joinRoute invited 3 1400).group
  { joined with settings := { joined.settings with maxMembers := 2 } }

/-- A session of user `9`, who has no member record in the sample group. -/
def sampleOutsider : Session :=
  { userId := 9, rooms := ["user_9"] }

/-! ## Frame lemmas -/

@[simp] theorem preSave_members (g : Group) : (preSave g).members = g.members := by
  unfold preSave; split <;> rfl

@[simp] theorem preSave_submissions (g : Group) : (preSave g).submissions = g.submissions := by
  unfold preSave; split <;> rfl

@[simp] theorem preSave_stats (g : Group) : (preSave g).stats = g.stats := by
  unfold preSave; split <;> rfl

@[simp] theorem preSave_invitations (g : Group) : (preSave g).invitations = g.invitations := by
  unfold preSave; split <;> rfl

@[simp] theorem preSave_settings (g : Group) : (preSave g).settings = g.settings := by
  unfold preSave; split <;> rfl

theorem preSave_of_endTime (g : Group) (e : Time) (h : g.challenge.endTime = some e) :
    preSave g = g := by
  unfold preSave; split
  · simp_all
  · rfl

@[simp] theorem updateStats_members (g : Group) : (updateStats g).members = g.members := rfl

@[simp] theorem updateStats_submissions (g : Group) :
    (updateStats g).submissions = g.submissions := rfl

@[simp] theorem updateStats_totalSubmissions (g : Group) :
    (updateStats g).stats.totalSubmissions = g.stats.totalSubmissions := by
  unfold updateStats
  cases gradedMarks g <;> rfl

theorem modifyFirst_of_find_none {α : Type} (p : α → Bool) (f : α → α) (l : List α)
    (h : l.find? p = none) : modifyFirst p f l = l := by
  induction l with
  | nil => rfl
  | cons x xs ih =>
    by_cases hx : p x = true
    · simp [List.find?, hx] at h
    · simp only [Bool.not_eq_true] at hx
      simp only [List.find?, hx] at h
      simp [modifyFirst, hx, ih h]

theorem modifyFirst_of_find_some {α : Type} (p : α → Bool) (f : α → α) (l : List α) (x : α)
    (h : l.find? p = some x) :
    ∃ l1 l2, l = l1 ++ x :: l2 ∧ modifyFirst p f l = l1 ++ f x :: l2 ∧ p x = true
      ∧ ∀ y ∈ l1, p y = false := by
  induction l with
  | nil => simp at h
  | cons y ys ih =>
    by_cases hy : p y = true
    · simp only [List.find?, hy, Option.some.injEq] at h
      subst h
      exact ⟨[], ys, rfl, by simp [modifyFirst, hy], hy, by simp⟩
    · simp only [Bool.not_eq_true] at hy
      simp only [List.find?, hy] at h
      obtain ⟨l1, l2, h1, h2, h3, h4⟩ := ih h
      refine ⟨y :: l1, l2, by simp [h1], by simp [modifyFirst, hy, h2], h3, ?_⟩
      intro z hz
      rcases List.mem_cons.mp hz with rfl | hz
      · exact hy
      · exact h4 z hz

theorem modifyFirst_length {α : Type} (p : α → Bool) (f : α → α) (l : List α) :
    (modifyFirst p f l).length = l.length := by
  induction l with
  | nil => rfl
  | cons x xs ih => by_cases hx : p x = true <;> simp [modifyFirst, hx, ih]

theorem modifyFirst_map_eq {α β : Type} (p : α → Bool) (f : α → α) (k : α → β)
    (hk : ∀ x, k (f x) = k x) (l : List α) : (modifyFirst p f l).map k = l.map k := by
  induction l with
  | nil => rfl
  | cons x xs ih => by_cases hx : p x = true <;> simp [modifyFirst, hx, ih, hk]

theorem MembersStep.creatorInv {g g' : Group} (h : MembersStep g.members g'.members)
    (hg : CreatorInv g) : CreatorInv g' := by
  obtain ⟨hnd, hlen, hact⟩ := hg
  rcases h with h | ⟨m, hm, hfresh, h⟩ | ⟨l1, x, y, l2, h1, h2, hrole, huser, hstat⟩
  · exact ⟨by rw [h]; exact hnd, by rw [h]; exact hlen, by rw [h]; exact hact⟩
  · refine ⟨?_, ?_, ?_⟩
    · rw [h, List.map_append]
      refine List.Nodup.append hnd (by simp) ?_
      intro u hu hu'
      simp only [List.map_cons, List.map_nil, List.mem_singleton] at hu'
      subst hu'
      exact hfresh hu
    · rw [h, List.filter_append]
      simpa [List.filter, hm] using hlen
    · intro z hz hzr
      rw [h] at hz
      rcases List.mem_append.mp hz with hz | hz
      · exact hact z hz hzr
      · simp only [List.mem_singleton] at hz
        subst hz
        rw [hm] at hzr
        cases hzr
  · refine ⟨?_, ?_, ?_⟩
    · rw [h1] at hnd
      rw [h2]
      simpa [huser] using hnd
    · rw [h1] at hlen
      rw [h2]
      simp only [List.filter_append, List.filter_cons, hrole, List.length_append] at hlen ⊢
      by_cases hx : (x.role == Role.creator) = true
      · simpa [hx] using hlen
      · simpa [hx] using hlen
    · intro z hz hzr
      rw [h2] at hz
      rcases List.mem_append.mp hz with hz | hz
      · exact hact z (by rw [h1]; exact List.mem_append_left _ hz) hzr
      · rcases List.mem_cons.mp hz with rfl | hz
        · exact hstat (hrole ▸ hzr)
        · exact hact z (by rw [h1]; exact List.mem_append_right _ (List.mem_cons_of_mem _ hz)) hzr

theorem SubmissionsStep.submissionInv {g g' : Group} (h : SubmissionsStep g g')
    (hg : SubmissionInv g) : SubmissionInv g' := by
  obtain ⟨hnd, htot⟩ := hg
  rcases h with ⟨hmap, hstat⟩ | ⟨s, hs, happ, hstat⟩
  · refine ⟨by rw [hmap]; exact hnd, ?_⟩
    have hl := congrArg List.length hmap
    simp only [List.length_map] at hl
    omega
  · refine ⟨?_, ?_⟩
    · rw [happ, List.map_append]
      refine List.Nodup.append hnd (by simp) ?_
      intro u hu hu'
      simp only [List.map_cons, List.map_nil, List.mem_singleton] at hu'
      subst hu'
      exact hs hu
    · rw [happ, hstat, htot]
      simp

theorem SubmissionsStep.of_eq {g g' : Group} (h1 : g'.submissions = g.submissions)
    (h2 : g'.stats = g.stats) : SubmissionsStep g g' :=
  Or.inl ⟨by rw [h1], by rw [h2]⟩

theorem inviteStep_frame (inviter : UserId) (now : Time) (st : InviteState) (r : InviteRequest) :
    (inviteStep inviter now st r).group.members = st.group.members ∧
      (inviteStep inviter now st r).group.submissions = st.group.submissions ∧
      (inviteStep inviter now st r).group.stats = st.group.stats := by
  unfold inviteStep
  repeat' split
  all_goals exact ⟨rfl, rfl, rfl⟩

theorem inviteLoop_frame (inviter : UserId) (now : Time) (rs : List InviteRequest)
    (st : InviteState) :
    (rs.foldl (inviteStep inviter now) st).group.members = st.group.members ∧
      (rs.foldl (inviteStep inviter now) st).group.submissions = st.group.submissions ∧
      (rs.foldl (inviteStep inviter now) st).group.stats = st.group.stats := by
  induction rs generalizing st with
  | nil => exact ⟨rfl, rfl, rfl⟩
  | cons r rs ih =>
    obtain ⟨a, b, c⟩ := ih (inviteStep inviter now st r)
    obtain ⟨a', b', c'⟩ := inviteStep_frame inviter now st r
    simp only [List.foldl_cons]
    exact ⟨a.trans a', b.trans b', c.trans c'⟩

theorem inviteRoute_frame (g : Group) (inviter : UserId) (rs : List InviteRequest) (now : Time) :
    (inviteRoute g inviter rs now).group.members = g.members ∧
      (inviteRoute g inviter rs now).group.submissions = g.submissions ∧
      (inviteRoute g inviter rs now).group.stats = g.stats := by
  have hloop := inviteLoop_frame inviter now rs { group := g, invitedUsers := [], failedInvites := [] }
  unfold inviteRoute
  cases rs with
  | nil => exact ⟨rfl, rfl, rfl⟩
  | cons r rs =>
    dsimp only
    split
    · exact ⟨rfl, rfl, rfl⟩
    · split
      · exact ⟨rfl, rfl, rfl⟩
      · simpa using hloop

theorem addMember_frame (g : Group) (userId : UserId) (role : Role) (now : Time)
    (hrole : role = Role.member) :
    MembersStep g.members (addMember g userId role now).group.members ∧
      (addMember g userId role now).group.submissions = g.submissions ∧
      (addMember g userId role now).group.stats = g.stats ∧
      (addMember g userId role now).group.invitations = g.invitations := by
  unfold addMember
  split
  · rename_i existingMember hfind
    split
    · refine ⟨?_, rfl, rfl, rfl⟩
      obtain ⟨l1, l2, h1, h2, -, -⟩ := modifyFirst_of_find_some (fun m => m.user == userId)
        (fun m => { m with status := MemberStatus.active, joinedAt := now }) g.members _ hfind
      exact Or.inr (Or.inr ⟨l1, existingMember, _, l2, h1, h2, rfl, rfl, fun _ => rfl⟩)
    · exact ⟨Or.inl rfl, rfl, rfl, rfl⟩
  · rename_i hfind
    split
    · exact ⟨Or.inl rfl, rfl, rfl, rfl⟩
    · refine ⟨?_, by simp, by simp, by simp⟩
      refine Or.inr (Or.inl ⟨Member.mk userId now role MemberStatus.active, hrole, ?_, by simp⟩)
      simpa using hfind

theorem joinRoute_frame (g : Group) (userId : UserId) (now : Time) :
    MembersStep g.members (joinRoute g userId now).group.members ∧
      (joinRoute g userId now).group.submissions = g.submissions ∧
      (joinRoute g userId now).group.stats = g.stats := by
  obtain ⟨a, b, c, -⟩ := addMember_frame g userId Role.member now rfl
  unfold joinRoute
  simp only
  split
  · exact ⟨Or.inl rfl, rfl, rfl⟩
  · split
    · exact ⟨Or.inl (by simp), by simp, by simp⟩
    · split
      · exact ⟨Or.inl rfl, rfl, rfl⟩
      · exact ⟨by simpa using a, by simpa using b, by simpa using c⟩

theorem leaveRoute_frame (g : Group) (userId : UserId) :
    MembersStep g.members (leaveRoute g userId).group.members ∧
      (leaveRoute g userId).group.submissions = g.submissions ∧
      (leaveRoute g userId).group.stats = g.stats := by
  unfold leaveRoute
  split
  · exact ⟨Or.inl rfl, rfl, rfl⟩
  · rename_i userMember hfind
    split
    · exact ⟨Or.inl rfl, rfl, rfl⟩
    · rename_i hrole
      refine ⟨?_, by simp, by simp⟩
      obtain ⟨l1, l2, h1, h2, -, -⟩ := modifyFirst_of_find_some (fun m => m.user == userId)
        (fun m => { m with status := MemberStatus.left }) g.members _ hfind
      refine Or.inr (Or.inr ⟨l1, userMember, { userMember with status := MemberStatus.left }, l2,
        h1, by simpa using h2, rfl, rfl, ?_⟩)
      intro hc
      simp [hc] at hrole

theorem removeMember_frame (g : Group) (userId : UserId) :
    MembersStep g.members (removeMember g userId).group.members ∧
      (removeMember g userId).group.submissions = g.submissions ∧
      (removeMember g userId).group.stats = g.stats := by
  unfold removeMember
  split
  · exact ⟨Or.inl rfl, rfl, rfl⟩
  · rename_i m hfind
    split
    · exact ⟨Or.inl rfl, rfl, rfl⟩
    · rename_i hrole
      refine ⟨?_, by simp, by simp⟩
      obtain ⟨l1, l2, h1, h2, -, -⟩ := modifyFirst_of_find_some
        (fun m => m.user == userId && m.status == MemberStatus.active)
        (fun m => { m with status := MemberStatus.removed }) g.members _ hfind
      refine Or.inr (Or.inr ⟨l1, m, { m with status := MemberStatus.removed }, l2,
        h1, by simpa using h2, rfl, rfl, ?_⟩)
      intro hc
      simp [hc] at hrole

theorem startChallenge_frame (g : Group) (now : Time) :
    (startChallenge g now).group.members = g.members ∧
      (startChallenge g now).group.submissions = g.submissions ∧
      (startChallenge g now).group.stats = g.stats := by
  unfold startChallenge
  split
  · exact ⟨rfl, rfl, rfl⟩
  · exact ⟨by simp, by simp, by simp⟩

theorem startRoute_frame (g : Group) (userId : UserId) (now : Time) :
    (startRoute g userId now).group.members = g.members ∧
      (startRoute g userId now).group.submissions = g.submissions ∧
      (startRoute g userId now).group.stats = g.stats := by
  have hstart := startChallenge_frame g now
  unfold startRoute
  dsimp only
  repeat' split
  all_goals first
    | exact ⟨rfl, rfl, rfl⟩
    | exact hstart

theorem deleteRoute_frame (g : Group) (userId : UserId) :
    (deleteRoute g userId).group.members = g.members ∧
      (deleteRoute g userId).group.submissions = g.submissions ∧
      (deleteRoute g userId).group.stats = g.stats := by
  unfold deleteRoute
  repeat' split
  all_goals first
    | exact ⟨rfl, rfl, rfl⟩
    | exact ⟨by simp, by simp, by simp⟩

theorem uploadExamRoute_frame (g : Group) (paperUrl : String) (maxMarks duration : Option ℚ)
    (instructions : Option String) (now : Time) :
    (uploadExamRoute g paperUrl maxMarks duration instructions now).group.members = g.members ∧
      (uploadExamRoute g paperUrl maxMarks duration instructions now).group.submissions
        = g.submissions ∧
      (uploadExamRoute g paperUrl maxMarks duration instructions now).group.stats = g.stats := by
  unfold uploadExamRoute
  exact ⟨by simp, by simp, by simp⟩

theorem find_user_none_iff (l : List Submission) (u : UserId) :
    l.find? (fun s => s.user == u) = none ↔ u ∉ l.map (fun s => s.user) := by
  simp only [List.find?_eq_none, beq_iff_eq, List.mem_map, not_exists, not_and]

theorem submitExam_frame (g : Group) (userId : UserId) (sheets : List String) (now : Time) :
    (submitExam g userId sheets now).group.members = g.members ∧
      SubmissionsStep g (submitExam g userId sheets now).group := by
  unfold submitExam
  split
  · exact ⟨rfl, SubmissionsStep.of_eq rfl rfl⟩
  · rename_i hfind
    refine ⟨by simp, Or.inr ⟨Submission.mk userId
      (sheets.map (fun url => { imageUrl := url, uploadedAt := now })) now none "" none none,
      ?_, by simp, by simp⟩⟩
    exact (find_user_none_iff g.submissions userId).mp hfind

theorem submitRoute_frame (g : Group) (userId : UserId) (files : Option (List UploadedFile))
    (now : Time) :
    (submitRoute g userId files now).group.members = g.members ∧
      SubmissionsStep g (submitRoute g userId files now).group := by
  unfold submitRoute
  dsimp only
  repeat' split
  all_goals first
    | exact ⟨rfl, SubmissionsStep.of_eq rfl rfl⟩
    | exact submitExam_frame g userId _ now

theorem gradeSubmission_frame (g : Group) (userId : UserId) (marks : ℚ) (feedback : String)
    (grader : UserId) (now : Time) :
    (gradeSubmission g userId marks feedback grader now).group.members = g.members ∧
      SubmissionsStep g (gradeSubmission g userId marks feedback grader now).group := by
  unfold gradeSubmission
  split
  · exact ⟨rfl, SubmissionsStep.of_eq rfl rfl⟩
  · refine ⟨by simp, Or.inl ⟨?_, by simp⟩⟩
    simp only [preSave_submissions, updateStats_submissions]
    apply modifyFirst_map_eq
    intro s
    rfl

/-- Every reachable group satisfies the creator and the submission invariant. -/
theorem Reachable.inv {g : Group} (h : Reachable g) : CreatorInv g ∧ SubmissionInv g := by
  induction h with
  | create creator name description subject chapter duration chatId now hmin hmax =>
    refine ⟨⟨?_, ?_, ?_⟩, ?_, ?_⟩
    · simp [createGroup]
    · simp [createGroup]
    · intro m hm _
      simp only [preSave_members, createGroup, List.mem_singleton] at hm
      rw [hm]
    · simp [createGroup]
    · simp [createGroup]
  | @invite g inviter userIds now _ ih =>
    obtain ⟨a, b, c⟩ := inviteRoute_frame g inviter userIds now
    exact ⟨MembersStep.creatorInv (Or.inl a) ih.1,
      SubmissionsStep.submissionInv (SubmissionsStep.of_eq b c) ih.2⟩
  | @join g userId now _ ih =>
    obtain ⟨a, b, c⟩ := joinRoute_frame g userId now
    exact ⟨MembersStep.creatorInv a ih.1,
      SubmissionsStep.submissionInv (SubmissionsStep.of_eq b c) ih.2⟩
  | @leave g userId _ ih =>
    obtain ⟨a, b, c⟩ := leaveRoute_frame g userId
    exact ⟨MembersStep.creatorInv a ih.1,
      SubmissionsStep.submissionInv (SubmissionsStep.of_eq b c) ih.2⟩
  | @removeMember g userId _ ih =>
    obtain ⟨a, b, c⟩ := removeMember_frame g userId
    exact ⟨MembersStep.creatorInv a ih.1,
      SubmissionsStep.submissionInv (SubmissionsStep.of_eq b c) ih.2⟩
  | @start g userId now _ ih =>
    obtain ⟨a, b, c⟩ := startRoute_frame g userId now
    exact ⟨MembersStep.creatorInv (Or.inl a) ih.1,
      SubmissionsStep.submissionInv (SubmissionsStep.of_eq b c) ih.2⟩
  | @uploadExam g paperUrl maxMarks duration instructions now _ ih =>
    obtain ⟨a, b, c⟩ := uploadExamRoute_frame g paperUrl maxMarks duration instructions now
    exact ⟨MembersStep.creatorInv (Or.inl a) ih.1,
      SubmissionsStep.submissionInv (SubmissionsStep.of_eq b c) ih.2⟩
  | @submit g userId files now _ ih =>
    obtain ⟨a, b⟩ := submitRoute_frame g userId files now
    exact ⟨MembersStep.creatorInv (Or.inl a) ih.1, SubmissionsStep.submissionInv b ih.2⟩
  | @submitExam g userId sheets now _ ih =>
    obtain ⟨a, b⟩ := submitExam_frame g userId sheets now
    exact ⟨MembersStep.creatorInv (Or.inl a) ih.1, SubmissionsStep.submissionInv b ih.2⟩
  | @grade g userId marks feedback grader now _ ih =>
    obtain ⟨a, b⟩ := gradeSubmission_frame g userId marks feedback grader now
    exact ⟨MembersStep.creatorInv (Or.inl a) ih.1, SubmissionsStep.submissionInv b ih.2⟩
  | @delete g userId _ ih =>
    obtain ⟨a, b, c⟩ := deleteRoute_frame g userId
    exact ⟨MembersStep.creatorInv (Or.inl a) ih.1,
      SubmissionsStep.submissionInv (SubmissionsStep.of_eq b c) ih.2⟩

theorem sampleGroup_reachable : Reachable sampleGroup :=
  Reachable.create 1 "Algebra" "" "Mathematics" "Groups" 3 0 1000 (by decide) (by decide)

theorem sampleJoined_reachable : Reachable sampleJoined :=
  Reachable.join 2 1200 (Reachable.invite 1 _ 1100 sampleGroup_reachable)

theorem sampleSubmitted_reachable : Reachable sampleSubmitted :=
  Reachable.submitExam 2 _ 2000 sampleJoined_reachable

theorem sampleGraded_reachable : Reachable sampleGraded :=
  Reachable.grade 2 78 "" 9 3000 sampleSubmitted_reachable

theorem sampleSubmitted_submissions :
    sampleSubmitted.submissions =
      [{ user := 2
         answerSheets := [{ imageUrl := "/uploads/a.png", uploadedAt := 2000 },
           { imageUrl := "/uploads/b.png", uploadedAt := 2000 }]
         submittedAt := 2000
         marks := none
         feedback := ""
         gradedAt := none
         gradedBy := none }] := by
  rfl

theorem foldl_max_mem (ms : List ℚ) (m : ℚ) : ms.foldl Max.max m ∈ m :: ms := by
  induction ms generalizing m with
  | nil => simp
  | cons x xs ih =>
    simp only [List.foldl_cons]
    rcases List.mem_cons.mp (ih (Max.max m x)) with h | h
    · rcases max_choice m x with hm | hm
      · rw [h, hm]; simp
      · rw [h, hm]; simp
    · exact List.mem_cons_of_mem _ (List.mem_cons_of_mem _ h)

theorem le_foldl_max (ms : List ℚ) (m : ℚ) : ∀ x ∈ m :: ms, x ≤ ms.foldl Max.max m := by
  induction ms generalizing m with
  | nil => simp
  | cons y ys ih =>
    intro x hx
    simp only [List.foldl_cons]
    rcases List.mem_cons.mp hx with rfl | hx
    · exact le_trans (le_max_left _ _) (ih _ _ (List.mem_cons_self _ _))
    · rcases List.mem_cons.mp hx with rfl | hx
      · exact le_trans (le_max_right _ _) (ih _ _ (List.mem_cons_self _ _))
      · exact ih _ _ (List.mem_cons_of_mem _ hx)

@[simp] theorem gradedMarks_preSave (g : Group) : gradedMarks (preSave g) = gradedMarks g := by
  simp [gradedMarks]

@[simp] theorem gradedMarks_updateStats (g : Group) :
    gradedMarks (updateStats g) = gradedMarks g := rfl

@[simp] theorem activeMembersCount_preSave (g : Group) :
    activeMembersCount (preSave g) = activeMembersCount g := by
  simp [activeMembersCount]

@[simp] theorem activeMembersCount_updateStats (g : Group) :
    activeMembersCount (updateStats g) = activeMembersCount g := rfl

theorem updateStats_average_highest (g : Group) (h : gradedMarks g ≠ []) :
    (updateStats g).stats.averageMarks = (gradedMarks g).sum / ((gradedMarks g).length : ℚ) ∧
      (updateStats g).stats.highestMarks ∈ gradedMarks g ∧
      ∀ x ∈ gradedMarks g, x ≤ (updateStats g).stats.highestMarks := by
  unfold updateStats
  cases hm : gradedMarks g with
  | nil => exact absurd hm h
  | cons m ms =>
    refine ⟨?_, foldl_max_mem ms m, le_foldl_max ms m⟩
    simp only
    rw [← List.sum_eq_foldl]

theorem updateStats_completionRate (g : Group) :
    (updateStats g).stats.completionRate =
      JSNumber.times100 (JSNumber.div (g.stats.totalSubmissions : ℚ) (activeMembersCount g : ℚ)) := by
  unfold updateStats
  cases gradedMarks g <;> rfl

/-- After a `gradeSubmission` that did not throw, the graded marks are not empty. -/
theorem gradeSubmission_gradedMarks_ne_nil (g : Group) (userId : UserId) (marks : ℚ)
    (feedback : String) (gradedBy : UserId) (now : Time)
    (h : (gradeSubmission g userId marks feedback gradedBy now).thrown = none) :
    gradedMarks (gradeSubmission g userId marks feedback gradedBy now).group ≠ [] := by
  cases hfind : g.submissions.find? (fun s => s.user == userId) with
  | none => simp [gradeSubmission, hfind] at h
  | some s =>
    obtain ⟨l1, l2, -, h2, -, -⟩ := modifyFirst_of_find_some (fun s => s.user == userId)
      (fun s => gradedWith s marks feedback gradedBy now) g.submissions s hfind
    simp only [gradeSubmission, hfind, gradedMarks, preSave_submissions, updateStats_submissions,
      h2, List.filterMap_append, List.filterMap_cons]
    simp [gradedWith]

theorem CreatorInv.activeMembersCount_pos {g : Group} (h : CreatorInv g) :
    0 < activeMembersCount g := by
  obtain ⟨-, hlen, hact⟩ := h
  obtain ⟨c, hc⟩ := List.length_eq_one.mp hlen
  have hmem : c ∈ g.members.filter (fun m => m.role == Role.creator) := by
    rw [hc]; exact List.mem_singleton.mpr rfl
  obtain ⟨hcm, hrole⟩ := List.mem_filter.mp hmem
  have hstatus := hact c hcm (by simpa using hrole)
  unfold activeMembersCount
  apply List.length_pos_of_mem (a := c)
  exact List.mem_filter.mpr ⟨hcm, by simp [hstatus]⟩

theorem JSNumber.times100_div_of_ne_zero (a b : ℚ) (hb : b ≠ 0) :
    JSNumber.times100 (JSNumber.div a b) = JSNumber.finite (a / b * 100) := by
  simp [JSNumber.div, hb, JSNumber.times100]

/-- In a list of records of pairwise distinct users, `find` with a predicate that holds of `c`
and only of records of the user of `c` returns `c`. -/
theorem find_eq_of_nodup_user (l : List Member) (c : Member) (p : Member → Bool)
    (hnd : (l.map (fun m => m.user)).Nodup) (hc : c ∈ l) (hp : p c = true)
    (hpu : ∀ m, p m = true → m.user = c.user) : l.find? p = some c := by
  induction l with
  | nil => cases hc
  | cons x xs ih =>
    simp only [List.map_cons, List.nodup_cons] at hnd
    by_cases hx : p x = true
    · rcases List.mem_cons.mp hc with rfl | hc
      · simp [List.find?, hx]
      · exfalso
        apply hnd.1
        rw [hpu x hx]
        exact List.mem_map.mpr ⟨c, hc, rfl⟩
    · simp only [Bool.not_eq_true] at hx
      rcases List.mem_cons.mp hc with rfl | hc
      · rw [hp] at hx
        cases hx
      · simp only [List.find?, hx]
        exact ih hnd.2 hc

/-! ## Submission workflow -/

/-- C1: in every reachable group no two submissions have the same user, and `submitExam` for a
user who already has a submission throws 'User has already submitted the exam' and leaves the
group as it was. -/
theorem submitExam_at_most_once (g : Group) :
    (Reachable g → (g.submissions.map (fun s => s.user)).Nodup) ∧
      ∀ (userId : UserId) (answerSheets : List String) (now : Time),
        (∃ s ∈ g.submissions, s.user = userId) →
        submitExam g userId answerSheets now =
          { thrown := some "User has already submitted the exam", group := g } := by
  refine ⟨fun h => h.inv.2.1, ?_⟩
  intro userId answerSheets now hex
  unfold submitExam
  split
  · rfl
  · rename_i hfind
    obtain ⟨s, hs, hu⟩ := hex
    exact absurd (List.mem_map.mpr ⟨s, hs, hu⟩) ((find_user_none_iff _ _).mp hfind)

theorem submitExam_at_most_once_witness :
    Reachable sampleSubmitted ∧ (sampleSubmitted.submissions.map (fun s => s.user)).Nodup ∧
      submitExam sampleSubmitted 2 ["/uploads/c.png"] 2500 =
        { thrown := some "User has already submitted the exam", group := sampleSubmitted } :=
  ⟨sampleSubmitted_reachable,
    (submitExam_at_most_once sampleSubmitted).1 sampleSubmitted_reachable,
    (submitExam_at_most_once sampleSubmitted).2 2 _ 2500
      ⟨_, by rw [sampleSubmitted_submissions]; exact List.mem_singleton.mpr rfl, rfl⟩⟩

/-- C2: the submit handler answers success exactly when the exam has started, the user has no
submission and `req.files` holds at least one file; on success the stored group has exactly one
more submission, of that user, with `marks = null` and the uploaded sheets in order, and
`stats.totalSubmissions` is one higher; each of the three rejections leaves the group as it was. -/
theorem submitRoute_accepts_iff (g : Group) (userId : UserId)
    (files : Option (List UploadedFile)) (now : Time) :
    ((submitRoute g userId files now).response
          = Response.json 200 true "Exam submitted successfully" ↔
        g.challenge.examStarted = true ∧ (∀ s ∈ g.submissions, s.user ≠ userId) ∧
          ∃ f fs, files = some (f :: fs)) ∧
      (∀ f fs, g.challenge.examStarted = true → (∀ s ∈ g.submissions, s.user ≠ userId) →
        files = some (f :: fs) →
        (submitRoute g userId files now).group.submissions
            = g.submissions ++ [submissionOf userId (f :: fs) now] ∧
          (submitRoute g userId files now).group.stats.totalSubmissions
            = g.stats.totalSubmissions + 1) ∧
      (g.challenge.examStarted = false →
        submitRoute g userId files now =
          { response := Response.json 400 false "Exam has not started yet", group := g }) ∧
      (g.challenge.examStarted = true → (∃ s ∈ g.submissions, s.user = userId) →
        submitRoute g userId files now =
          { response := Response.json 400 false "You have already submitted this exam"
            group := g }) ∧
      (g.challenge.examStarted = true → (∀ s ∈ g.submissions, s.user ≠ userId) →
        (files = none ∨ files = some []) →
        submitRoute g userId files now =
          { response := Response.json 400 false "At least one answer sheet image is required"
            group := g }) := by
  have hnone : (∀ s ∈ g.submissions, s.user ≠ userId) ↔
      g.submissions.find? (fun s => s.user == userId) = none := by
    rw [find_user_none_iff]
    simp only [List.mem_map, not_exists, not_and]
  have hsome : (∃ s ∈ g.submissions, s.user = userId) →
      ∃ s, g.submissions.find? (fun s => s.user == userId) = some s := by
    intro hex
    cases hf : g.submissions.find? (fun s => s.user == userId) with
    | some s => exact ⟨s, rfl⟩
    | none =>
      obtain ⟨s, hs, hu⟩ := hex
      exact absurd hu (hnone.mpr hf s hs)
  refine ⟨?_, ?_, ?_, ?_, ?_⟩
  · cases hstarted : g.challenge.examStarted with
    | false => simp [submitRoute, hstarted]
    | true =>
      cases hf : g.submissions.find? (fun s => s.user == userId) with
      | some s =>
        have : ¬ ∀ s ∈ g.submissions, s.user ≠ userId := fun h => by
          rw [hnone, hf] at h
          cases h
        simp [submitRoute, hstarted, hf, this]
      | none =>
        have hall := hnone.mpr hf
        cases files with
        | none => simp [submitRoute, hstarted, hf]
        | some fs =>
          cases fs with
          | nil => simp [submitRoute, hstarted, hf]
          | cons f fs =>
            simp only [submitRoute, hstarted, hf, submitExam, Bool.not_true, Bool.false_eq_true,
              if_false, true_and]
            exact ⟨fun _ => ⟨hall, f, fs, rfl⟩, fun _ => trivial⟩
  · intro f fs hstarted hall hfiles
    subst hfiles
    have hf := hnone.mp hall
    simp [submitRoute, hstarted, hf, submitExam, submissionOf]
  · intro hstarted
    simp [submitRoute, hstarted]
  · intro hstarted hex
    obtain ⟨s, hf⟩ := hsome hex
    simp [submitRoute, hstarted, hf]
  · intro hstarted hall hfiles
    have hf := hnone.mp hall
    rcases hfiles with rfl | rfl <;> simp [submitRoute, hstarted, hf]

theorem submitRoute_accepts_iff_witness :
    ((submitRoute sampleExamOpen 2 (some [{ filename := "a.png" }, { filename := "b.png" }])
            2000).group.submissions
          = sampleExamOpen.submissions
            ++ [submissionOf 2 [{ filename := "a.png" }, { filename := "b.png" }] 2000] ∧
        (submitRoute sampleExamOpen 2 (some [{ filename := "a.png" }, { filename := "b.png" }])
            2000).group.stats.totalSubmissions
          = sampleExamOpen.stats.totalSubmissions + 1) ∧
      submitRoute sampleJoined 2 (some [{ filename := "a.png" }]) 2000
        = { response := Response.json 400 false "Exam has not started yet"
            group := sampleJoined } ∧
      submitRoute sampleExamSubmitted 2 (some [{ filename := "c.png" }]) 2500
        = { response := Response.json 400 false "You have already submitted this exam"
            group := sampleExamSubmitted } ∧
      submitRoute sampleExamOpen 2 (some []) 2000
        = { response := Response.json 400 false "At least one answer sheet image is required"
            group := sampleExamOpen } :=
  ⟨(submitRoute_accepts_iff sampleExamOpen 2
        (some [{ filename := "a.png" }, { filename := "b.png" }]) 2000).2.1
      { filename := "a.png" } [{ filename := "b.png" }] rfl
      (fun s hs => by
        have h : sampleExamOpen.submissions = [] := rfl
        rw [h] at hs
        cases hs)
      rfl,
    (submitRoute_accepts_iff sampleJoined 2 (some [{ filename := "a.png" }]) 2000).2.2.1 rfl,
    (submitRoute_accepts_iff sampleExamSubmitted 2 (some [{ filename := "c.png" }])
        2500).2.2.2.1 rfl
      ⟨submissionOf 2 [{ filename := "a.png" }, { filename := "b.png" }] 2000,
        List.mem_singleton.mpr rfl, rfl⟩,
    (submitRoute_accepts_iff sampleExamOpen 2 (some []) 2000).2.2.2.2 rfl
      (fun s hs => by
        have h : sampleExamOpen.submissions = [] := rfl
        rw [h] at hs
        cases hs)
      (Or.inr rfl)⟩

/-- C3, counterexample: the reachable sample group holds the submission of user `2` graded
with 78 marks; a further `gradeSubmission` call with 60 marks succeeds and that submission's
marks are 60 afterwards. -/
theorem gradeSubmission_regrade_changes_marks :
    Reachable sampleGraded ∧
      sampleGraded.submissions.map (fun s => (s.user, s.marks)) = [(2, some 78)] ∧
      (gradeSubmission sampleGraded 2 60 "" 9 4000).thrown = none ∧
      (gradeSubmission sampleGraded 2 60 "" 9 4000).group.submissions.map
        (fun s => (s.user, s.marks)) = [(2, some 60)] ∧
      (some 60 : Option ℚ) ≠ some 78 :=
  ⟨sampleGraded_reachable, rfl, rfl, rfl, by norm_num⟩

/-- C3, amended: for every group and user whose (first) submission is `s`, graded or not,
`gradeSubmission` succeeds, replaces `s` by `s` with the supplied marks written on it, and
leaves every other submission, and the order of the list, unchanged. -/
theorem gradeSubmission_overwrites (g : Group) (userId : UserId) (marks : ℚ)
    (feedback : String) (gradedBy : UserId) (now : Time) (s : Submission)
    (hfind : g.submissions.find? (fun s => s.user == userId) = some s) :
    (gradeSubmission g userId marks feedback gradedBy now).thrown = none ∧
      (gradedWith s marks feedback gradedBy now).marks = some marks ∧
      ∃ l1 l2, g.submissions = l1 ++ s :: l2 ∧ s.user = userId ∧ (∀ y ∈ l1, y.user ≠ userId) ∧
        (gradeSubmission g userId marks feedback gradedBy now).group.submissions
          = l1 ++ gradedWith s marks feedback gradedBy now :: l2 := by
  obtain ⟨l1, l2, h1, h2, h3, h4⟩ := modifyFirst_of_find_some (fun s => s.user == userId)
    (fun s => gradedWith s marks feedback gradedBy now) g.submissions s hfind
  refine ⟨?_, rfl, l1, l2, h1, by simpa using h3, ?_, ?_⟩
  · simp [gradeSubmission, hfind]
  · intro y hy
    simpa using h4 y hy
  · simp only [gradeSubmission, hfind, preSave_submissions, updateStats_submissions]
    exact h2

theorem gradeSubmission_overwrites_witness :
    (gradeSubmission sampleGraded 2 60 "" 9 4000).thrown = none ∧
      (gradedWith (gradedWith (submissionOf 2 [{ filename := "a.png" }, { filename := "b.png" }]
        2000) 78 "" 9 3000) 60 "" 9 4000).marks = some 60 ∧
      ∃ l1 l2, sampleGraded.submissions = l1 ++ gradedWith (submissionOf 2
          [{ filename := "a.png" }, { filename := "b.png" }] 2000) 78 "" 9 3000 :: l2 ∧
        (gradedWith (submissionOf 2 [{ filename := "a.png" }, { filename := "b.png" }] 2000)
          78 "" 9 3000).user = 2 ∧ (∀ y ∈ l1, y.user ≠ 2) ∧
        (gradeSubmission sampleGraded 2 60 "" 9 4000).group.submissions
          = l1 ++ gradedWith (gradedWith (submissionOf 2
              [{ filename := "a.png" }, { filename := "b.png" }] 2000) 78 "" 9 3000)
            60 "" 9 4000 :: l2 :=
  gradeSubmission_overwrites sampleGraded 2 60 "" 9 4000 _ rfl

/-- C4: after every `gradeSubmission` that succeeds, `stats.averageMarks` is the sum of the
non-null marks divided by their number and `stats.highestMarks` is their maximum: it is one of
these marks and none of them exceeds it. -/
theorem gradeSubmission_average_highest (g : Group) (userId : UserId) (marks : ℚ)
    (feedback : String) (gradedBy : UserId) (now : Time)
    (h : (gradeSubmission g userId marks feedback gradedBy now).thrown = none) :
    gradedMarks (gradeSubmission g userId marks feedback gradedBy now).group ≠ [] ∧
      (gradeSubmission g userId marks feedback gradedBy now).group.stats.averageMarks
        = (gradedMarks (gradeSubmission g userId marks feedback gradedBy now).group).sum
          / ((gradedMarks (gradeSubmission g userId marks feedback gradedBy now).group).length : ℚ) ∧
      (gradeSubmission g userId marks feedback gradedBy now).group.stats.highestMarks
        ∈ gradedMarks (gradeSubmission g userId marks feedback gradedBy now).group ∧
      ∀ x ∈ gradedMarks (gradeSubmission g userId marks feedback gradedBy now).group,
        x ≤ (gradeSubmission g userId marks feedback gradedBy now).group.stats.highestMarks := by
  have hne := gradeSubmission_gradedMarks_ne_nil g userId marks feedback gradedBy now h
  refine ⟨hne, ?_⟩
  cases hfind : g.submissions.find? (fun s => s.user == userId) with
  | none => simp [gradeSubmission, hfind] at h
  | some s =>
    simp only [gradeSubmission, hfind, gradedMarks_preSave, gradedMarks_updateStats,
      preSave_stats] at hne ⊢
    exact updateStats_average_highest _ hne

theorem gradeSubmission_average_highest_witness :
    (sampleGraded.stats.averageMarks = 78 ∧ sampleGraded.stats.highestMarks = 78) ∧
      gradedMarks sampleGraded ≠ [] ∧
      sampleGraded.stats.averageMarks
        = (gradedMarks sampleGraded).sum / ((gradedMarks sampleGraded).length : ℚ) ∧
      sampleGraded.stats.highestMarks ∈ gradedMarks sampleGraded ∧
      ∀ x ∈ gradedMarks sampleGraded, x ≤ sampleGraded.stats.highestMarks :=
  ⟨⟨by
      show ((0 : ℚ) + 78) / (([(78 : ℚ)].length : ℕ) : ℚ) = 78
      norm_num, rfl⟩,
    gradeSubmission_average_highest sampleSubmitted 2 78 "" 9 3000 rfl⟩

/-- C5: in every reachable group, after a `gradeSubmission` that succeeds the number of active
members is not zero and `stats.completionRate` is the number of submissions divided by the
number of active members, times 100. -/
theorem gradeSubmission_completionRate (g : Group) (hr : Reachable g) (userId : UserId)
    (marks : ℚ) (feedback : String) (gradedBy : UserId) (now : Time)
    (h : (gradeSubmission g userId marks feedback gradedBy now).thrown = none) :
    activeMembersCount (gradeSubmission g userId marks feedback gradedBy now).group ≠ 0 ∧
      (gradeSubmission g userId marks feedback gradedBy now).group.stats.completionRate
        = JSNumber.finite
          (((gradeSubmission g userId marks feedback gradedBy now).group.submissions.length : ℚ)
            / (activeMembersCount (gradeSubmission g userId marks feedback gradedBy now).group : ℚ)
            * 100) := by
  obtain ⟨hc, -, htot⟩ := hr.inv
  have hpos := hc.activeMembersCount_pos
  cases hfind : g.submissions.find? (fun s => s.user == userId) with
  | none => simp [gradeSubmission, hfind] at h
  | some s =>
    have hact : ∀ l : List Submission,
        activeMembersCount { g with submissions := l } = activeMembersCount g := fun _ => rfl
    simp only [gradeSubmission, hfind, activeMembersCount_preSave, activeMembersCount_updateStats,
      hact, preSave_stats, preSave_submissions, updateStats_submissions,
      updateStats_completionRate, modifyFirst_length]
    refine ⟨by omega, ?_⟩
    rw [JSNumber.times100_div_of_ne_zero _ _ (by exact_mod_cast (by omega : activeMembersCount g ≠ 0)),
      htot]

theorem gradeSubmission_completionRate_witness :
    sampleGraded.stats.completionRate = JSNumber.finite 50 ∧
      activeMembersCount sampleGraded ≠ 0 ∧
      sampleGraded.stats.completionRate
        = JSNumber.finite ((sampleGraded.submissions.length : ℚ)
            / (activeMembersCount sampleGraded : ℚ) * 100) :=
  ⟨by
      show JSNumber.times100 (JSNumber.div (((0 + 1 : ℕ) : ℕ) : ℚ) (((2 : ℕ) : ℕ) : ℚ))
        = JSNumber.finite 50
      rw [JSNumber.times100_div_of_ne_zero _ _ (by norm_num)]
      norm_num,
    gradeSubmission_completionRate sampleSubmitted sampleSubmitted_reachable 2 78 "" 9 3000 rfl⟩

/-- C6: `updateStats` is idempotent: a second application leaves `averageMarks`,
`highestMarks` and `completionRate`, and indeed the whole document, as the first one left them. -/
theorem updateStats_idempotent (g : Group) :
    (updateStats (updateStats g)).stats.averageMarks = (updateStats g).stats.averageMarks ∧
      (updateStats (updateStats g)).stats.highestMarks = (updateStats g).stats.highestMarks ∧
      (updateStats (updateStats g)).stats.completionRate = (updateStats g).stats.completionRate ∧
      updateStats (updateStats g) = updateStats g := by
  have key : updateStats (updateStats g) = updateStats g := by
    have hm : gradedMarks (updateStats g) = gradedMarks g := rfl
    have ha : activeMembersCount (updateStats g) = activeMembersCount g := rfl
    unfold updateStats at hm ha ⊢
    simp only [hm, ha]
    cases gradedMarks g <;> rfl
  exact ⟨by rw [key], by rw [key], by rw [key], key⟩

/-! ## Challenge timing -/

/-- C7: on a group whose challenge has not started, `startChallenge` at `now` sets
`isStarted = true`, `status = active`, `startTime = now` and
`endTime = now + duration * 24 * 60 * 60 * 1000` (three days are 259200000 ms) and changes
nothing else; on a started group it throws 'Challenge has already started' and changes nothing. -/
theorem startChallenge_spec (g : Group) (now : Time) :
    (g.challenge.isStarted = false →
        startChallenge g now =
          { thrown := none
            group := { g with challenge := { g.challenge with
              isStarted := true
              status := ChallengeStatus.active
              startTime := some now
              endTime := some (now + g.challenge.duration * 24 * 60 * 60 * 1000) } } }) ∧
      (g.challenge.isStarted = false → g.challenge.duration = 3 →
        (startChallenge g now).group.challenge.endTime = some (now + 259200000)) ∧
      (g.challenge.isStarted = true →
        startChallenge g now = { thrown := some "Challenge has already started", group := g }) := by
  refine ⟨?_, ?_, ?_⟩
  · intro h
    simp only [startChallenge, h, Bool.false_eq_true, if_false, durationInMs]
    rw [preSave_of_endTime _ _ rfl]
  · intro h hd
    simp only [startChallenge, h, Bool.false_eq_true, if_false, durationInMs]
    rw [preSave_of_endTime _ _ rfl]
    simp [hd]
  · intro h
    simp [startChallenge, h]

theorem startChallenge_spec_witness :
    (startChallenge sampleJoined 5000).thrown = none ∧
      (startChallenge sampleJoined 5000).group.challenge.isStarted = true ∧
      (startChallenge sampleJoined 5000).group.challenge.status = ChallengeStatus.active ∧
      (startChallenge sampleJoined 5000).group.challenge.startTime = some 5000 ∧
      (startChallenge sampleJoined 5000).group.challenge.endTime = some (5000 + 259200000) ∧
      startChallenge sampleStarted 6000
        = { thrown := some "Challenge has already started", group := sampleStarted } :=
  ⟨by rw [(startChallenge_spec sampleJoined 5000).1 rfl],
    by rw [(startChallenge_spec sampleJoined 5000).1 rfl],
    by rw [(startChallenge_spec sampleJoined 5000).1 rfl],
    by rw [(startChallenge_spec sampleJoined 5000).1 rfl],
    (startChallenge_spec sampleJoined 5000).2.1 rfl rfl,
    (startChallenge_spec sampleStarted 6000).2.2 rfl⟩

/-- C8, counterexample: the sample group is started, its end time 259205000 lies after the
instant 6000, and its status is `completed`; `timeRemaining` is 0 there, not
`max(0, endTime - now) = 259199000`. -/
theorem timeRemaining_completed_is_zero :
    sampleCompleted.challenge.isStarted = true ∧
      sampleCompleted.challenge.endTime = some 259205000 ∧
      timeRemaining sampleCompleted 6000 = Except.ok 0 ∧
      Max.max (0 : Int) (259205000 - 6000) = 259199000 :=
  ⟨rfl, by decide, rfl, by decide⟩

/-- C8, amended: `timeRemaining` at `now` is 0 when the challenge has not started or its status
is `completed`; when it has started, is not completed and has end time `endTime`, it is
`max(0, endTime - now)`. -/
theorem timeRemaining_spec (g : Group) (now : Time) :
    ((g.challenge.isStarted = false ∨ g.challenge.status = ChallengeStatus.completed) →
        timeRemaining g now = Except.ok 0) ∧
      ∀ endTime : Time, g.challenge.isStarted = true →
        g.challenge.status ≠ ChallengeStatus.completed → g.challenge.endTime = some endTime →
        timeRemaining g now = Except.ok (Max.max 0 (endTime - now)) := by
  refine ⟨?_, ?_⟩
  · rintro (h | h) <;> simp [timeRemaining, h]
  · intro endTime hs hc he
    simp only [timeRemaining, hs, he, Bool.not_true, Bool.false_or, beq_iff_eq, hc, if_false]
    split
    · rename_i hge
      have h0 : endTime - now ≤ 0 := sub_nonpos.mpr hge
      rw [max_eq_left h0]
    · rfl

theorem timeRemaining_spec_witness :
    timeRemaining sampleCompleted 6000 = Except.ok 0 ∧
      timeRemaining sampleStarted 6000 = Except.ok (Max.max 0 (259205000 - 6000)) :=
  ⟨(timeRemaining_spec sampleCompleted 6000).1 (Or.inr rfl),
    (timeRemaining_spec sampleStarted 6000).2 259205000 rfl (by decide) (by decide)⟩

/-- C9: for a started group with duration between 2 and 6 days, start time `s` and end time
`e = s + duration` days, `challengeProgress` at `now` is
`min(100, max(0, (now - s) / (e - s) * 100))`, the divisor `e - s` is positive and the value
lies between 0 and 100; for a group that has not started it is 0. -/
theorem challengeProgress_spec (g : Group) (now : Time) :
    (∀ s e : Time, g.challenge.isStarted = true → 2 ≤ g.challenge.duration →
        g.challenge.duration ≤ 6 → g.challenge.startTime = some s →
        g.challenge.endTime = some e → e = s + durationInMs g.challenge.duration →
        0 < e - s ∧
          challengeProgress g now = Except.ok (JSNumber.finite
            (Min.min 100 (Max.max 0 (((now - s : Int) : ℚ) / ((e - s : Int) : ℚ) * 100)))) ∧
          0 ≤ Min.min (100 : ℚ) (Max.max 0 (((now - s : Int) : ℚ) / ((e - s : Int) : ℚ) * 100)) ∧
          Min.min (100 : ℚ) (Max.max 0 (((now - s : Int) : ℚ) / ((e - s : Int) : ℚ) * 100)) ≤ 100) ∧
      (g.challenge.isStarted = false → challengeProgress g now = Except.ok (JSNumber.finite 0)) := by
  refine ⟨?_, ?_⟩
  · intro s e hstarted hmin hmax hs he hdur
    have hpos : (0 : Int) < e - s := by
      have h1 : e - s = g.challenge.duration * 86400000 := by
        rw [hdur, durationInMs]
        ring
      rw [h1]
      have h2 : (2 : Int) ≤ g.challenge.duration := hmin
      omega
    have hne : ((e - s : Int) : ℚ) ≠ 0 := by
      exact_mod_cast (ne_of_gt hpos)
    refine ⟨hpos, ?_, le_min (by norm_num) (le_max_left _ _), min_le_left _ _⟩
    simp only [challengeProgress, hstarted, hs, he, Bool.not_true, Bool.false_eq_true, if_false]
    have hdiv : JSNumber.div ((now - s : Int) : ℚ) ((e - s : Int) : ℚ)
        = JSNumber.finite (((now - s : Int) : ℚ) / ((e - s : Int) : ℚ)) := by
      unfold JSNumber.div
      rw [if_neg hne]
    rw [hdiv]
    rfl
  · intro h
    simp [challengeProgress, h]

theorem challengeProgress_spec_witness :
    ((0 : Int) < 259205000 - 5000 ∧
        challengeProgress sampleStarted 129605000 = Except.ok (JSNumber.finite
          (Min.min 100 (Max.max 0 (((129605000 - 5000 : Int) : ℚ)
            / ((259205000 - 5000 : Int) : ℚ) * 100)))) ∧
        0 ≤ Min.min (100 : ℚ) (Max.max 0 (((129605000 - 5000 : Int) : ℚ)
            / ((259205000 - 5000 : Int) : ℚ) * 100)) ∧
        Min.min (100 : ℚ) (Max.max 0 (((129605000 - 5000 : Int) : ℚ)
            / ((259205000 - 5000 : Int) : ℚ) * 100)) ≤ 100) ∧
      challengeProgress sampleJoined 129605000 = Except.ok (JSNumber.finite 0) :=
  ⟨(challengeProgress_spec sampleStarted 129605000).1 5000 259205000 rfl (by decide) (by decide)
      rfl (by decide) (by decide),
    (challengeProgress_spec sampleJoined 129605000).2 rfl⟩

/-! ## Membership -/

/-- C10: in every reachable group exactly one member record has role creator, that record is
active, and both the leave handler and `removeMember` reject its user and leave the group as it
was. -/
theorem creator_unique_active (g : Group) (h : Reachable g) :
    ∃ c, g.members.filter (fun m => m.role == Role.creator) = [c] ∧
      c.status = MemberStatus.active ∧
      leaveRoute g c.user =
        { response := Response.json 400 false
            "Group creator cannot leave the group. Transfer ownership or delete the group."
          group := g } ∧
      removeMember g c.user = { thrown := some "Cannot remove group creator", group := g } := by
  obtain ⟨hnd, hlen, hact⟩ := h.inv.1
  obtain ⟨c, hc⟩ := List.length_eq_one.mp hlen
  have hmem : c ∈ g.members.filter (fun m => m.role == Role.creator) := by
    rw [hc]; exact List.mem_singleton.mpr rfl
  obtain ⟨hcm, hrole⟩ := List.mem_filter.mp hmem
  have hrole' : c.role = Role.creator := by simpa using hrole
  have hstatus := hact c hcm hrole'
  have hfind1 : g.members.find? (fun m => m.user == c.user) = some c :=
    find_eq_of_nodup_user g.members c _ hnd hcm (by simp) (fun m hm => by simpa using hm)
  have hfind2 : g.members.find? (fun m => m.user == c.user && m.status == MemberStatus.active)
      = some c :=
    find_eq_of_nodup_user g.members c _ hnd hcm (by simp [hstatus])
      (fun m hm => by
        simp only [Bool.and_eq_true, beq_iff_eq] at hm
        exact hm.1)
  refine ⟨c, hc, hstatus, ?_, ?_⟩
  · simp [leaveRoute, hfind1, hrole']
  · simp [removeMember, hfind2, hrole']

theorem creator_unique_active_witness :
    Reachable sampleJoined ∧
      ∃ c, sampleJoined.members.filter (fun m => m.role == Role.creator) = [c] ∧
        c.status = MemberStatus.active ∧
        leaveRoute sampleJoined c.user =
          { response := Response.json 400 false
              "Group creator cannot leave the group. Transfer ownership or delete the group."
            group := sampleJoined } ∧
        removeMember sampleJoined c.user
          = { thrown := some "Cannot remove group creator", group := sampleJoined } :=
  ⟨sampleJoined_reachable, creator_unique_active sampleJoined sampleJoined_reachable⟩

/-! ## Group and chat: frame lemmas and invariants -/

@[simp] theorem preSave_chat (g : Group) : (preSave g).chat = g.chat := by
  unfold preSave; split <;> rfl

@[simp] theorem chatPreSave_participants (c : Chat) :
    (chatPreSave c).participants = c.participants := rfl

@[simp] theorem chatPreSave_messages (c : Chat) : (chatPreSave c).messages = c.messages := rfl

theorem modifyFirst_forall {α : Type} (p : α → Bool) (f : α → α) (P : α → Prop) (l : List α)
    (hl : ∀ x ∈ l, P x) (hf : ∀ x, l.find? p = some x → P (f x)) :
    ∀ y ∈ modifyFirst p f l, P y := by
  cases hfind : l.find? p with
  | none =>
    rw [modifyFirst_of_find_none p f l hfind]
    exact hl
  | some x =>
    obtain ⟨l1, l2, h1, h2, -, -⟩ := modifyFirst_of_find_some p f l x hfind
    rw [h2]
    intro y hy
    rcases List.mem_append.mp hy with hy | hy
    · exact hl y (by rw [h1]; exact List.mem_append_left _ hy)
    · rcases List.mem_cons.mp hy with rfl | hy
      · exact hf x hfind
      · exact hl y (by rw [h1]; exact List.mem_append_right _ (List.mem_cons_of_mem _ hy))

theorem MembersStep.users_subset {l l' : List Member} (h : MembersStep l l') :
    ∀ u ∈ l.map (fun m => m.user), u ∈ l'.map (fun m => m.user) := by
  rcases h with h | ⟨m, -, -, h⟩ | ⟨l1, x, y, l2, h1, h2, -, huser, -⟩
  · intro u hu
    rw [h]; exact hu
  · intro u hu
    rw [h, List.map_append]
    exact List.mem_append_left _ hu
  · intro u hu
    rw [h1] at hu
    rw [h2]
    simpa [huser] using hu

theorem inviteStep_chat (inviter : UserId) (now : Time) (st : InviteState) (r : InviteRequest) :
    (inviteStep inviter now st r).group.chat = st.group.chat := by
  unfold inviteStep
  repeat' split
  all_goals rfl

theorem inviteLoop_chat (inviter : UserId) (now : Time) (rs : List InviteRequest)
    (st : InviteState) :
    (rs.foldl (inviteStep inviter now) st).group.chat = st.group.chat := by
  induction rs generalizing st with
  | nil => rfl
  | cons r rs ih =>
    simp only [List.foldl_cons]
    exact (ih _).trans (inviteStep_chat inviter now st r)

theorem GroupStep.frame {g g' : Group} (h : GroupStep g g') :
    g'.chat = g.chat ∧ MembersStep g.members g'.members := by
  cases h with
  | invite inviter userIds now =>
    refine ⟨?_, Or.inl (inviteRoute_frame g inviter userIds now).1⟩
    have hloop := inviteLoop_chat inviter now userIds
      { group := g, invitedUsers := [], failedInvites := [] }
    unfold inviteRoute
    cases userIds with
    | nil => rfl
    | cons r rs =>
      dsimp only
      repeat' split
      all_goals first
        | rfl
        | simpa using hloop
  | removeMember userId =>
    refine ⟨?_, (removeMember_frame g userId).1⟩
    unfold StudyChallenge.removeMember
    repeat' split
    all_goals first
      | rfl
      | simp
  | start userId now =>
    refine ⟨?_, Or.inl (startRoute_frame g userId now).1⟩
    unfold startRoute startChallenge
    dsimp only
    repeat' split
    all_goals rfl
  | uploadExam paperUrl maxMarks duration instructions now =>
    refine ⟨?_, Or.inl (uploadExamRoute_frame g paperUrl maxMarks duration instructions now).1⟩
    unfold uploadExamRoute
    simp
  | submit userId files now =>
    refine ⟨?_, Or.inl (submitRoute_frame g userId files now).1⟩
    unfold submitRoute StudyChallenge.submitExam
    dsimp only
    repeat' split
    all_goals first
      | rfl
      | simp
  | submitExam userId answerSheets now =>
    refine ⟨?_, Or.inl (submitExam_frame g userId answerSheets now).1⟩
    unfold StudyChallenge.submitExam
    repeat' split
    all_goals first
      | rfl
      | simp
  | grade userId marks feedback grader now =>
    refine ⟨?_, Or.inl (gradeSubmission_frame g userId marks feedback grader now).1⟩
    unfold gradeSubmission
    repeat' split
    all_goals first
      | rfl
      | (simp; rfl)
  | delete userId =>
    refine ⟨?_, Or.inl (deleteRoute_frame g userId).1⟩
    unfold deleteRoute
    repeat' split
    all_goals first
      | rfl
      | simp

theorem joinRequest_response (g : Group) (chat : Option Chat) (userId : UserId) (now : Time) :
    (joinRequest g chat userId now).response = (joinRoute g userId now).response := by
  unfold joinRequest joinRoute
  dsimp only
  repeat' split
  all_goals rfl

theorem joinRequest_group (g : Group) (chat : Option Chat) (userId : UserId) (now : Time) :
    (joinRequest g chat userId now).group = (joinRoute g userId now).group := by
  unfold joinRequest joinRoute
  dsimp only
  repeat' split
  all_goals rfl

theorem leaveRequest_response (g : Group) (chat : Option Chat) (userId : UserId) :
    (leaveRequest g chat userId).response = (leaveRoute g userId).response := by
  unfold leaveRequest leaveRoute
  repeat' split
  all_goals rfl

theorem leaveRequest_group (g : Group) (chat : Option Chat) (userId : UserId) :
    (leaveRequest g chat userId).group = (leaveRoute g userId).group := by
  unfold leaveRequest leaveRoute
  repeat' split
  all_goals rfl

theorem addMember_chat (g : Group) (userId : UserId) (role : Role) (now : Time) :
    (addMember g userId role now).group.chat = g.chat := by
  unfold addMember
  repeat' split
  all_goals first
    | rfl
    | simp

theorem joinRoute_chat (g : Group) (userId : UserId) (now : Time) :
    (joinRoute g userId now).group.chat = g.chat := by
  have h := addMember_chat g userId Role.member now
  unfold joinRoute
  dsimp only
  repeat' split
  all_goals first
    | rfl
    | simp [h]

theorem leaveRoute_chat (g : Group) (userId : UserId) :
    (leaveRoute g userId).group.chat = g.chat := by
  unfold leaveRoute
  repeat' split
  all_goals first
    | rfl
    | simp

/-- After an `addMember` that did not throw, the user has a member record. -/
theorem addMember_user_mem (g : Group) (userId : UserId) (now : Time)
    (h : (addMember g userId Role.member now).thrown = none) :
    userId ∈ (addMember g userId Role.member now).group.members.map (fun m => m.user) := by
  cases hfind : g.members.find? (fun m => m.user == userId) with
  | some existingMember =>
    have hmem : userId ∈ g.members.map (fun m => m.user) := by
      have h1 := List.mem_of_find?_eq_some hfind
      have h2 := List.find?_some hfind
      simp only [beq_iff_eq] at h2
      exact List.mem_map.mpr ⟨existingMember, h1, h2⟩
    exact (addMember_frame g userId Role.member now rfl).1.users_subset userId hmem
  | none =>
    by_cases hcap : activeMembersCount g ≥ g.settings.maxMembers
    · simp [addMember, hfind, hcap] at h
    · simp [addMember, hfind, hcap]

theorem addParticipant_cases (c : Chat) (userId : UserId) (role : ChatRole) (now : Time) :
    (addParticipant c userId role now).saved = false ∨
      (c.participants.find? (fun p => p.user == userId) = none ∧
        addParticipant c userId role now =
          { chat := chatPreSave { c with participants := c.participants ++
              [Participant.mk userId now now role true] }
            saved := true }) := by
  unfold addParticipant
  split
  · split
    · exact Or.inl rfl
    · exact Or.inl rfl
  · rename_i hfind
    exact Or.inr ⟨hfind, rfl⟩

/-- The chat part of a join: the chat is kept, or the user, who then has a member record, is
pushed as a participant. -/
theorem joinRequest_chat (g : Group) (c : Chat) (userId : UserId) (now : Time) :
    (joinRequest g (some c) userId now).chat = some c ∨
      ∃ p : Participant, p.user = userId ∧
        userId ∈ (joinRequest g (some c) userId now).group.members.map (fun m => m.user) ∧
        (joinRequest g (some c) userId now).chat
          = some (chatPreSave { c with participants := c.participants ++ [p] }) := by
  have hmem := addMember_user_mem g userId now
  unfold joinRequest
  dsimp only
  split
  · exact Or.inl rfl
  · split
    · exact Or.inl rfl
    · split
      · exact Or.inl rfl
      · rename_i hthrown
        split
        · rename_i c' hchat heq'
          cases heq'
          rcases addParticipant_cases c userId ChatRole.member now with hs | ⟨-, heq⟩
          · left
            simp [hs]
          · right
            rw [heq]
            exact ⟨_, rfl, by simpa using hmem hthrown, rfl⟩
        · exact Or.inl rfl

/-- The chat part of a leave: the chat is kept or `removeParticipant` ran on it. -/
theorem leaveRequest_chat (g : Group) (c : Chat) (userId : UserId) :
    (leaveRequest g (some c) userId).chat = some c ∨
      (leaveRequest g (some c) userId).chat = some (removeParticipant c userId) := by
  unfold leaveRequest
  repeat' split
  all_goals first
    | exact Or.inl rfl
    | (rename_i heq; cases heq; exact Or.inr rfl)

theorem removeParticipant_frame (c : Chat) (userId : UserId) :
    (removeParticipant c userId).participants.map (fun p => p.user)
        = c.participants.map (fun p => p.user) ∧
      (removeParticipant c userId).messages = c.messages := by
  unfold removeParticipant
  split
  · refine ⟨?_, rfl⟩
    simp only [chatPreSave_participants]
    apply modifyFirst_map_eq
    intro p
    rfl
  · exact ⟨rfl, rfl⟩

theorem updateLastSeen_frame (c : Chat) (userId : UserId) (now : Time) :
    (updateLastSeen c userId now).participants.map (fun p => p.user)
        = c.participants.map (fun p => p.user) ∧
      (updateLastSeen c userId now).messages = c.messages := by
  unfold updateLastSeen
  split
  · refine ⟨?_, rfl⟩
    simp only [chatPreSave_participants]
    apply modifyFirst_map_eq
    intro p
    rfl
  · exact ⟨rfl, rfl⟩

theorem addMessage_messages (c : Chat) (newId : Nat) (senderId : UserId) (content : String)
    (messageType : MessageType) (fileData : FileData) (now : Time) :
    (addMessage c newId senderId content messageType fileData now).chat.messages
      = c.messages ++ [newMessage newId senderId content messageType fileData now] := by
  unfold addMessage
  dsimp only
  split <;> rfl

theorem addMessage_participants (c : Chat) (newId : Nat) (senderId : UserId) (content : String)
    (messageType : MessageType) (fileData : FileData) (now : Time) :
    (addMessage c newId senderId content messageType fileData now).chat.participants.map
        (fun p => p.user) = c.participants.map (fun p => p.user) := by
  unfold addMessage
  dsimp only
  split
  · simp only [chatPreSave_participants]
    apply modifyFirst_map_eq
    intro p
    rfl
  · rfl

theorem markMessageAsRead_participants (c : Chat) (messageId : Nat) (userId : UserId)
    (now : Time) : (markMessageAsRead c messageId userId now).participants = c.participants := by
  unfold markMessageAsRead
  repeat' split
  all_goals rfl

theorem addReaction_participants (c : Chat) (messageId : Nat) (userId : UserId)
    (emoji : String) (now : Time) :
    (addReaction c messageId userId emoji now).participants = c.participants := by
  unfold addReaction
  repeat' split
  all_goals rfl

theorem find_user_read_none_iff (l : List ReadRecord) (u : UserId) :
    l.find? (fun r => r.user == u) = none ↔ u ∉ l.map (fun r => r.user) := by
  simp only [List.find?_eq_none, beq_iff_eq, List.mem_map, not_exists, not_and]

theorem nodup_push_read (l : List ReadRecord) (r : ReadRecord)
    (hnd : (l.map (fun r => r.user)).Nodup) (hr : r.user ∉ l.map (fun r => r.user)) :
    ((l ++ [r]).map (fun r => r.user)).Nodup := by
  rw [List.map_append]
  refine List.Nodup.append hnd (by simp) ?_
  intro u hu hu'
  simp only [List.map_cons, List.map_nil, List.mem_singleton] at hu'
  subst hu'
  exact hr hu

theorem markMessageAsRead_readInv (c : Chat) (messageId : Nat) (userId : UserId) (now : Time)
    (h : ReadInv c) : ReadInv (markMessageAsRead c messageId userId now) := by
  unfold markMessageAsRead
  split
  · exact h
  · rename_i message hfind
    split
    · exact h
    · rename_i hread
      unfold ReadInv
      simp only [chatPreSave_messages]
      apply modifyFirst_forall _ _ _ _ h
      intro x hx
      rw [hfind] at hx
      cases hx
      exact nodup_push_read _ _ (h message (List.mem_of_find?_eq_some hfind))
        ((find_user_read_none_iff _ _).mp hread)

theorem addReaction_readInv (c : Chat) (messageId : Nat) (userId : UserId) (emoji : String)
    (now : Time) (h : ReadInv c) : ReadInv (addReaction c messageId userId emoji now) := by
  unfold addReaction
  split
  · exact h
  · rename_i message hfind
    unfold ReadInv
    simp only [chatPreSave_messages]
    apply modifyFirst_forall _ _ _ _ h
    intro x hx
    exact h x (List.mem_of_find?_eq_some hx)

theorem addMessage_readInv (c : Chat) (newId : Nat) (senderId : UserId) (content : String)
    (messageType : MessageType) (fileData : FileData) (now : Time) (h : ReadInv c) :
    ReadInv (addMessage c newId senderId content messageType fileData now).chat := by
  unfold ReadInv
  rw [addMessage_messages]
  intro m hm
  rcases List.mem_append.mp hm with hm | hm
  · exact h m hm
  · simp only [List.mem_singleton] at hm
    subst hm
    simp [newMessage]

theorem SyncInv.of_users {g g' : Group} {c c' : Chat} (h : SyncInv g c)
    (hchat : g'.chat = g.chat) (hstep : MembersStep g.members g'.members)
    (hpart : c'.participants.map (fun p => p.user) = c.participants.map (fun p => p.user)) :
    SyncInv g' c' := by
  refine ⟨by rw [hchat]; exact h.1, ?_⟩
  intro p hp
  have hp' : p.user ∈ c.participants.map (fun p => p.user) := by
    rw [← hpart]
    exact List.mem_map.mpr ⟨p, hp, rfl⟩
  obtain ⟨q, hq, hqu⟩ := List.mem_map.mp hp'
  have := h.2 q hq
  rw [hqu] at this
  exact hstep.users_subset _ this

/-- Every reachable pair of a group and its chat satisfies the sync and the read invariant. -/
theorem SystemReachable.syncReadInv {g : Group} {c : Chat} (h : SystemReachable g c) :
    SyncInv g c ∧ ReadInv c := by
  induction h with
  | create creator name description subject chapter duration groupId chatId now hmin hmax =>
    refine ⟨⟨by simp [createGroup], ?_⟩, ?_⟩
    · intro p hp
      simp only [createChat, chatPreSave_participants, List.mem_singleton] at hp
      subst hp
      simp [createGroup]
    · intro m hm
      simp [createChat] at hm
  | @groupStep g g' c _ hstep ih =>
    obtain ⟨hchat, hmem⟩ := hstep.frame
    exact ⟨ih.1.of_users hchat hmem rfl, ih.2⟩
  | @join g c userId now _ ih =>
    have hg := joinRequest_group g (some c) userId now
    have hstep : MembersStep g.members (joinRequest g (some c) userId now).group.members := by
      rw [hg]; exact (joinRoute_frame g userId now).1
    have hchat : (joinRequest g (some c) userId now).group.chat = g.chat := by
      rw [hg]; exact joinRoute_chat g userId now
    rcases joinRequest_chat g c userId now with hc | ⟨p, hp, hmem, hc⟩
    · rw [hc]
      exact ⟨ih.1.of_users hchat hstep rfl, ih.2⟩
    · rw [hc]
      refine ⟨⟨by rw [hchat]; exact ih.1.1, ?_⟩, ih.2⟩
      intro q hq
      simp only [Option.getD_some, chatPreSave_participants] at hq
      rcases List.mem_append.mp hq with hq | hq
      · exact hstep.users_subset _ (ih.1.2 q hq)
      · simp only [List.mem_singleton] at hq
        subst hq
        rw [hp]
        exact hmem
  | @leave g c userId _ ih =>
    have hg := leaveRequest_group g (some c) userId
    have hstep : MembersStep g.members (leaveRequest g (some c) userId).group.members := by
      rw [hg]; exact (leaveRoute_frame g userId).1
    have hchat : (leaveRequest g (some c) userId).group.chat = g.chat := by
      rw [hg]; exact leaveRoute_chat g userId
    rcases leaveRequest_chat g c userId with hc | hc
    · rw [hc]
      exact ⟨ih.1.of_users hchat hstep rfl, ih.2⟩
    · rw [hc]
      obtain ⟨hu, hm⟩ := removeParticipant_frame c userId
      refine ⟨ih.1.of_users hchat hstep hu, ?_⟩
      intro m hmem
      simp only [Option.getD_some, hm] at hmem
      exact ih.2 m hmem
  | @addMessage g c newId senderId content messageType fileData now _ ih =>
    exact ⟨ih.1.of_users rfl (Or.inl rfl)
      (addMessage_participants c newId senderId content messageType fileData now),
      addMessage_readInv c newId senderId content messageType fileData now ih.2⟩
  | @markMessageAsRead g c messageId userId now _ ih =>
    exact ⟨ih.1.of_users rfl (Or.inl rfl)
      (by rw [markMessageAsRead_participants]),
      markMessageAsRead_readInv c messageId userId now ih.2⟩
  | @addReaction g c messageId userId emoji now _ ih =>
    exact ⟨ih.1.of_users rfl (Or.inl rfl) (by rw [addReaction_participants]),
      addReaction_readInv c messageId userId emoji now ih.2⟩
  | @updateLastSeen g c userId now _ ih =>
    obtain ⟨hu, hm⟩ := updateLastSeen_frame c userId now
    refine ⟨ih.1.of_users rfl (Or.inl rfl) hu, ?_⟩
    intro m hmem
    rw [hm] at hmem
    exact ih.2 m hmem

/-! ## Invitations -/

theorem filter_pending_modifyFirst_sublist (p : Invitation → Bool) (f : Invitation → Invitation)
    (hf : ∀ x, (f x).status ≠ InvitationStatus.pending) (l : List Invitation) :
    (((modifyFirst p f l).filter (fun inv => inv.status == InvitationStatus.pending)).map
        (fun inv => inv.user)).Sublist
      ((l.filter (fun inv => inv.status == InvitationStatus.pending)).map (fun inv => inv.user)) := by
  apply List.Sublist.map
  induction l with
  | nil => exact List.Sublist.refl _
  | cons x xs ih =>
    have hfx : ((f x).status == InvitationStatus.pending) = false := by
      simpa using hf x
    by_cases hx : p x = true
    · by_cases hpx : (x.status == InvitationStatus.pending) = true
      · simp only [modifyFirst, hx, if_true, List.filter_cons, hfx, hpx]
        exact List.Sublist.cons _ (List.Sublist.refl _)
      · simp only [modifyFirst, hx, if_true, List.filter_cons, hfx, hpx]
        exact List.Sublist.refl _
    · simp only [Bool.not_eq_true] at hx
      by_cases hpx : (x.status == InvitationStatus.pending) = true
      · simp only [modifyFirst, hx, Bool.false_eq_true, if_false, List.filter_cons, hpx, if_true]
        exact List.Sublist.cons₂ _ ih
      · simp only [modifyFirst, hx, Bool.false_eq_true, if_false, List.filter_cons, hpx]
        exact ih

/-- An iteration of the invite loop for an id in the spelling of `toString()` keeps the pending
invitations on pairwise distinct users. -/
theorem inviteStep_pendingInv (inviter : UserId) (now : Time) (st : InviteState)
    (r : InviteRequest) (hcan : r.canonical = true) (h : PendingInv st.group) :
    PendingInv (inviteStep inviter now st r).group := by
  have key : st.group.invitations.find? (fun inv =>
      r.canonical && inv.user == r.userId && inv.status == InvitationStatus.pending) = none →
      PendingInv { st.group with invitations := st.group.invitations ++
        [Invitation.mk r.userId inviter now InvitationStatus.pending (now + invitationLifetime)] } := by
    intro hfind
    unfold PendingInv at h ⊢
    simp only [List.filter_append, List.map_append]
    refine List.Nodup.append h (by simp [List.filter]) ?_
    intro u hu hu'
    simp only [List.filter, beq_self_eq_true, List.map_cons, List.map_nil,
      List.mem_singleton] at hu'
    subst hu'
    obtain ⟨inv, hinv, hinvu⟩ := List.mem_map.mp hu
    obtain ⟨hmem, hpend⟩ := List.mem_filter.mp hinv
    have hno := List.find?_eq_none.mp hfind inv hmem
    simp [hcan, hinvu] at hno
    simp [hno] at hpend
  unfold inviteStep
  repeat' split
  all_goals first
    | exact h
    | (apply key; assumption)

/-- An invite request whose ids are all in the spelling of `toString()` keeps the pending
invitations on pairwise distinct users. -/
theorem inviteRoute_pendingInv (g : Group) (inviter : UserId) (userIds : List InviteRequest)
    (now : Time) (hcan : ∀ r ∈ userIds, r.canonical = true) (h : PendingInv g) :
    PendingInv (inviteRoute g inviter userIds now).group := by
  have hloop : ∀ (rs : List InviteRequest) (st : InviteState),
      (∀ r ∈ rs, r.canonical = true) → PendingInv st.group →
      PendingInv (rs.foldl (inviteStep inviter now) st).group := by
    intro rs
    induction rs with
    | nil => intro st _ hst; exact hst
    | cons r rs ih =>
      intro st hrs hst
      simp only [List.foldl_cons]
      exact ih _ (fun r' hr' => hrs r' (List.mem_cons_of_mem _ hr'))
        (inviteStep_pendingInv inviter now st r (hrs r (List.mem_cons_self _ _)) hst)
  have hpre : ∀ g' : Group, PendingInv g' → PendingInv (preSave g') := by
    intro g' hg'
    unfold PendingInv at hg' ⊢
    rw [preSave_invitations]
    exact hg'
  unfold inviteRoute
  cases userIds with
  | nil => exact h
  | cons r rs =>
    dsimp only
    repeat' split
    all_goals first
      | exact h
      | exact hpre _ (hloop (r :: rs) _ hcan h)

/-- A join request keeps the pending invitations on pairwise distinct users. -/
theorem joinRoute_pendingInv (g : Group) (userId : UserId) (now : Time) (h : PendingInv g) :
    PendingInv (joinRoute g userId now).group := by
  have hsub : ∀ (st : InvitationStatus), st ≠ InvitationStatus.pending →
      ∀ g' : Group, g'.invitations = modifyFirst
        (fun inv => inv.user == userId && inv.status == InvitationStatus.pending)
        (fun inv => { inv with status := st }) g.invitations → PendingInv g' := by
    intro st hst g' hg'
    unfold PendingInv at h ⊢
    rw [hg']
    exact List.Nodup.sublist (filter_pending_modifyFirst_sublist _ _ (fun _ => hst) _) h
  have hadd := (addMember_frame g userId Role.member now rfl).2.2.2
  unfold joinRoute
  dsimp only
  split
  · exact h
  · split
    · exact hsub InvitationStatus.expired (by decide) _ (by simp)
    · split
      · exact h
      · exact hsub InvitationStatus.accepted (by decide) _ (by simp [hadd])

/-- An iteration of the invite loop reports its id in exactly one of the two lists. -/
theorem inviteStep_report (inviter : UserId) (now : Time) (st : InviteState) (r : InviteRequest) :
    ((inviteStep inviter now st r).invitedUsers = st.invitedUsers ++ [r.userId] ∧
        (inviteStep inviter now st r).failedInvites = st.failedInvites) ∨
      ((inviteStep inviter now st r).invitedUsers = st.invitedUsers ∧
        ∃ e, (inviteStep inviter now st r).failedInvites = st.failedInvites ++ [(r.userId, e)]) := by
  unfold inviteStep
  repeat' split
  all_goals first
    | exact Or.inl ⟨rfl, rfl⟩
    | exact Or.inr ⟨rfl, _, rfl⟩

/-- The invite loop runs over every requested id: the reported ids, invited and failed together,
are the requested ids, each as often as it was requested. -/
theorem inviteLoop_report (inviter : UserId) (now : Time) (rs : List InviteRequest)
    (st : InviteState) :
    ((rs.foldl (inviteStep inviter now) st).invitedUsers
        ++ (rs.foldl (inviteStep inviter now) st).failedInvites.map Prod.fst).Perm
      (st.invitedUsers ++ st.failedInvites.map Prod.fst ++ rs.map (fun r => r.userId)) := by
  induction rs generalizing st with
  | nil => simp
  | cons r rs ih =>
    simp only [List.foldl_cons, List.map_cons]
    refine (ih (inviteStep inviter now st r)).trans ?_
    have hstep : ((inviteStep inviter now st r).invitedUsers
        ++ (inviteStep inviter now st r).failedInvites.map Prod.fst).Perm
        (st.invitedUsers ++ st.failedInvites.map Prod.fst ++ [r.userId]) := by
      rcases inviteStep_report inviter now st r with ⟨h1, h2⟩ | ⟨h1, e, h2⟩
      · rw [h1, h2, List.append_assoc, List.append_assoc]
        exact List.Perm.append_left _ List.perm_append_comm
      · rw [h1, h2]
        simp
    have := List.Perm.append_right (rs.map (fun r => r.userId)) hstep
    simpa [List.append_assoc] using this

/-- C11, failing input: the creator invites user `2` under two spellings of the same id in one
request; both entries pass every check of the loop, both are reported as invited, and the
reachable group holds two pending invitations of user `2`. -/
theorem invite_two_spellings_two_pending :
    Reachable sampleInvitedTwice.group ∧
      sampleInvitedTwice.invitedUsers = [2, 2] ∧
      sampleInvitedTwice.failedInvites = [] ∧
      sampleInvitedTwice.group.invitations.filter
          (fun inv => inv.user == 2 && inv.status == InvitationStatus.pending)
        = [{ user := 2, invitedBy := 1, invitedAt := 1100, status := InvitationStatus.pending,
             expiresAt := 604801100 },
           { user := 2, invitedBy := 1, invitedAt := 1100, status := InvitationStatus.pending,
             expiresAt := 604801100 }] ∧
      ¬ PendingInv sampleInvitedTwice.group :=
  ⟨Reachable.invite 1 _ 1100 sampleGroup_reachable, rfl, rfl, by decide, by
    unfold PendingInv
    decide⟩

/-- C12, failing input: the creator invites user `2` and `Notification.createGroupInvite`
throws; the id is reported in `failedInvites`, not in `invitedUsers`, and the group, which had no
invitation, has gained a pending invitation of user `2`. -/
theorem invite_sink_down_keeps_invitation :
    sampleInviteSinkDown.invitedUsers = [] ∧
      sampleInviteSinkDown.failedInvites = [(2, "notification store unavailable")] ∧
      sampleGroup.invitations = [] ∧
      sampleInviteSinkDown.group.invitations
        = [{ user := 2, invitedBy := 1, invitedAt := 1100, status := InvitationStatus.pending,
             expiresAt := 604801100 }] :=
  ⟨rfl, rfl, rfl, by decide⟩

theorem find_member_none_iff (l : List Member) (u : UserId) :
    l.find? (fun m => m.user == u) = none ↔ ∀ m ∈ l, m.user ≠ u := by
  simp only [List.find?_eq_none, beq_iff_eq]

theorem find_participant_none_iff (l : List Participant) (u : UserId) :
    l.find? (fun p => p.user == u) = none ↔ ∀ p ∈ l, p.user ≠ u := by
  simp only [List.find?_eq_none, beq_iff_eq]

theorem filter_user_eq_nil (l : List Member) (u : UserId) (h : ∀ m ∈ l, m.user ≠ u) :
    l.filter (fun m => m.user == u) = [] := by
  rw [List.filter_eq_nil_iff]
  intro m hm
  simpa using h m hm

theorem filter_participant_eq_nil (l : List Participant) (u : UserId)
    (h : ∀ p ∈ l, p.user ≠ u) : l.filter (fun p => p.user == u) = [] := by
  rw [List.filter_eq_nil_iff]
  intro p hp
  simpa using h p hp

/-- C13: when the pending invitation of the user (the one the handler finds) has `expiresAt`
earlier than `now`, the join request answers 400 'Invitation has expired', that invitation gets
status expired, and the members and every other invitation stay as they were. -/
theorem joinRoute_expired (g : Group) (userId : UserId) (now : Time) (invitation : Invitation)
    (hfind : g.invitations.find?
      (fun inv => inv.user == userId && inv.status == InvitationStatus.pending) = some invitation)
    (hexp : invitation.expiresAt < now) :
    (joinRoute g userId now).response = Response.json 400 false "Invitation has expired" ∧
      (joinRoute g userId now).group.members = g.members ∧
      ∃ l1 l2, g.invitations = l1 ++ invitation :: l2 ∧
        (joinRoute g userId now).group.invitations
          = l1 ++ { invitation with status := InvitationStatus.expired } :: l2 := by
  obtain ⟨l1, l2, h1, h2, -, -⟩ := modifyFirst_of_find_some
    (fun inv => inv.user == userId && inv.status == InvitationStatus.pending)
    (fun inv => { inv with status := InvitationStatus.expired }) g.invitations invitation hfind
  refine ⟨?_, ?_, l1, l2, h1, ?_⟩
  · simp [joinRoute, hfind, hexp]
  · simp [joinRoute, hfind, hexp]
  · simp only [joinRoute, hfind, hexp, if_true, preSave_invitations]
    exact h2

theorem joinRoute_expired_witness :
    (joinRoute sampleInvited 2 604801101).response
        = Response.json 400 false "Invitation has expired" ∧
      (joinRoute sampleInvited 2 604801101).group.members = sampleInvited.members ∧
      ∃ l1 l2, sampleInvited.invitations = l1 ++ Invitation.mk 2 1 1100 InvitationStatus.pending
          604801100 :: l2 ∧
        (joinRoute sampleInvited 2 604801101).group.invitations
          = l1 ++ { Invitation.mk 2 1 1100 InvitationStatus.pending 604801100 with
              status := InvitationStatus.expired } :: l2 :=
  joinRoute_expired sampleInvited 2 604801101 _ (by decide) (by decide)

/-- C14: when the number of active members equals `settings.maxMembers`, the user has no member
record and the pending invitation the handler finds is not expired, the join request fails with
the error 'Group has reached maximum member limit' and the group stays as it was: no member is
added and the invitation is still there, pending. -/
theorem joinRoute_full (g : Group) (userId : UserId) (now : Time) (invitation : Invitation)
    (hfull : activeMembersCount g = g.settings.maxMembers)
    (hnone : ∀ m ∈ g.members, m.user ≠ userId)
    (hfind : g.invitations.find?
      (fun inv => inv.user == userId && inv.status == InvitationStatus.pending) = some invitation)
    (hvalid : ¬ invitation.expiresAt < now) :
    joinRoute g userId now =
        { response := Response.next "Group has reached maximum member limit", group := g } ∧
      (joinRoute g userId now).group.members = g.members ∧
      invitation ∈ (joinRoute g userId now).group.invitations ∧
      invitation.status = InvitationStatus.pending := by
  have hm := (find_member_none_iff g.members userId).mpr hnone
  have hadd : addMember g userId Role.member now
      = { thrown := some "Group has reached maximum member limit", group := g } := by
    simp [addMember, hm, hfull]
  have hres : joinRoute g userId now =
      { response := Response.next "Group has reached maximum member limit", group := g } := by
    simp [joinRoute, hfind, hvalid, hadd]
  refine ⟨hres, by rw [hres], by rw [hres]; exact List.mem_of_find?_eq_some hfind, ?_⟩
  have := List.find?_some hfind
  simp only [Bool.and_eq_true, beq_iff_eq] at this
  exact this.2

theorem joinRoute_full_witness :
    joinRoute sampleFull 3 1400 =
        { response := Response.next "Group has reached maximum member limit"
          group := sampleFull } ∧
      (joinRoute sampleFull 3 1400).group.members = sampleFull.members ∧
      Invitation.mk 3 1 1300 InvitationStatus.pending 604801300
        ∈ (joinRoute sampleFull 3 1400).group.invitations ∧
      (Invitation.mk 3 1 1300 InvitationStatus.pending 604801300).status
        = InvitationStatus.pending :=
  joinRoute_full sampleFull 3 1400 _ (by decide) (by decide) (by decide) (by decide)

/-- The join request of a user without member record and without participant record, on a
group with a free place that refers to its chat. -/
theorem joinRequest_of_sync (g : Group) (c : Chat) (userId : UserId) (now : Time)
    (invitation : Invitation) (hchat : g.chat ≠ none)
    (hpart : ∀ p ∈ c.participants, p.user ≠ userId)
    (hroom : activeMembersCount g < g.settings.maxMembers)
    (hnone : ∀ m ∈ g.members, m.user ≠ userId)
    (hfind : g.invitations.find?
      (fun inv => inv.user == userId && inv.status == InvitationStatus.pending) = some invitation)
    (hvalid : ¬ invitation.expiresAt < now) :
    (joinRequest g (some c) userId now).response
        = Response.json 200 true "Successfully joined the group" ∧
      (∃ l1 l2, g.invitations = l1 ++ invitation :: l2 ∧
        (joinRequest g (some c) userId now).group.invitations
          = l1 ++ { invitation with status := InvitationStatus.accepted } :: l2) ∧
      (joinRequest g (some c) userId now).group.members.filter (fun m => m.user == userId)
        = [Member.mk userId now Role.member MemberStatus.active] ∧
      ∃ c', (joinRequest g (some c) userId now).chat = some c' ∧
        c'.participants.filter (fun p => p.user == userId)
          = [Participant.mk userId now now ChatRole.member true] := by
  have hm := (find_member_none_iff g.members userId).mpr hnone
  have hp := (find_participant_none_iff c.participants userId).mpr hpart
  have hcap : ¬ activeMembersCount g ≥ g.settings.maxMembers := by omega
  have hadd : addMember g userId Role.member now
      = { thrown := none
          group := preSave { g with members := g.members ++
            [Member.mk userId now Role.member MemberStatus.active] } } := by
    simp [addMember, hm, hcap]
  obtain ⟨cid, hcid⟩ := Option.ne_none_iff_exists'.mp hchat
  have haddp : addParticipant c userId ChatRole.member now
      = { chat := chatPreSave { c with participants := c.participants ++
            [Participant.mk userId now now ChatRole.member true] }
          saved := true } := by
    simp [addParticipant, hp]
  obtain ⟨l1, l2, h1, h2, -, -⟩ := modifyFirst_of_find_some
    (fun inv => inv.user == userId && inv.status == InvitationStatus.pending)
    (fun inv => { inv with status := InvitationStatus.accepted }) g.invitations invitation hfind
  refine ⟨?_, ⟨l1, l2, h1, ?_⟩, ?_, ?_⟩
  · simp [joinRequest, hfind, hvalid, hadd]
  · simp only [joinRequest, hfind, hvalid, hadd, if_false, preSave_invitations]
    exact h2
  · simp only [joinRequest, hfind, hvalid, hadd, if_false, preSave_members, List.filter_append,
      filter_user_eq_nil g.members userId hnone]
    simp
  · refine ⟨chatPreSave { c with participants := c.participants ++
      [Participant.mk userId now now ChatRole.member true] }, ?_, ?_⟩
    · simp [joinRequest, hfind, hvalid, hadd, hcid, haddp]
    · simp only [chatPreSave_participants, List.filter_append,
        filter_participant_eq_nil c.participants userId hpart]
      simp

/-- C15: in every reachable pair of a group and its chat, when the group has fewer active
members than `settings.maxMembers`, the user has no member record and the pending invitation the
handler finds is not expired, the join request succeeds; afterwards that invitation has status
accepted, the user has exactly one member record, with role member and status active, and
exactly one participant record in the stored chat, and that record is active. -/
theorem joinRequest_success (g : Group) (c : Chat) (userId : UserId) (now : Time)
    (invitation : Invitation) (hreach : SystemReachable g c)
    (hroom : activeMembersCount g < g.settings.maxMembers)
    (hnone : ∀ m ∈ g.members, m.user ≠ userId)
    (hfind : g.invitations.find?
      (fun inv => inv.user == userId && inv.status == InvitationStatus.pending) = some invitation)
    (hvalid : ¬ invitation.expiresAt < now) :
    (joinRequest g (some c) userId now).response
        = Response.json 200 true "Successfully joined the group" ∧
      (∃ l1 l2, g.invitations = l1 ++ invitation :: l2 ∧
        (joinRequest g (some c) userId now).group.invitations
          = l1 ++ { invitation with status := InvitationStatus.accepted } :: l2) ∧
      (joinRequest g (some c) userId now).group.members.filter (fun m => m.user == userId)
        = [Member.mk userId now Role.member MemberStatus.active] ∧
      ∃ c', (joinRequest g (some c) userId now).chat = some c' ∧
        c'.participants.filter (fun p => p.user == userId)
          = [Participant.mk userId now now ChatRole.member true] := by
  obtain ⟨hchat, hsync⟩ := hreach.syncReadInv.1
  refine joinRequest_of_sync g c userId now invitation hchat ?_ hroom hnone hfind hvalid
  intro p hp hpu
  obtain ⟨m, hm, hmu⟩ := List.mem_map.mp (hsync p hp)
  exact hnone m hm (hmu.trans hpu)

theorem sampleInvited_systemReachable : SystemReachable sampleInvited sampleChat :=
  SystemReachable.groupStep
    (SystemReachable.create 1 "Algebra" "" "Mathematics" "Groups" 3 7 0 1000 (by decide)
      (by decide))
    (GroupStep.invite _ 1 _ 1100)

theorem joinRequest_success_witness :
    SystemReachable sampleInvited sampleChat ∧
      (joinRequest sampleInvited (some sampleChat) 2 1200).response
        = Response.json 200 true "Successfully joined the group" ∧
      (∃ l1 l2, sampleInvited.invitations
          = l1 ++ Invitation.mk 2 1 1100 InvitationStatus.pending 604801100 :: l2 ∧
        (joinRequest sampleInvited (some sampleChat) 2 1200).group.invitations
          = l1 ++ { Invitation.mk 2 1 1100 InvitationStatus.pending 604801100 with
              status := InvitationStatus.accepted } :: l2) ∧
      (joinRequest sampleInvited (some sampleChat) 2 1200).group.members.filter
          (fun m => m.user == 2)
        = [Member.mk 2 1200 Role.member MemberStatus.active] ∧
      ∃ c', (joinRequest sampleInvited (some sampleChat) 2 1200).chat = some c' ∧
        c'.participants.filter (fun p => p.user == 2)
          = [Participant.mk 2 1200 1200 ChatRole.member true] :=
  ⟨sampleInvited_systemReachable,
    joinRequest_success sampleInvited sampleChat 2 1200 _ sampleInvited_systemReachable
      (by decide) (by decide) (by decide) (by decide)⟩

/-! ## Chat -/

/-- C16: `addMessage` leaves the log as it was with exactly one message, the new one, appended
at its end, and returns that message; hence after any sequence of posts the log is the old log
followed by the posted messages in the order of the posts. -/
theorem addMessage_appends (c : Chat) (newId : Nat) (senderId : UserId) (content : String)
    (messageType : MessageType) (fileData : FileData) (now : Time) :
    (addMessage c newId senderId content messageType fileData now).chat.messages
        = c.messages ++ [newMessage newId senderId content messageType fileData now] ∧
      (addMessage c newId senderId content messageType fileData now).returned
        = some (newMessage newId senderId content messageType fileData now) ∧
      ∀ posts : List Post,
        (posts.foldl post c).messages = c.messages ++ posts.map Post.message := by
  refine ⟨addMessage_messages c newId senderId content messageType fileData now, ?_, ?_⟩
  · have h := addMessage_messages c newId senderId content messageType fileData now
    have hret : (addMessage c newId senderId content messageType fileData now).returned
        = (addMessage c newId senderId content messageType fileData now).chat.messages.getLast? :=
      rfl
    rw [hret, h]
    simp
  · intro posts
    induction posts generalizing c with
    | nil => simp
    | cons p ps ih =>
      simp only [List.foldl_cons, List.map_cons]
      rw [ih (post c p)]
      unfold post Post.message
      rw [addMessage_messages]
      simp

theorem find_append_of_first {α : Type} (p : α → Bool) (l1 l2 : List α) (x : α)
    (h1 : ∀ y ∈ l1, p y = false) (hx : p x = true) : (l1 ++ x :: l2).find? p = some x := by
  induction l1 with
  | nil => simp [List.find?, hx]
  | cons y ys ih =>
    have hy := h1 y (List.mem_cons_self _ _)
    simp only [List.cons_append, List.find?, hy]
    exact ih (fun z hz => h1 z (List.mem_cons_of_mem _ hz))

/-- C17: `markMessageAsRead` is idempotent: marking a message read a second time, at any later
instant, leaves the chat, and so every `readBy` list, as the first marking left it; and in
every reachable chat the read records of a message belong to pairwise distinct users. -/
theorem markMessageAsRead_idempotent (c : Chat) (messageId : Nat) (userId : UserId)
    (now now' : Time) :
    markMessageAsRead (markMessageAsRead c messageId userId now) messageId userId now'
        = markMessageAsRead c messageId userId now ∧
      (markMessageAsRead (markMessageAsRead c messageId userId now) messageId userId
          now').messages.map (fun m => m.readBy)
        = (markMessageAsRead c messageId userId now).messages.map (fun m => m.readBy) ∧
      ∀ g : Group, SystemReachable g c →
        ∀ m ∈ c.messages, (m.readBy.map (fun r => r.user)).Nodup := by
  have key : markMessageAsRead (markMessageAsRead c messageId userId now) messageId userId now'
      = markMessageAsRead c messageId userId now := by
    cases hfind : c.messages.find? (fun m => m.id == messageId) with
    | none =>
      have h1 : markMessageAsRead c messageId userId now = c := by
        simp [markMessageAsRead, hfind]
      rw [h1]
      simp [markMessageAsRead, hfind]
    | some message =>
      cases hread : message.readBy.find? (fun r => r.user == userId) with
      | some r =>
        have h1 : markMessageAsRead c messageId userId now = c := by
          simp [markMessageAsRead, hfind, hread]
        rw [h1]
        simp [markMessageAsRead, hfind, hread]
      | none =>
        obtain ⟨l1, l2, -, h2, h3, h4⟩ := modifyFirst_of_find_some (fun m => m.id == messageId)
          (fun m => { m with readBy := m.readBy ++ [ReadRecord.mk userId now] }) c.messages
          message hfind
        have h1 : markMessageAsRead c messageId userId now
            = chatPreSave { c with messages :=
                l1 ++ { message with readBy := message.readBy ++ [ReadRecord.mk userId now] } :: l2 } := by
          simp only [markMessageAsRead, hfind, hread]
          rw [h2]
        have hfind' : (l1 ++ { message with readBy := message.readBy ++ [ReadRecord.mk userId now] }
            :: l2).find? (fun m => m.id == messageId)
            = some { message with readBy := message.readBy ++ [ReadRecord.mk userId now] } :=
          find_append_of_first _ l1 l2 _ h4 h3
        have hread' : (message.readBy ++ [ReadRecord.mk userId now]).find?
            (fun r => r.user == userId) = some (ReadRecord.mk userId now) := by
          rw [List.find?_append, hread]
          simp
        rw [h1]
        simp only [markMessageAsRead, chatPreSave_messages, hfind', hread']
  refine ⟨key, by rw [key], ?_⟩
  intro g hreach
  exact hreach.syncReadInv.2

theorem sampleChatRead_systemReachable : SystemReachable sampleGroup sampleChatRead :=
  SystemReachable.markMessageAsRead 11 2 3000
    (SystemReachable.addMessage 12 1 " again " MessageType.text
      { url := none, name := none, size := none } 2100
      (SystemReachable.addMessage 11 1 "hello" MessageType.text
        { url := none, name := none, size := none } 2000
        (SystemReachable.create 1 "Algebra" "" "Mathematics" "Groups" 3 7 0 1000 (by decide)
          (by decide))))

theorem markMessageAsRead_idempotent_witness :
    SystemReachable sampleGroup sampleChatRead ∧
      markMessageAsRead sampleChatRead 11 2 3500 = sampleChatRead ∧
      ∀ m ∈ sampleChatRead.messages, (m.readBy.map (fun r => r.user)).Nodup :=
  ⟨sampleChatRead_systemReachable,
    (markMessageAsRead_idempotent sampleChatPosted 11 2 3000 3500).1,
    (markMessageAsRead_idempotent sampleChatRead 11 2 3000 3500).2.2 sampleGroup
      sampleChatRead_systemReachable⟩

/-- C18: for a chat in which `messages.id(messageId)` is the message `m`, `addReaction` replaces
`m` by `m` with new reactions and leaves every other message, and the order of the log,
unchanged; the new reactions hold exactly one entry of the user, with the emoji given, and the
entries of all other users as before, in their order. Hence a second reaction of the user with
another emoji leaves only the second. -/
theorem addReaction_spec (c : Chat) (messageId : Nat) (userId : UserId) (emoji : String)
    (now : Time) (m : Message)
    (hfind : c.messages.find? (fun m => m.id == messageId) = some m) :
    (∃ l1 l2, c.messages = l1 ++ m :: l2 ∧ (∀ y ∈ l1, y.id ≠ messageId) ∧
        (addReaction c messageId userId emoji now).messages
          = l1 ++ { m with reactions := reactionsWith m.reactions userId emoji now } :: l2) ∧
      (reactionsWith m.reactions userId emoji now).filter (fun r => r.user == userId)
        = [Reaction.mk userId emoji now] ∧
      (reactionsWith m.reactions userId emoji now).filter (fun r => r.user != userId)
        = m.reactions.filter (fun r => r.user != userId) ∧
      ∀ (emoji' : String) (now' : Time),
        ((addReaction (addReaction c messageId userId emoji now) messageId userId emoji'
            now').messages.find? (fun m => m.id == messageId)).map
          (fun m => m.reactions.filter (fun r => r.user == userId))
          = some [Reaction.mk userId emoji' now'] := by
  have hown : ∀ (rs : List Reaction) (e : String) (t : Time),
      (reactionsWith rs userId e t).filter (fun r => r.user == userId)
        = [Reaction.mk userId e t] := by
    intro rs e t
    unfold reactionsWith
    rw [List.filter_append, List.filter_filter]
    have : rs.filter (fun r => (r.user == userId) && (r.user != userId)) = [] := by
      rw [List.filter_eq_nil_iff]
      intro r _
      simp
    rw [this]
    simp
  have hstep : ∀ (c : Chat) (m : Message) (e : String) (t : Time),
      c.messages.find? (fun m => m.id == messageId) = some m →
      ∃ l1 l2, c.messages = l1 ++ m :: l2 ∧ (∀ y ∈ l1, y.id ≠ messageId) ∧
        (addReaction c messageId userId e t).messages
          = l1 ++ { m with reactions := reactionsWith m.reactions userId e t } :: l2 ∧
        (addReaction c messageId userId e t).messages.find? (fun m => m.id == messageId)
          = some { m with reactions := reactionsWith m.reactions userId e t } := by
    intro c m e t hf
    obtain ⟨l1, l2, h1, h2, h3, h4⟩ := modifyFirst_of_find_some (fun m => m.id == messageId)
      (fun m => { m with reactions := reactionsWith m.reactions userId e t }) c.messages m hf
    have hmsgs : (addReaction c messageId userId e t).messages
        = l1 ++ { m with reactions := reactionsWith m.reactions userId e t } :: l2 := by
      simp only [addReaction, hf, chatPreSave_messages]
      exact h2
    refine ⟨l1, l2, h1, fun y hy => by simpa using h4 y hy, hmsgs, ?_⟩
    rw [hmsgs]
    exact find_append_of_first _ l1 l2 _ h4 h3
  obtain ⟨l1, l2, h1, h2, h3, h4⟩ := hstep c m emoji now hfind
  refine ⟨⟨l1, l2, h1, h2, h3⟩, hown _ _ _, ?_, ?_⟩
  · unfold reactionsWith
    rw [List.filter_append, List.filter_filter]
    simp
  · intro emoji' now'
    obtain ⟨-, -, -, -, -, h5⟩ := hstep _ _ emoji' now' h4
    rw [h5]
    simp only [Option.map_some', Option.some.injEq]
    exact hown _ _ _

theorem addReaction_spec_witness :
    (∃ l1 l2, sampleChatPosted.messages
          = l1 ++ newMessage 11 1 "hello" MessageType.text
            { url := none, name := none, size := none } 2000 :: l2 ∧
        (∀ y ∈ l1, y.id ≠ 11) ∧
        (addReaction sampleChatPosted 11 2 "+1" 3000).messages
          = l1 ++ { newMessage 11 1 "hello" MessageType.text
              { url := none, name := none, size := none } 2000 with
              reactions := reactionsWith [] 2 "+1" 3000 } :: l2) ∧
      (reactionsWith [] 2 "+1" 3000).filter (fun r => r.user == 2) = [Reaction.mk 2 "+1" 3000] ∧
      (reactionsWith [] 2 "+1" 3000).filter (fun r => r.user != 2)
        = ([] : List Reaction).filter (fun r => r.user != 2) ∧
      ∀ (emoji' : String) (now' : Time),
        ((addReaction (addReaction sampleChatPosted 11 2 "+1" 3000) 11 2 emoji'
            now').messages.find? (fun m => m.id == 11)).map
          (fun m => m.reactions.filter (fun r => r.user == 2))
          = some [Reaction.mk 2 emoji' now'] :=
  addReaction_spec sampleChatPosted 11 2 "+1" 3000 _ (by decide)

/-- C19, counterexample: the participant of user `1` in the sample chat has `lastSeen = 1000`;
`updateLastSeen` run at the earlier instant `500` leaves `lastSeen = 500`, which is not
`max(1000, 500)`: the cursor moved backward. -/
theorem updateLastSeen_moves_backward :
    sampleChat.participants.map (fun p => (p.user, p.lastSeen)) = [(1, 1000)] ∧
      (updateLastSeen sampleChat 1 500).participants.map (fun p => (p.user, p.lastSeen))
        = [(1, 500)] ∧
      Max.max (1000 : Int) 500 ≠ 500 :=
  ⟨by decide, by decide, by decide⟩

/-- C19, amended: for a chat in which the participant of the user (the first record of that
user) is `p`, `updateLastSeen` run at `now` sets the `lastSeen` of that record to `now` and
leaves every other record unchanged; the new value is `max(previous lastSeen, now)` exactly when
`now` is not earlier than the previous `lastSeen`. -/
theorem updateLastSeen_sets_now (c : Chat) (userId : UserId) (now : Time) (p : Participant)
    (hfind : c.participants.find? (fun p => p.user == userId) = some p) :
    (∃ l1 l2, c.participants = l1 ++ p :: l2 ∧ (∀ y ∈ l1, y.user ≠ userId) ∧
        (updateLastSeen c userId now).participants = l1 ++ { p with lastSeen := now } :: l2) ∧
      (now = Max.max p.lastSeen now ↔ p.lastSeen ≤ now) := by
  obtain ⟨l1, l2, h1, h2, -, h4⟩ := modifyFirst_of_find_some (fun p => p.user == userId)
    (fun p => { p with lastSeen := now }) c.participants p hfind
  refine ⟨⟨l1, l2, h1, fun y hy => by simpa using h4 y hy, ?_⟩, ?_⟩
  · simp only [updateLastSeen, hfind, chatPreSave_participants]
    exact h2
  · constructor
    · intro h
      rw [h]
      exact le_max_left _ _
    · intro h
      exact (max_eq_right h).symm

theorem updateLastSeen_sets_now_witness :
    (∃ l1 l2, sampleChat.participants = l1 ++ Participant.mk 1 1000 1000 ChatRole.admin true :: l2 ∧
        (∀ y ∈ l1, y.user ≠ 1) ∧
        (updateLastSeen sampleChat 1 500).participants
          = l1 ++ { Participant.mk 1 1000 1000 ChatRole.admin true with lastSeen := 500 } :: l2) ∧
      ((500 : Time) = Max.max (Participant.mk 1 1000 1000 ChatRole.admin true).lastSeen 500
        ↔ (Participant.mk 1 1000 1000 ChatRole.admin true).lastSeen ≤ 500) :=
  updateLastSeen_sets_now sampleChat 1 500 _ (by decide)

/-! ## Realtime -/

/-- C20: the `join_group` handler emits `joined_group` exactly when the lookup found a group in
which the user of the session has a member record with status active; in that case the session
is in room `group_<groupId>` afterwards and nothing else about it changed; in every other case
the session is unchanged and exactly one event, an `error`, is emitted, to the originating
session. -/
theorem joinGroupHandler_spec (s : Session) (groupId : String)
    (lookup : Except String (Option Group)) :
    ((joinGroupHandler s groupId lookup).emitted
          = [{ target := Target.session, event := "joined_group", payload := groupId }] ↔
        ∃ g, lookup = Except.ok (some g) ∧
          ∃ m ∈ g.members, m.user = s.userId ∧ m.status = MemberStatus.active) ∧
      ((∃ g, lookup = Except.ok (some g) ∧
          ∃ m ∈ g.members, m.user = s.userId ∧ m.status = MemberStatus.active) →
        (joinGroupHandler s groupId lookup).session
            = { s with rooms := joinRoom s.rooms ("group_" ++ groupId) } ∧
          ("group_" ++ groupId) ∈ (joinGroupHandler s groupId lookup).session.rooms) ∧
      ((¬ ∃ g, lookup = Except.ok (some g) ∧
          ∃ m ∈ g.members, m.user = s.userId ∧ m.status = MemberStatus.active) →
        (joinGroupHandler s groupId lookup).session = s ∧
          ∃ message, (joinGroupHandler s groupId lookup).emitted
            = [{ target := Target.session, event := "error", payload := message }]) := by
  have hany : ∀ g : Group,
      (g.members.any (fun member =>
        member.user == s.userId && member.status == MemberStatus.active) = true) ↔
        ∃ m ∈ g.members, m.user = s.userId ∧ m.status = MemberStatus.active := by
    intro g
    simp [List.any_eq_true]
  have hroom : ("group_" ++ groupId) ∈ joinRoom s.rooms ("group_" ++ groupId) := by
    unfold joinRoom
    split
    · assumption
    · simp
  cases lookup with
  | error e =>
    refine ⟨?_, ?_, ?_⟩
    · simp [joinGroupHandler]
    · rintro ⟨g, hg, -⟩
      cases hg
    · intro _
      exact ⟨rfl, _, rfl⟩
  | ok found =>
    cases found with
    | none =>
      refine ⟨?_, ?_, ?_⟩
      · simp [joinGroupHandler]
      · rintro ⟨g, hg, -⟩
        cases hg
      · intro _
        exact ⟨rfl, _, rfl⟩
    | some g =>
      by_cases hmem : g.members.any (fun member =>
          member.user == s.userId && member.status == MemberStatus.active) = true
      · have hex := (hany g).mp hmem
        refine ⟨?_, ?_, ?_⟩
        · simp only [joinGroupHandler, hmem, Bool.not_true, Bool.false_eq_true, if_false,
            true_iff]
          exact ⟨g, rfl, hex⟩
        · intro _
          have hres : joinGroupHandler s groupId (Except.ok (some g))
              = { session := { s with rooms := joinRoom s.rooms ("group_" ++ groupId) }
                  emitted := [Emission.mk Target.session "joined_group" groupId] } := by
            simp [joinGroupHandler, hmem]
          rw [hres]
          exact ⟨rfl, hroom⟩
        · intro hno
          exact absurd ⟨g, rfl, hex⟩ hno
      · have hno : ¬ ∃ g', Except.ok (some g) = (Except.ok (some g') : Except String (Option Group))
            ∧ ∃ m ∈ g'.members, m.user = s.userId ∧ m.status = MemberStatus.active := by
          rintro ⟨g', hg', hex⟩
          cases hg'
          exact hmem ((hany g).mpr hex)
        simp only [Bool.not_eq_true] at hmem
        refine ⟨?_, ?_, ?_⟩
        · simp only [joinGroupHandler, hmem, Bool.not_false, if_true]
          constructor
          · intro h
            simp at h
          · intro h
            exact absurd h hno
        · intro h
          exact absurd h hno
        · intro _
          have hres : joinGroupHandler s groupId (Except.ok (some g))
              = { session := s
                  emitted := [Emission.mk Target.session "error" "Not a member of this group"] } := by
            simp [joinGroupHandler, hmem]
          rw [hres]
          exact ⟨rfl, _, rfl⟩

theorem joinGroupHandler_spec_witness :
    ((joinGroupHandler sampleSession "g7" (Except.ok (some sampleJoined))).session
          = { sampleSession with rooms := joinRoom sampleSession.rooms ("group_" ++ "g7") } ∧
        ("group_" ++ "g7")
          ∈ (joinGroupHandler sampleSession "g7" (Except.ok (some sampleJoined))).session.rooms) ∧
      ((joinGroupHandler sampleSession "g7" (Except.ok (some sampleGroup))).session
          = sampleSession ∧
        ∃ message, (joinGroupHandler sampleSession "g7" (Except.ok (some sampleGroup))).emitted
          = [{ target := Target.session, event := "error", payload := message }]) :=
  ⟨(joinGroupHandler_spec sampleSession "g7" (Except.ok (some sampleJoined))).2.1
      ⟨sampleJoined, rfl, Member.mk 2 1200 Role.member MemberStatus.active, by decide, rfl, rfl⟩,
    (joinGroupHandler_spec sampleSession "g7" (Except.ok (some sampleGroup))).2.2 (by
      rintro ⟨g, hg, m, hm, hu, -⟩
      cases hg
      have hmem : sampleGroup.members = [Member.mk 1 1000 Role.creator MemberStatus.active] := rfl
      rw [hmem, List.mem_singleton] at hm
      rw [hm] at hu
      exact absurd hu (by decide))⟩

/-- C21, failing input: user `1` creates the group
`g1`, user `2` is invited and joins, and `removeMember` removes user `2`. The `groups` field of
user `2` still lists `g1`, so on the next connect the session of user `2` joins room `group_g1`
although user `2` is not an active member of the group. Had user `2` left through the leave
request, or had the creator deleted the group, the list would be empty and the session would
join its private room only. -/
theorem removed_user_joins_room_on_connect :
    Reachable sampleRemoved ∧
      isActiveMember sampleJoined 2 = true ∧
      isActiveMember sampleRemoved 2 = false ∧
      sampleUserGroups 2 = ["g1"] ∧
      (connectRooms 2 (sampleUserGroups 2)).rooms = ["user_2", "group_g1"] ∧
      (connectRooms 2 (leaveUserGroups sampleUserGroups "g1" sampleJoined 2 2)).rooms
        = ["user_2"] ∧
      (connectRooms 2 (deleteUserGroups sampleUserGroups "g1" sampleJoined 1 2)).rooms
        = ["user_2"] :=
  ⟨Reachable.removeMember 2 sampleJoined_reachable, by decide, by decide, by decide, by decide,
    by decide, by decide⟩

/-- The branch of `addMember` that pushes a record keeps the number of active members within
`settings.maxMembers`. -/
theorem addMember_push_within_cap (g : Group) (userId : UserId) (role : Role) (now : Time)
    (hnone : g.members.find? (fun m => m.user == userId) = none)
    (hok : (addMember g userId role now).thrown = none) :
    activeMembersCount (addMember g userId role now).group
      ≤ (addMember g userId role now).group.settings.maxMembers := by
  by_cases hcap : activeMembersCount g ≥ g.settings.maxMembers
  · simp [addMember, hnone, hcap] at hok
  · simp only [addMember, hnone, hcap, if_false, activeMembersCount_preSave, preSave_settings]
    simp only [activeMembersCount, List.filter_append, List.length_append] at hcap ⊢
    simp only [List.filter, beq_self_eq_true, List.length_cons, List.length_nil]
    omega

/-- C25, failing input: the group has `maxMembers = 2`, two active members and the record of
user `2`, who left; `addMember` for user `2` takes the reactivation branch, does not throw, and
returns a group with three active members. -/
theorem addMember_reactivation_exceeds_cap :
    sampleLeft.settings.maxMembers = 2 ∧
      activeMembersCount sampleLeft = 2 ∧
      sampleLeft.members.map (fun m => (m.user, m.status))
        = [(1, MemberStatus.active), (2, MemberStatus.left), (3, MemberStatus.active)] ∧
      (addMember sampleLeft 2 Role.member 1500).thrown = none ∧
      activeMembersCount (addMember sampleLeft 2 Role.member 1500).group = 3 ∧
      (addMember sampleLeft 2 Role.member 1500).group.settings.maxMembers = 2 :=
  ⟨by decide, by decide, by decide, by decide, by decide, by decide⟩

/-- The handler of `send_message` checks membership: for a user without an active member
record it stores what it loaded and emits one `error` to the session. -/
theorem sendMessageHandler_not_member (s : Session) (groupId : String) (group : Group)
    (populated : Option Chat) (groupObjectId newChatId newId : Nat) (content : String)
    (messageType : MessageType) (fileData : FileData) (now : Time)
    (hnot : isActiveMember group s.userId = false) :
    sendMessageHandler s groupId (Except.ok (some (group, populated))) groupObjectId newChatId
        newId content messageType fileData now
      = { stored := some (group, populated)
          emitted := [{ target := Target.session, event := "error",
                        payload := "Not a member of this group" }] } := by
  unfold isActiveMember at hnot
  simp only [sendMessageHandler, hnot, Bool.not_false, if_true]

/-- C27, failing input: user `9` has no member record in the group of user `1`, whose chat
holds messages `11` and `12`. The session of user `9` sends `add_reaction` and
`mark_messages_read` for message `11`: both handlers store a changed chat (a reaction, a read
record of user `9`) and emit to the group room instead of an `error` to the session, whereas
`send_message` from the same session is refused. -/
theorem outsider_reaction_and_read_are_stored :
    isActiveMember sampleGroup 9 = false ∧
      sampleChatPosted.messages.map (fun m => (m.id, m.reactions, m.readBy))
        = [(11, [], []), (12, [], [])] ∧
      (addReactionHandler sampleOutsider "g1"
          (Except.ok (some (sampleGroup, some sampleChatPosted))) 11 "+1" 3000).emitted
        = [{ target := Target.room "group_g1", event := "message_reaction", payload := "g1" }] ∧
      ((addReactionHandler sampleOutsider "g1"
          (Except.ok (some (sampleGroup, some sampleChatPosted))) 11 "+1" 3000).stored.bind
            (fun p => p.2)).map (fun c => c.messages.map (fun m => (m.id, m.reactions)))
        = some [(11, [Reaction.mk 9 "+1" 3000]), (12, [])] ∧
      (markMessagesReadHandler sampleOutsider "g1"
          (Except.ok (some (sampleGroup, some sampleChatPosted))) (some [11]) 3000).emitted
        = [{ target := Target.others "group_g1", event := "messages_read", payload := "g1" }] ∧
      ((markMessagesReadHandler sampleOutsider "g1"
          (Except.ok (some (sampleGroup, some sampleChatPosted))) (some [11]) 3000).stored.bind
            (fun p => p.2)).map (fun c => c.messages.map (fun m => (m.id, m.readBy)))
        = some [(11, [ReadRecord.mk 9 3000]), (12, [])] ∧
      (sendMessageHandler sampleOutsider "g1"
          (Except.ok (some (sampleGroup, some sampleChatPosted))) 7 8 13 "hi" MessageType.text
          { url := none, name := none, size := none } 3000).emitted
        = [{ target := Target.session, event := "error",
             payload := "Not a member of this group" }] :=
  ⟨by decide, by decide, by decide, by decide, by decide, by decide, by decide⟩

/-- A request to a route of `routes/groups.js` that carries no `groupId` in its body is refused
by `groupMember` with status 400, whoever sends it and whatever the store holds: the path
parameter of these routes is `id`, which the middleware does not read. -/
theorem groupMember_groupsRoute_no_body (findById : String → Except String (Option Group))
    (user : AuthUser) :
    groupMember (groupsRouteRequest user none) findById
      = Admission.rejected 400 "Group ID is required" := by
  simp [groupMember, groupsRouteRequest, stringOrNull]

/-- C29, failing input: the store holds group `g1`, created by user `1`. The creator posts to
`/api/groups/g1/start` and names the group only in the path: `groupMember` answers 400
`Group ID is required`, and so it does for leave and delete; the same creator on a route of
`routes/exams.js`, whose path parameter is `groupId`, is admitted with the group. -/
theorem start_named_by_path_is_refused :
    sampleStore "g1" = Except.ok (some sampleJoined) ∧
      sampleJoined.creator = sampleCreator.id ∧
      isActiveMember sampleJoined sampleCreator.id = true ∧
      startRequest sampleStore sampleCreator "g1" none 5000
        = GuardedResult.denied 400 "Group ID is required" ∧
      leaveGuardedRequest sampleStore sampleCreator "g1" none
        = GuardedResult.denied 400 "Group ID is required" ∧
      deleteRequest sampleStore sampleCreator "g1" none
        = GuardedResult.denied 400 "Group ID is required" ∧
      groupMember (examsRouteRequest sampleCreator "g1" none) sampleStore
        = Admission.next (some sampleJoined) :=
  ⟨rfl, rfl, by decide, rfl, rfl, rfl, rfl⟩

/-- For a user who is not an administrator, `groupMember` passes control only with the group
the store holds under the id of the request, in which the user is an active member. -/
theorem groupMember_next_of_user (req : GroupRequest)
    (findById : String → Except String (Option Group)) (user : AuthUser) (admitted : Option Group)
    (huser : req.user = some user) (hrole : user.isAdmin = false)
    (hnext : groupMember req findById = Admission.next admitted) :
    ∃ g groupId, admitted = some g ∧ findById groupId = Except.ok (some g) ∧
      isActiveMember g user.id = true := by
  unfold groupMember at hnext
  rw [huser] at hnext
  simp only [hrole] at hnext
  split at hnext
  · cases hnext
  · rename_i groupId hid
    simp only [Bool.false_eq_true, if_false] at hnext
    split at hnext
    · cases hnext
    · cases hnext
    · rename_i g hfind
      split at hnext
      · cases hnext
      · rename_i hmem
        cases hnext
        refine ⟨g, groupId, rfl, hfind, ?_⟩
        unfold isActiveMember
        simpa using hmem

/-- C30, failing input: an administrator requests the exam of group `g1` through a route
behind `groupMember`. The middleware passes control without loading the group, `req.group` is
not set, and the handler that reads `req.group.exam` fails. -/
theorem admin_passes_without_group :
    sampleAdmin.isAdmin = true ∧
      sampleStore "g1" = Except.ok (some sampleJoined) ∧
      groupMember (examsRouteRequest sampleAdmin "g1" none) sampleStore = Admission.next none ∧
      getExamRequest sampleStore sampleAdmin "g1" = GuardedResult.crashed "TypeError" :=
  ⟨rfl, rfl, rfl, rfl⟩

/-- C24, counterexample: in the state reached by create, invite, join and `submitExam`, the
stored `completionRate` is 0 while `updateStats` would store 50: `submitExam` counts the
submission without recomputing the rate. -/
theorem updateStats_changes_after_submitExam :
    Reachable sampleSubmitted ∧
      sampleSubmitted.stats.completionRate = JSNumber.finite 0 ∧
      (updateStats sampleSubmitted).stats.completionRate = JSNumber.finite 50 ∧
      updateStats sampleSubmitted ≠ sampleSubmitted := by
  have h50 : (updateStats sampleSubmitted).stats.completionRate = JSNumber.finite 50 := by
    rw [updateStats_completionRate]
    show JSNumber.times100 (JSNumber.div (((0 + 1 : ℕ) : ℕ) : ℚ) (((2 : ℕ) : ℕ) : ℚ))
      = JSNumber.finite 50
    rw [JSNumber.times100_div_of_ne_zero _ _ (by norm_num)]
    norm_num
  refine ⟨sampleSubmitted_reachable, rfl, h50, ?_⟩
  intro heq
  rw [heq] at h50
  have h0 : sampleSubmitted.stats.completionRate = JSNumber.finite 0 := rfl
  rw [h0] at h50
  injection h50 with h
  norm_num at h

/-- The registry after a sequence of connection events holds an entry for a user exactly when
the last event of that user is a connect. -/
theorem registry_isSome_iff (events : List SessionEvent) (userId : UserId) :
    isUserOnline (events.foldl registryStep emptyRegistry) userId = true
      ↔ ∃ socketId, lastEventOf events userId = some (SessionEvent.connect userId socketId) := by
  induction events using List.reverseRecOn with
  | nil => simp [isUserOnline, emptyRegistry, lastEventOf]
  | append_singleton es e ih =>
    rw [List.foldl_append, List.foldl_cons, List.foldl_nil]
    unfold lastEventOf at ih ⊢
    rw [List.filter_append]
    by_cases hu : e.user = userId
    · have hfil : List.filter (fun e => e.user == userId) [e] = [e] := by
        simp [List.filter, hu]
      rw [hfil, List.getLast?_append, List.getLast?_singleton]
      cases e with
      | connect u s =>
        have hus : u = userId := hu
        subst hus
        simp [isUserOnline, registryStep]
      | disconnect u s =>
        have hus : u = userId := hu
        subst hus
        simp [isUserOnline, registryStep]
    · have hb : (e.user == userId) = false := by simpa using hu
      have hfil : List.filter (fun e => e.user == userId) [e] = [] := by
        simp [List.filter, hb]
      rw [hfil, List.append_nil, ← ih]
      have hne : userId ≠ e.user := fun h => hu h.symm
      cases e with
      | connect u s =>
        have hne2 : userId ≠ u := hne
        simp [isUserOnline, registryStep, hne2]
      | disconnect u s =>
        have hne2 : userId ≠ u := hne
        simp [isUserOnline, registryStep, hne2]

/-- C28, counterexample: user `2` connects with sessions `s1` and `s2` and then session `s1`
disconnects. Session `s2` is still live, yet `isUserOnline` answers `false`: the disconnect
deleted the entry of the user, which `s2` had overwritten. -/
theorem disconnect_drops_other_session :
    liveSessions [SessionEvent.connect 2 "s1", SessionEvent.connect 2 "s2",
        SessionEvent.disconnect 2 "s1"] 2 = ["s2"] ∧
      isUserOnline ([SessionEvent.connect 2 "s1", SessionEvent.connect 2 "s2",
        SessionEvent.disconnect 2 "s1"].foldl registryStep emptyRegistry) 2 = false :=
  ⟨by decide, by decide⟩

/-- C28, amended: after any sequence of connects and disconnects, `isUserOnline(u)` is true
exactly when the last connection event of `u` is a connect, and a disconnect of any session of
`u` leaves `u` offline while it changes the entry of no other user. -/
theorem isUserOnline_iff_last_connect (events : List SessionEvent) (userId : UserId) :
    (isUserOnline (events.foldl registryStep emptyRegistry) userId = true
        ↔ ∃ socketId, lastEventOf events userId = some (SessionEvent.connect userId socketId)) ∧
      (∀ socketId, isUserOnline (registryStep (events.foldl registryStep emptyRegistry)
          (SessionEvent.disconnect userId socketId)) userId = false) ∧
      (∀ socketId other, other ≠ userId →
        registryStep (events.foldl registryStep emptyRegistry)
          (SessionEvent.disconnect userId socketId) other
          = events.foldl registryStep emptyRegistry other) :=
  ⟨registry_isSome_iff events userId,
    fun _ => by simp [isUserOnline, registryStep],
    fun _ other hne => by simp [registryStep, hne]⟩

/-! ## Pagination of the message log -/

theorem jsIndex_natCast (len a : Nat) : jsIndex len (a : Int) = Min.min a len := by
  simp [jsIndex]

theorem reverse_take_drop_reverse {α : Type} (l : List α) (a b : Nat) (hab : a ≤ b)
    (hb : b ≤ l.length) :
    ((l.reverse.take b).drop a).reverse = (l.take (l.length - a)).drop (l.length - b) := by
  rw [List.reverse_drop, List.reverse_take, List.reverse_reverse, List.take_drop,
    List.length_take, List.length_reverse]
  congr 2
  omega

theorem messagesPage_eq {α : Type} (log : List α) (page limit : Nat) (hpage : 1 ≤ page) :
    messagesPage log (page : Int) (limit : Int)
      = (log.take (log.length - (page - 1) * limit)).drop (log.length - page * limit) := by
  obtain ⟨k, rfl⟩ : ∃ k, page = k + 1 := ⟨page - 1, by omega⟩
  have hskip : (((k + 1 : Nat) : Int) - 1) * (limit : Int) = ((k * limit : Nat) : Int) := by
    push_cast
    ring
  have hstop : ((k * limit : Nat) : Int) + (limit : Int) = (((k + 1) * limit : Nat) : Int) := by
    push_cast
    ring
  simp only [messagesPage, jsSlice, hskip, hstop, jsIndex_natCast, List.length_reverse]
  have hle : k * limit ≤ (k + 1) * limit := Nat.mul_le_mul_right _ (Nat.le_succ k)
  rw [reverse_take_drop_reverse log _ _ (min_le_min_right _ hle) (min_le_right _ _)]
  have key : ∀ x : Nat, log.length - min x log.length = log.length - x := fun x => by omega
  simp only [Nat.add_sub_cancel, key]

theorem hasMore_iff {α : Type} (log : List α) (page limit : Nat) (hpage : 1 ≤ page) :
    hasMore log (page : Int) (limit : Int) = true ↔ page * limit < log.length := by
  obtain ⟨k, rfl⟩ : ∃ k, page = k + 1 := ⟨page - 1, by omega⟩
  have hstop : (((k + 1 : Nat) : Int) - 1) * (limit : Int) + (limit : Int)
      = (((k + 1) * limit : Nat) : Int) := by
    push_cast
    ring
  simp only [hasMore, hstop, decide_eq_true_eq]
  exact Nat.cast_lt

theorem take_drop_append_drop {α : Type} (l : List α) (s e : Nat) (hse : s ≤ e) :
    (l.take e).drop s ++ l.drop e = l.drop s := by
  rw [List.drop_take]
  conv_rhs => rw [← List.take_append_drop (e - s) (l.drop s)]
  rw [List.drop_drop]
  congr 2
  omega

theorem pagesDownFrom_eq {α : Type} (log : List α) (limit k : Nat) :
    pagesDownFrom log limit k = log.drop (log.length - k * limit) := by
  induction k with
  | zero => simp [pagesDownFrom]
  | succ k ih =>
    rw [pagesDownFrom, ih, messagesPage_eq log (k + 1) limit (by omega), Nat.add_sub_cancel]
    apply take_drop_append_drop
    have hle : k * limit ≤ (k + 1) * limit := Nat.mul_le_mul_right _ (Nat.le_succ k)
    omega

/-- C26: for a log of `n` messages, `page ≥ 1` and `limit ≥ 1`, the messages route returns
the messages at positions `[max(0, n − page·limit), max(0, n − (page−1)·limit))` of the log in
log order, reports `hasMore` exactly when `page·limit < n`, and the pages `⌈n/limit⌉, …, 1`
concatenated in that order are the whole log. -/
theorem messages_pagination {α : Type} (log : List α) (page limit : Nat) (hpage : 1 ≤ page)
    (hlimit : 1 ≤ limit) :
    messagesPage log (page : Int) (limit : Int)
        = (log.take (log.length - (page - 1) * limit)).drop (log.length - page * limit) ∧
      (hasMore log (page : Int) (limit : Int) = true ↔ page * limit < log.length) ∧
      pagesDownFrom log limit ((log.length + limit - 1) / limit) = log := by
  refine ⟨messagesPage_eq log page limit hpage, hasMore_iff log page limit hpage, ?_⟩
  rw [pagesDownFrom_eq]
  have hle : log.length ≤ (log.length + limit - 1) / limit * limit := by
    have h1 := Nat.div_add_mod (log.length + limit - 1) limit
    have h2 := Nat.mod_lt (log.length + limit - 1) (by omega : limit > 0)
    rw [Nat.mul_comm] at h1
    omega
  rw [Nat.sub_eq_zero_of_le hle, List.drop_zero]

theorem messages_pagination_witness :
    1 ≤ 2 ∧ 1 ≤ 2 ∧
      messagesPage sampleChatPosted.messages ((2 : Nat) : Int) ((1 : Nat) : Int)
        = (sampleChatPosted.messages.take (sampleChatPosted.messages.length - (2 - 1) * 1)).drop
            (sampleChatPosted.messages.length - 2 * 1) ∧
      (hasMore sampleChatPosted.messages ((2 : Nat) : Int) ((1 : Nat) : Int) = true
        ↔ 2 * 1 < sampleChatPosted.messages.length) ∧
      pagesDownFrom sampleChatPosted.messages 1 ((sampleChatPosted.messages.length + 1 - 1) / 1)
        = sampleChatPosted.messages :=
  ⟨by decide, by decide, messages_pagination sampleChatPosted.messages 2 1 (by decide) (by decide)⟩

theorem isUserOnline_iff_last_connect_witness :
    (isUserOnline ([SessionEvent.connect 2 "s1", SessionEvent.disconnect 2 "s1",
          SessionEvent.connect 3 "t1"].foldl registryStep emptyRegistry) 3 = true
        ↔ ∃ socketId, lastEventOf [SessionEvent.connect 2 "s1", SessionEvent.disconnect 2 "s1",
            SessionEvent.connect 3 "t1"] 3 = some (SessionEvent.connect 3 socketId)) ∧
      isUserOnline (registryStep ([SessionEvent.connect 2 "s1", SessionEvent.disconnect 2 "s1",
          SessionEvent.connect 3 "t1"].foldl registryStep emptyRegistry)
          (SessionEvent.disconnect 3 "t1")) 3 = false ∧
      (2 : UserId) ≠ 3 ∧
      registryStep ([SessionEvent.connect 2 "s1", SessionEvent.disconnect 2 "s1",
          SessionEvent.connect 3 "t1"].foldl registryStep emptyRegistry)
          (SessionEvent.disconnect 3 "t1") 2
        = [SessionEvent.connect 2 "s1", SessionEvent.disconnect 2 "s1",
            SessionEvent.connect 3 "t1"].foldl registryStep emptyRegistry 2 :=
  ⟨(isUserOnline_iff_last_connect _ 3).1, (isUserOnline_iff_last_connect _ 3).2.1 "t1",
    by decide, (isUserOnline_iff_last_connect _ 3).2.2 "t1" 2 (by decide)⟩

/-! ## The challenge sub-document along the operations -/

/-- The pre-save hook leaves the challenge alone unless a start time waits for its end time. -/
theorem preSave_challenge (g : Group)
    (hs : g.challenge.startTime = none ∨ ∃ e, g.challenge.endTime = some e) :
    (preSave g).challenge = g.challenge := by
  unfold preSave
  split
  · rename_i s hstart hend
    rcases hs with h | ⟨e, h⟩
    · rw [hstart] at h
      cases h
    · rw [hend] at h
      cases h
  · rfl

theorem updateStats_challenge (g : Group) : (updateStats g).challenge = g.challenge := rfl

theorem TimingInv.settled {g : Group} (h : TimingInv g) :
    g.challenge.startTime = none ∨ ∃ e, g.challenge.endTime = some e := by
  rcases h with ⟨-, h, -⟩ | ⟨-, s, -, h⟩
  · exact Or.inl h
  · exact Or.inr ⟨_, h⟩

theorem inviteStep_challenge (inviter : UserId) (now : Time) (st : InviteState)
    (r : InviteRequest) :
    (inviteStep inviter now st r).group.challenge = st.group.challenge := by
  unfold inviteStep
  repeat' split
  all_goals rfl

theorem inviteLoop_challenge (inviter : UserId) (now : Time) (rs : List InviteRequest)
    (st : InviteState) :
    (rs.foldl (inviteStep inviter now) st).group.challenge = st.group.challenge := by
  induction rs generalizing st with
  | nil => rfl
  | cons r rs ih =>
    simp only [List.foldl_cons]
    exact (ih _).trans (inviteStep_challenge inviter now st r)

theorem inviteRoute_challenge (g : Group) (inviter : UserId) (rs : List InviteRequest)
    (now : Time) (hs : g.challenge.startTime = none ∨ ∃ e, g.challenge.endTime = some e) :
    (inviteRoute g inviter rs now).group.challenge = g.challenge := by
  have hloop := inviteLoop_challenge inviter now rs
    { group := g, invitedUsers := [], failedInvites := [] }
  unfold inviteRoute
  cases rs with
  | nil => rfl
  | cons r rs =>
    dsimp only
    split
    · rfl
    · split
      · rfl
      · dsimp only at hloop ⊢
        rw [preSave_challenge _ (by rw [hloop]; exact hs), hloop]

theorem addMember_challenge (g : Group) (userId : UserId) (role : Role) (now : Time)
    (hs : g.challenge.startTime = none ∨ ∃ e, g.challenge.endTime = some e) :
    (addMember g userId role now).group.challenge = g.challenge := by
  unfold addMember
  repeat' split
  all_goals first
    | rfl
    | exact preSave_challenge _ hs

theorem joinRoute_challenge (g : Group) (userId : UserId) (now : Time)
    (hs : g.challenge.startTime = none ∨ ∃ e, g.challenge.endTime = some e) :
    (joinRoute g userId now).group.challenge = g.challenge := by
  have hadd := addMember_challenge g userId Role.member now hs
  unfold joinRoute
  simp only
  split
  · rfl
  · split
    · exact preSave_challenge _ hs
    · split
      · rfl
      · refine (preSave_challenge _ ?_).trans hadd
        show (addMember g userId Role.member now).group.challenge.startTime = none ∨
          ∃ e, (addMember g userId Role.member now).group.challenge.endTime = some e
        rw [hadd]
        exact hs

theorem leaveRoute_challenge (g : Group) (userId : UserId)
    (hs : g.challenge.startTime = none ∨ ∃ e, g.challenge.endTime = some e) :
    (leaveRoute g userId).group.challenge = g.challenge := by
  unfold leaveRoute
  repeat' split
  all_goals first
    | rfl
    | exact preSave_challenge _ hs

theorem removeMember_challenge (g : Group) (userId : UserId)
    (hs : g.challenge.startTime = none ∨ ∃ e, g.challenge.endTime = some e) :
    (removeMember g userId).group.challenge = g.challenge := by
  unfold removeMember
  repeat' split
  all_goals first
    | rfl
    | exact preSave_challenge _ hs

theorem deleteRoute_challenge (g : Group) (userId : UserId)
    (hs : g.challenge.startTime = none ∨ ∃ e, g.challenge.endTime = some e) :
    (deleteRoute g userId).group.challenge = g.challenge := by
  unfold deleteRoute
  repeat' split
  all_goals first
    | rfl
    | exact preSave_challenge _ hs

theorem uploadExamRoute_challenge (g : Group) (paperUrl : String) (maxMarks duration : Option ℚ)
    (instructions : Option String) (now : Time)
    (hs : g.challenge.startTime = none ∨ ∃ e, g.challenge.endTime = some e) :
    (uploadExamRoute g paperUrl maxMarks duration instructions now).group.challenge
      = g.challenge := by
  unfold uploadExamRoute
  exact preSave_challenge _ hs

theorem submitExam_challenge (g : Group) (userId : UserId) (sheets : List String) (now : Time)
    (hs : g.challenge.startTime = none ∨ ∃ e, g.challenge.endTime = some e) :
    (submitExam g userId sheets now).group.challenge = g.challenge := by
  unfold submitExam
  split
  · rfl
  · exact preSave_challenge _ hs

theorem submitRoute_challenge (g : Group) (userId : UserId) (files : Option (List UploadedFile))
    (now : Time) (hs : g.challenge.startTime = none ∨ ∃ e, g.challenge.endTime = some e) :
    (submitRoute g userId files now).group.challenge = g.challenge := by
  unfold submitRoute
  dsimp only
  repeat' split
  all_goals first
    | rfl
    | exact submitExam_challenge g userId _ now hs

theorem gradeSubmission_challenge (g : Group) (userId : UserId) (marks : ℚ) (feedback : String)
    (grader : UserId) (now : Time)
    (hs : g.challenge.startTime = none ∨ ∃ e, g.challenge.endTime = some e) :
    (gradeSubmission g userId marks feedback grader now).group.challenge = g.challenge := by
  unfold gradeSubmission
  split
  · rfl
  · exact preSave_challenge _ hs

/-- The start request either refuses and stores the challenge as it was, or runs on a challenge
that has not started and stores the start instant with its end instant. -/
theorem startRoute_challenge (g : Group) (userId : UserId) (now : Time) :
    ((startRoute g userId now).group.challenge = g.challenge ∧
        (startRoute g userId now).response
          ≠ Response.json 200 true "Challenge started successfully") ∨
      (g.challenge.isStarted = false ∧
        (startRoute g userId now).group.challenge =
          { g.challenge with
            isStarted := true
            status := ChallengeStatus.active
            startTime := some now
            endTime := some (now + durationInMs g.challenge.duration) }) := by
  unfold startRoute
  split
  · exact Or.inl ⟨rfl, by simp⟩
  · split
    · exact Or.inl ⟨rfl, by simp⟩
    · split
      · exact Or.inl ⟨rfl, by simp⟩
      · rename_i hstarted
        simp only [Bool.not_eq_true] at hstarted
        simp only [startChallenge, hstarted, Bool.false_eq_true, if_false]
        exact Or.inr ⟨trivial, preSave_challenge _ (Or.inr ⟨_, rfl⟩)⟩

/-- One operation stores the challenge as it was, or it is the start of a challenge that had
not started. -/
theorem Transition.challenge_cases {g g' : Group} (h : Transition g g')
    (hs : g.challenge.startTime = none ∨ ∃ e, g.challenge.endTime = some e) :
    g'.challenge = g.challenge ∨
      (g.challenge.isStarted = false ∧ ∃ now,
        g'.challenge =
          { g.challenge with
            isStarted := true
            status := ChallengeStatus.active
            startTime := some now
            endTime := some (now + durationInMs g.challenge.duration) }) := by
  cases h with
  | groupStep hstep =>
    cases hstep with
    | invite inviter userIds now => exact Or.inl (inviteRoute_challenge g inviter userIds now hs)
    | removeMember userId => exact Or.inl (removeMember_challenge g userId hs)
    | start userId now =>
      rcases startRoute_challenge g userId now with ⟨h, -⟩ | ⟨h1, h2⟩
      · exact Or.inl h
      · exact Or.inr ⟨h1, now, h2⟩
    | uploadExam paperUrl maxMarks duration instructions now =>
      exact Or.inl (uploadExamRoute_challenge g paperUrl maxMarks duration instructions now hs)
    | submit userId files now => exact Or.inl (submitRoute_challenge g userId files now hs)
    | submitExam userId sheets now => exact Or.inl (submitExam_challenge g userId sheets now hs)
    | grade userId marks feedback grader now =>
      exact Or.inl (gradeSubmission_challenge g userId marks feedback grader now hs)
    | delete userId => exact Or.inl (deleteRoute_challenge g userId hs)
  | join userId now => exact Or.inl (joinRoute_challenge g userId now hs)
  | leave userId => exact Or.inl (leaveRoute_challenge g userId hs)

/-- The timing invariant and a closed exam are kept by every operation. -/
theorem Transition.keepsChallengeInv {g g' : Group} (h : Transition g g')
    (hg : TimingInv g ∧ g.challenge.examStarted = false) :
    TimingInv g' ∧ g'.challenge.examStarted = false := by
  obtain ⟨ht, he⟩ := hg
  rcases h.challenge_cases ht.settled with hc | ⟨hns, now, hc⟩
  · unfold TimingInv
    rw [hc]
    exact ⟨ht, he⟩
  · unfold TimingInv
    rw [hc]
    exact ⟨Or.inr ⟨rfl, now, rfl, rfl⟩, he⟩

/-- A reachable group followed by one operation is a reachable group. -/
theorem Reachable.transition {g g' : Group} (hg : Reachable g) (h : Transition g g') :
    Reachable g' := by
  cases h with
  | groupStep hstep =>
    cases hstep with
    | invite inviter userIds now => exact Reachable.invite inviter userIds now hg
    | removeMember userId => exact Reachable.removeMember userId hg
    | start userId now => exact Reachable.start userId now hg
    | uploadExam paperUrl maxMarks duration instructions now =>
      exact Reachable.uploadExam paperUrl maxMarks duration instructions now hg
    | submit userId files now => exact Reachable.submit userId files now hg
    | submitExam userId sheets now => exact Reachable.submitExam userId sheets now hg
    | grade userId marks feedback grader now =>
      exact Reachable.grade userId marks feedback grader now hg
    | delete userId => exact Reachable.delete userId hg
  | join userId now => exact Reachable.join userId now hg
  | leave userId => exact Reachable.leave userId hg

/-- Every reachable group satisfies the timing invariant and has `examStarted = false`. -/
theorem Reachable.challengeInv {g : Group} (h : Reachable g) :
    TimingInv g ∧ g.challenge.examStarted = false := by
  induction h with
  | create creator name description subject chapter duration chatId now hmin hmax =>
    have hc : (preSave (createGroup creator name description subject chapter duration chatId
        now)).challenge
        = (createGroup creator name description subject chapter duration chatId now).challenge :=
      preSave_challenge _ (Or.inl rfl)
    unfold TimingInv
    rw [hc]
    exact ⟨Or.inl ⟨rfl, rfl, rfl⟩, rfl⟩
  | @invite g inviter userIds now _ ih =>
    exact (Transition.groupStep (GroupStep.invite g inviter userIds now)).keepsChallengeInv ih
  | @join g userId now _ ih => exact (Transition.join g userId now).keepsChallengeInv ih
  | @leave g userId _ ih => exact (Transition.leave g userId).keepsChallengeInv ih
  | @removeMember g userId _ ih =>
    exact (Transition.groupStep (GroupStep.removeMember g userId)).keepsChallengeInv ih
  | @start g userId now _ ih =>
    exact (Transition.groupStep (GroupStep.start g userId now)).keepsChallengeInv ih
  | @uploadExam g paperUrl maxMarks duration instructions now _ ih =>
    exact (Transition.groupStep
      (GroupStep.uploadExam g paperUrl maxMarks duration instructions now)).keepsChallengeInv ih
  | @submit g userId files now _ ih =>
    exact (Transition.groupStep (GroupStep.submit g userId files now)).keepsChallengeInv ih
  | @submitExam g userId sheets now _ ih =>
    exact (Transition.groupStep (GroupStep.submitExam g userId sheets now)).keepsChallengeInv ih
  | @grade g userId marks feedback grader now _ ih =>
    exact (Transition.groupStep
      (GroupStep.grade g userId marks feedback grader now)).keepsChallengeInv ih
  | @delete g userId _ ih =>
    exact (Transition.groupStep (GroupStep.delete g userId)).keepsChallengeInv ih

theorem sampleStarted_reachable : Reachable sampleStarted :=
  Reachable.start 1 5000 sampleJoined_reachable

/-- C22, counterexample: no sequence of the implemented operations reaches a group with
`examStarted = true`, whatever the challenge status; no operation writes the field. -/
theorem no_reachable_group_has_exam_started :
    ¬ ∃ g : Group, Reachable g ∧ g.challenge.examStarted = true ∧
      g.challenge.status = ChallengeStatus.active := by
  rintro ⟨g, hg, hexam, -⟩
  rw [hg.challengeInv.2] at hexam
  cases hexam

/-- C22, amended: in every group reachable from a new group by the implemented operations
`examStarted` is `false`, and the submit request is refused with 400 `Exam has not started yet`
and stores the group unchanged; the status `active` itself is reached by the start request. -/
theorem submit_refused_in_reachable (g : Group) (h : Reachable g) :
    g.challenge.examStarted = false ∧
      (∀ (userId : UserId) (files : Option (List UploadedFile)) (now : Time),
        submitRoute g userId files now
          = { response := Response.json 400 false "Exam has not started yet", group := g }) ∧
      (∀ (userId : UserId) (now : Time),
        (startRoute g userId now).response = Response.json 200 true "Challenge started successfully" →
          (startRoute g userId now).group.challenge.status = ChallengeStatus.active ∧
            (startRoute g userId now).group.challenge.examStarted = false) := by
  have hexam := h.challengeInv.2
  refine ⟨hexam, ?_, ?_⟩
  · intro userId files now
    simp [submitRoute, hexam]
  · intro userId now hresp
    refine ⟨?_, (Reachable.start userId now h).challengeInv.2⟩
    rcases startRoute_challenge g userId now with ⟨-, hne⟩ | ⟨-, hc⟩
    · exact absurd hresp hne
    · rw [hc]

theorem submit_refused_in_reachable_witness :
    Reachable sampleJoined ∧
      (startRoute sampleJoined 1 5000).response
        = Response.json 200 true "Challenge started successfully" ∧
      sampleJoined.challenge.examStarted = false ∧
      submitRoute sampleJoined 2 (some [{ filename := "a.png" }]) 6000
        = { response := Response.json 400 false "Exam has not started yet"
            group := sampleJoined } ∧
      (startRoute sampleJoined 1 5000).group.challenge.status = ChallengeStatus.active ∧
      (startRoute sampleJoined 1 5000).group.challenge.examStarted = false :=
  ⟨sampleJoined_reachable, rfl,
    (submit_refused_in_reachable sampleJoined sampleJoined_reachable).1,
    (submit_refused_in_reachable sampleJoined sampleJoined_reachable).2.1 2
      (some [{ filename := "a.png" }]) 6000,
    (submit_refused_in_reachable sampleJoined sampleJoined_reachable).2.2 1 5000 rfl⟩

/-- C23: in every reachable group, once `startTime` is set `endTime` equals
`startTime + duration × 86,400,000`, and no sequence of operations from that state changes
`startTime`, `endTime` or `duration`. -/
theorem timing_fixed_once_started (g : Group) (h : Reachable g) (s : Time)
    (hstart : g.challenge.startTime = some s) :
    g.challenge.endTime = some (s + g.challenge.duration * 86400000) ∧
      ∀ g', Relation.ReflTransGen Transition g g' →
        g'.challenge.startTime = some s ∧
          g'.challenge.endTime = some (s + g.challenge.duration * 86400000) ∧
          g'.challenge.duration = g.challenge.duration := by
  have hms : ∀ d : Int, durationInMs d = d * 86400000 := fun d => by
    unfold durationInMs
    ring
  have hend : ∀ x : Group, Reachable x → x.challenge.startTime = some s →
      x.challenge.isStarted = true ∧
        x.challenge.endTime = some (s + x.challenge.duration * 86400000) := by
    intro x hx hxs
    rcases hx.challengeInv.1 with ⟨-, hnone, -⟩ | ⟨hst, s', hs', he'⟩
    · rw [hnone] at hxs
      cases hxs
    · rw [hs'] at hxs
      cases hxs
      exact ⟨hst, by rw [he', hms]⟩
  refine ⟨(hend g h hstart).2, ?_⟩
  intro g' hsteps
  have key : Reachable g' ∧ g'.challenge.startTime = some s ∧
      g'.challenge.duration = g.challenge.duration := by
    induction hsteps with
    | refl => exact ⟨h, hstart, rfl⟩
    | @tail b c _ hbc ih =>
      obtain ⟨hb, hbs, hbd⟩ := ih
      refine ⟨hb.transition hbc, ?_⟩
      rcases hbc.challenge_cases hb.challengeInv.1.settled with hc | ⟨hns, -, -⟩
      · rw [hc]
        exact ⟨hbs, hbd⟩
      · rw [(hend b hb hbs).1] at hns
        cases hns
  obtain ⟨hr, hs', hd⟩ := key
  exact ⟨hs', by rw [← hd]; exact (hend g' hr hs').2, hd⟩

theorem timing_fixed_once_started_witness :
    Reachable sampleStarted ∧ sampleStarted.challenge.startTime = some 5000 ∧
      sampleStarted.challenge.endTime = some (5000 + sampleStarted.challenge.duration * 86400000) ∧
      ∀ g', Relation.ReflTransGen Transition sampleStarted g' →
        g'.challenge.startTime = some 5000 ∧
          g'.challenge.endTime = some (5000 + sampleStarted.challenge.duration * 86400000) ∧
          g'.challenge.duration = sampleStarted.challenge.duration :=
  ⟨sampleStarted_reachable, rfl,
    timing_fixed_once_started sampleStarted sampleStarted_reachable 5000 rfl⟩

/-! ## Statistics of reachable groups -/

theorem updateStats_updateStats (g : Group) : updateStats (updateStats g) = updateStats g := by
  have hm : gradedMarks (updateStats g) = gradedMarks g := rfl
  have ha : activeMembersCount (updateStats g) = activeMembersCount g := rfl
  unfold updateStats at hm ha ⊢
  simp only [hm, ha]
  cases gradedMarks g <;> rfl

/-- The pre-save hook and `updateStats` write different parts of the document. -/
theorem updateStats_preSave (g : Group) : updateStats (preSave g) = preSave (updateStats g) := by
  cases hstart : g.challenge.startTime with
  | none =>
    have h1 : preSave g = g := by
      unfold preSave
      rw [hstart]
    have h2 : preSave (updateStats g) = updateStats g := by
      unfold preSave
      rw [updateStats_challenge, hstart]
    rw [h1, h2]
  | some s =>
    cases hend : g.challenge.endTime with
    | some e =>
      have h1 : preSave g = g := preSave_of_endTime g e hend
      have h2 : preSave (updateStats g) = updateStats g := preSave_of_endTime _ e hend
      rw [h1, h2]
    | none =>
      have h1 : preSave g = { g with challenge :=
          { g.challenge with endTime := some (s + durationInMs g.challenge.duration) } } := by
        unfold preSave
        rw [hstart, hend]
      have h2 : preSave (updateStats g) = { updateStats g with challenge :=
          { g.challenge with endTime := some (s + durationInMs g.challenge.duration) } } := by
        unfold preSave
        rw [updateStats_challenge, hstart, hend]
      rw [h1, h2]
      rfl

/-- C24, amended: in every reachable group `stats.totalSubmissions` equals the number of
submissions, and right after a `gradeSubmission` that did not throw the stored statistics are
the derived ones: running `updateStats` changes nothing. -/
theorem stats_derived_after_grading (g : Group) (h : Reachable g) :
    g.stats.totalSubmissions = g.submissions.length ∧
      ∀ (userId : UserId) (marks : ℚ) (feedback : String) (gradedBy : UserId) (now : Time),
        (gradeSubmission g userId marks feedback gradedBy now).thrown = none →
          updateStats (gradeSubmission g userId marks feedback gradedBy now).group
            = (gradeSubmission g userId marks feedback gradedBy now).group := by
  refine ⟨h.inv.2.2, ?_⟩
  intro userId marks feedback gradedBy now hok
  cases hfind : g.submissions.find? (fun s => s.user == userId) with
  | none => simp [gradeSubmission, hfind] at hok
  | some sub =>
    simp only [gradeSubmission, hfind]
    rw [updateStats_preSave, updateStats_updateStats]

theorem stats_derived_after_grading_witness :
    Reachable sampleSubmitted ∧
      (gradeSubmission sampleSubmitted 2 78 "" 9 3000).thrown = none ∧
      sampleSubmitted.stats.totalSubmissions = sampleSubmitted.submissions.length ∧
      updateStats (gradeSubmission sampleSubmitted 2 78 "" 9 3000).group
        = (gradeSubmission sampleSubmitted 2 78 "" 9 3000).group :=
  ⟨sampleSubmitted_reachable, rfl,
    (stats_derived_after_grading sampleSubmitted sampleSubmitted_reachable).1,
    (stats_derived_after_grading sampleSubmitted sampleSubmitted_reachable).2 2 78 "" 9 3000 rfl⟩

end StudyChallenge
